import Mathlib

/-!
# buildmap_osm_text.c : the two-pass OSM text reader

A shallow embedding of `src/buildmap_osm_text.c`.

* C strings are lists of characters (`CString`), without the terminating NUL.
* C `int` values are `Int`.  The `int` that `%d` stores is the 32-bit value
  (`scan_d`); arithmetic overflow of the counters is not modelled.
* The file-level and function-level `static` variables are the fields of `State`.
* Every call into the map builder (`buildmap_*_add`, ...) is appended to the
  trace `State.out`.  What such a call returns is not decided by this file:
  it is given by the collaborators `Extern`, each of which sees the trace of
  the calls made before it.
* `buildmap_fatal` stops the run (`Outcome.fatal`); a read of an
  indeterminate or out-of-bounds cell is `Outcome.undefined`.
-/

namespace BuildmapOsmText

/-! ## C strings and the `sscanf` directives used by the reader -/

abbrev CString := List Char

/-- The C locale `isspace`: space, `\t`, `\n`, `\v`, `\f`, `\r`. -/
def isspace (c : Char) : Bool :=
  c.toNat == 32 || (9 ≤ c.toNat && c.toNat ≤ 13)

def isdigit (c : Char) : Bool :=
  48 ≤ c.toNat && c.toNat ≤ 57

/-- The scan set `[a-zA-Z0-9_]`. -/
def isword (c : Char) : Bool :=
  (97 ≤ c.toNat && c.toNat ≤ 122) || (65 ≤ c.toNat && c.toNat ≤ 90) || isdigit c || c.toNat == 95

/-- The scan set `[\"']`. -/
def isquote (c : Char) : Bool :=
  c.toNat == 34 || c.toNat == 39

def tolower (c : Char) : Char :=
  if 65 ≤ c.toNat ∧ c.toNat ≤ 90 then Char.ofNat (c.toNat + 32) else c

/-- The test `strncasecmp(p, lit, strlen(lit)) == 0`. -/
def strncasecmp_eq (p lit : CString) : Bool :=
  (p.take lit.length).map tolower == lit.map tolower

/-- The loop `for (; *p && isspace(*p); p++) ;`, also a blank in a format. -/
def skip_space : CString → CString
  | [] => []
  | c :: cs => if isspace c then skip_space cs else c :: cs

/-- Ordinary characters of a format: each must be the next input character. -/
def scan_lit : CString → CString → Option CString
  | [], s => some s
  | _ :: _, [] => none
  | l :: ls, c :: cs => if l = c then scan_lit ls cs else none

/-- The directive `%[set]`: the longest non-empty run of characters of the set. -/
def scan_set (p : Char → Bool) (s : CString) : Option (CString × CString) :=
  if s.takeWhile p = [] then none else some (s.takeWhile p, s.dropWhile p)

def digits_value (ds : CString) : Nat :=
  ds.foldl (fun acc c => 10 * acc + (c.toNat - 48)) 0

def scan_digits (s : CString) : Option (Nat × CString) :=
  match scan_set isdigit s with
  | none => none
  | some (ds, rest) => some (digits_value ds, rest)

/-- A decimal integer as `strtol` reads it: blanks, an optional sign, at
least one digit; the value is not yet bounded. -/
def scan_integer (s : CString) : Option (Int × CString) :=
  match skip_space s with
  | '-' :: t =>
    match scan_digits t with
    | none => none
    | some (n, rest) => some (- (n : Int), rest)
  | '+' :: t =>
    match scan_digits t with
    | none => none
    | some (n, rest) => some ((n : Int), rest)
  | t =>
    match scan_digits t with
    | none => none
    | some (n, rest) => some ((n : Int), rest)

/-- The result of `strtol` for the value `v`: a 64-bit `long`, `LONG_MIN` or
`LONG_MAX` when `v` is out of its range. -/
def long_of_value (v : Int) : Int :=
  if v < -9223372036854775808 then -9223372036854775808
  else if 9223372036854775807 < v then 9223372036854775807
  else v

/-- The conversion `(int) v` of a `long` to a 32-bit `int`: `v` modulo 2^32,
between -2^31 and 2^31 - 1. -/
def int_of_long (v : Int) : Int :=
  (v + 2147483648) % 4294967296 - 2147483648

/-- The directive `%d` with an `int *` argument: the integer is read as by
`strtol` and stored through `(int)`, so a value of magnitude 2^31 or more is
stored wrapped (4294967297 is stored as 1). -/
def scan_d (s : CString) : Option (Int × CString) :=
  match scan_integer s with
  | none => none
  | some (v, rest) => some (int_of_long (long_of_value v), rest)

/-- The formats `"way id=%*[\"']%d..."`, `"nd ref=%*[\"']%d..."` and
`"node id=%*[\"']%d..."` up to and including the `%d`: the integer that is
assigned and the input left after it. -/
def scan_elem_int (elem key : CString) (data : CString) : Option (Int × CString) :=
  match scan_lit elem data with
  | none => none
  | some s1 =>
    match scan_lit key (skip_space s1) with
    | none => none
    | some s2 =>
      match scan_set isquote s2 with
      | none => none
      | some (_, s3) => scan_d s3

/-- What `sscanf(data, "way id=%*[\"']%d%*[\"']", &in_way)` assigns, if anything. -/
def sscanf_way (data : CString) : Option Int :=
  (scan_elem_int "way".toList "id=".toList data).map Prod.fst

/-- What `sscanf(data, "nd ref=%*[\"']%d%*[\"']", &node)` assigns; the call
returns 1 exactly when it assigns. -/
def sscanf_nd (data : CString) : Option Int :=
  (scan_elem_int "nd".toList "ref=".toList data).map Prod.fst

/-- The call `sscanf(data, "node id=%*[\"']%d%*[\"']%n", &NodeId, &nchars)`:
the value assigned to `NodeId` and the value assigned to `nchars`, if any. -/
def sscanf_node (data : CString) : Option Int × Option Nat :=
  match scan_elem_int "node".toList "id=".toList data with
  | none => (none, none)
  | some (v, s4) =>
    match scan_set isquote s4 with
    | none => (some v, none)
    | some (_, s5) => (some v, some (data.length - s5.length))

/-- The call `sscanf(p, "%[a-zA-Z0-9_]=%*[\"']%[^\"']%*[\"']%n", tag, value, &nchars)`:
what is assigned to `tag`, to `value` and to `nchars`. -/
def sscanf_attr (p : CString) : Option CString × Option CString × Option Nat :=
  match scan_set isword p with
  | none => (none, none, none)
  | some (t, s1) =>
    match scan_lit "=".toList s1 with
    | none => (some t, none, none)
    | some s2 =>
      match scan_set isquote s2 with
      | none => (some t, none, none)
      | some (_, s3) =>
        match scan_set (fun c => !isquote c) s3 with
        | none => (some t, none, none)
        | some (v, s4) =>
          match scan_set isquote s4 with
          | none => (some t, some v, none)
          | some (_, s5) => (some t, some v, some (p.length - s5.length))

/-- The call `sscanf(data, "tag k=%*[\"']%[^\"']%*[\"'] v=%*[\"']%[^\"']%*[\"']", tag, value)`:
what is assigned to `tag` and to `value`. -/
def sscanf_tag (data : CString) : Option CString × Option CString :=
  match scan_lit "tag".toList data with
  | none => (none, none)
  | some s1 =>
    match scan_lit "k=".toList (skip_space s1) with
    | none => (none, none)
    | some s2 =>
      match scan_set isquote s2 with
      | none => (none, none)
      | some (_, s3) =>
        match scan_set (fun c => !isquote c) s3 with
        | none => (none, none)
        | some (t, s4) =>
          match scan_set isquote s4 with
          | none => (some t, none)
          | some (_, s5) =>
            match scan_lit "v=".toList (skip_space s5) with
            | none => (some t, none)
            | some s6 =>
              match scan_set isquote s6 with
              | none => (some t, none)
              | some (_, s7) =>
                match scan_set (fun c => !isquote c) s7 with
                | none => (some t, none)
                | some (v, _) => (some t, some v)

/-! ## Data -/

inductive BuildMapDictionary
  | DictionaryPrefix
  | DictionaryStreet
  | DictionaryType
  | DictionarySuffix
  | DictionaryCity
  deriving DecidableEq, Repr

/-- A call into the map builder that changes one of its stores, with its arguments. -/
inductive Call
  | buildmap_dictionary_add (d : BuildMapDictionary) (string : CString)
  | buildmap_point_add (lon lat : Int)
  | buildmap_city_add (fips year name : Int)
  | buildmap_zip_add (zip lon lat : Int)
  | buildmap_polygon_add_landmark (landid layer name : Int)
  | buildmap_polygon_add (landid cenid polyid : Int)
  | buildmap_line_add (lineid layer from_point to_point : Int)
  | buildmap_street_add (layer dirp name typ dirs line : Int)
  | buildmap_range_add_no_address (line street : Int)
  | buildmap_square_adjust_limits (lon lat : Int)
  | buildmap_line_sort
  | buildmap_shape_add (line i lineid seq lon lat : Int)
  deriving DecidableEq, Repr

/-- One rule of a category: `layer_info_t`.  `layerp` is the integer the
pointer refers to, `none` for a null pointer. -/
structure layer_info_t where
  name : CString
  layerp : Option Int
  flags : Int
  deriving DecidableEq, Repr

/-- One category of the rule table: an entry of `list_info`. -/
structure list_info_t where
  name : CString
  list : Option (List layer_info_t)
  deriving DecidableEq, Repr

/-- What this file uses and does not define.  `list_info` and every `list`
hold the array cells before the terminating entry (the one whose name is
null), cell 0 included.  `strtod_micro v` is the `int` that the assignment of
`f * 1000000` stores, for the `double f` that `sscanf(v, "%lf", &f)` assigns,
`none` when it assigns nothing.
The functions of the map builder see the calls made so far. -/
structure Extern where
  AREA : Int
  list_info : List list_info_t
  strtod_micro : CString → Option Int
  buildmap_dictionary_add : List Call → BuildMapDictionary → CString → Int
  buildmap_point_add : List Call → Int → Int → Int
  buildmap_point_get_longitude : List Call → Int → Int
  buildmap_point_get_latitude : List Call → Int → Int
  buildmap_line_add : List Call → Int → Int → Int → Int → Int
  buildmap_street_add : List Call → Int → Int → Int → Int → Int → Int → Int
  buildmap_line_find_sorted : List Call → Int → Int

/-- An entry of the array `points`. -/
structure points_t where
  id : Int
  npoint : Int
  deriving DecidableEq, Repr

structure shapeinfo where
  lineid : Int
  count : Nat
  lons : List Int
  lats : List Int
  deriving DecidableEq, Repr

/-- The variables of the file.  `points` is the first `nPoints` cells of the
array of that name and `shapes` the first `numshapes` cells (both counters
only ever grow together with their array); `WayNodes` is the whole
allocated array, `nWayNodeAlloc` cells, an unwritten cell being `none`.
`node_tag`, `node_value`, `tagk`, `tagv`, `tag`, `value` are the static
buffers of `buildmap_osm_text_node`, `buildmap_osm_text_node_tag` and
`buildmap_osm_text_tag` (`none` before the first write); `fips`, `lineid`,
`polyid`, `cenid` the static counters of `buildmap_osm_text_node_end` and
`buildmap_osm_text_way_end`. -/
structure State where
  in_way : Int
  nWayNodes : Nat
  nWayNodeAlloc : Nat
  WayNodes : List (Option Int)
  WayLayer : Int
  WayStreetName : Option CString
  WayFlags : Int
  WayInvalid : Int
  NodeId : Int
  NodePlace : Option CString
  NodeTownName : Option CString
  NodePostalCode : Option CString
  NodeLon : Int
  NodeLat : Int
  nPolygons : Int
  HaveLonMin : Int
  HaveLonMax : Int
  HaveLatMin : Int
  HaveLatMax : Int
  LonMin : Int
  LonMax : Int
  LatMin : Int
  LatMax : Int
  points : List points_t
  node_tag : Option CString
  node_value : Option CString
  fips : Int
  shapes : List shapeinfo
  tagk : Option CString
  tagv : Option CString
  tag : Option CString
  value : Option CString
  lineid : Int
  polyid : Int
  cenid : Int
  out : List Call
  deriving DecidableEq

/-- The initial values of the variables (the `#else` branch of the bounding box). -/
def State.init : State where
  in_way := 0
  nWayNodes := 0
  nWayNodeAlloc := 0
  WayNodes := []
  WayLayer := 0
  WayStreetName := none
  WayFlags := 0
  WayInvalid := 0
  NodeId := 0
  NodePlace := none
  NodeTownName := none
  NodePostalCode := none
  NodeLon := 0
  NodeLat := 0
  nPolygons := 0
  HaveLonMin := 0
  HaveLonMax := 0
  HaveLatMin := 0
  HaveLatMax := 0
  LonMin := 0
  LonMax := 0
  LatMin := 0
  LatMax := 0
  points := []
  node_tag := none
  node_value := none
  fips := 32999 * 10000
  shapes := []
  tagk := none
  tagv := none
  tag := none
  value := none
  lineid := 0
  polyid := 0
  cenid := 0
  out := []

/-- How a handler ends: it returns `ret` in state `s`, `buildmap_fatal`
stops the run, or it reads a cell that holds no value. -/
inductive Outcome
  | ok (ret : Int) (s : State)
  | fatal
  | undefined
  deriving DecidableEq

/-- Record a call into the map builder. -/
def State.call (s : State) (c : Call) : State :=
  { s with out := s.out ++ [c] }

/-- The read `a[i]` of an `int` array whose cells are `a`. -/
def array_get (a : List (Option Int)) (i : Int) : Option Int :=
  if i < 0 then none else (a.getD i.toNat none)

/-! ## The handlers -/

def buildmap_osm_text_reset_way (s : State) : State :=
  { s with in_way := 0, nWayNodes := 0, WayStreetName := none, WayFlags := 0, WayInvalid := 0 }

def buildmap_osm_text_reset_node (s : State) : State :=
  { s with NodeId := 0, NodePlace := none, NodeTownName := none, NodePostalCode := none }

/-- The helper `str2dict`: the dictionary call it makes and the value it returns. -/
def str2dict (E : Extern) (s : State) (d : BuildMapDictionary) (string : Option CString) :
    Int × State :=
  (E.buildmap_dictionary_add s.out d (string.getD []),
   s.call (Call.buildmap_dictionary_add d (string.getD [])))

def buildmap_osm_text_point_add (s : State) (id npoint : Int) : State :=
  { s with points := s.points ++ [{ id := id, npoint := npoint }] }

/-- The loop of `buildmap_osm_text_point_get` over the cells `i < nPoints`. -/
def point_scan : List points_t → Int → Int
  | [], _ => -1
  | p :: ps, id => if p.id = id then p.npoint else point_scan ps id

def buildmap_osm_text_point_get (s : State) (id : Int) : Int :=
  point_scan s.points id

/-- The local variables of `buildmap_osm_text_node` during its `while` loop
(`flat` and `flon` stand for `flat * 1000000` and `flon * 1000000`). -/
structure NodeLocals where
  p : CString
  nchars : Nat
  flat : Option Int
  flon : Option Int
  NodeLatRead : Nat
  NodeLonRead : Nat
  deriving DecidableEq, Repr

/-- The loop `while (NodeLatRead == 0 || NodeLonRead == 0) { ... }` of
`buildmap_osm_text_node`; `fuel` bounds the number of iterations. -/
def node_attrs (E : Extern) : Nat → State → NodeLocals → Option State
  | 0, _, _ => none
  | fuel + 1, s, l =>
    if l.NodeLatRead = 0 ∨ l.NodeLonRead = 0 then
      let p := skip_space l.p
      let r := sscanf_attr p
      let s1 := { s with node_tag := r.1.orElse (fun _ => s.node_tag),
                         node_value := r.2.1.orElse (fun _ => s.node_value) }
      let nchars := r.2.2.getD l.nchars
      match s1.node_tag with
      | none => none
      | some tag =>
        if tag = "lat".toList then
          match s1.node_value with
          | none => none
          | some value =>
            match (E.strtod_micro value).orElse (fun _ => l.flat) with
            | none => none
            | some flat =>
              if nchars ≤ p.length then
                node_attrs E fuel { s1 with NodeLat := flat }
                  { l with p := p.drop nchars, nchars := nchars, flat := some flat,
                           NodeLatRead := l.NodeLatRead + 1 }
              else none
        else if tag = "lon".toList then
          match s1.node_value with
          | none => none
          | some value =>
            match (E.strtod_micro value).orElse (fun _ => l.flon) with
            | none => none
            | some flon =>
              if nchars ≤ p.length then
                node_attrs E fuel { s1 with NodeLon := flon }
                  { l with p := p.drop nchars, nchars := nchars, flon := some flon,
                           NodeLonRead := l.NodeLonRead + 1 }
              else none
        else
          if nchars ≤ p.length then
            node_attrs E fuel s1 { l with p := p.drop nchars, nchars := nchars }
          else none
    else some s

/-- The first part of `buildmap_osm_text_node`, up to the end of the `while`
loop: `NodeId`, `NodeLon` and `NodeLat` are read from the line.  `none` when
a cell without a value is read (`nchars` not assigned, `p` moved past the end
of the line, a static buffer compared before it was written). -/
def node_scan (E : Extern) (s : State) (data : CString) : Option State :=
  match sscanf_node data with
  | (_, none) => none
  | (idv, some nchars) =>
    node_attrs E (data.length + 1)
      { s with NodeId := idv.getD s.NodeId, NodeLat := 0, NodeLon := 0 }
      { p := data.drop nchars, nchars := nchars, flat := none, flon := none,
        NodeLatRead := 0, NodeLonRead := 0 }

/-- The second part of `buildmap_osm_text_node`, from the bounding box test on. -/
def node_insert (E : Extern) (s : State) : Int × State :=
  if (s.HaveLonMin ≠ 0 ∧ s.NodeLon < s.LonMin)
      ∨ (s.HaveLonMax ≠ 0 ∧ s.NodeLon > s.LonMax)
      ∨ (s.HaveLatMin ≠ 0 ∧ s.NodeLat < s.LatMin)
      ∨ (s.HaveLatMax ≠ 0 ∧ s.NodeLat > s.LatMax) then
    (1, { s with NodeLat := 0, NodeLon := 0 })
  else
    let npoints := E.buildmap_point_add s.out s.NodeLon s.NodeLat
    let s1 := s.call (Call.buildmap_point_add s.NodeLon s.NodeLat)
    (0, buildmap_osm_text_point_add s1 s1.NodeId npoints)

def buildmap_osm_text_node (E : Extern) (s : State) (data : CString) : Outcome :=
  match node_scan E s data with
  | none => Outcome.undefined
  | some s1 => Outcome.ok (node_insert E s1).1 (node_insert E s1).2

/-- The value of `zip` after `int zip = 0; sscanf(NodePostalCode, "%d", &zip);`. -/
def sscanf_zip (code : CString) : Int :=
  match scan_d code with
  | none => 0
  | some (v, _) => v

/-- The statement `if (NodeTownName) { ... buildmap_city_add(fips, year, s); }`. -/
def node_end_city (E : Extern) (s : State) : State :=
  match s.NodeTownName with
  | none => s
  | some name =>
    ({ s with fips := s.fips + 1 }.call
        (Call.buildmap_dictionary_add BuildMapDictionary.DictionaryCity name)).call
      (Call.buildmap_city_add (s.fips + 1) 2008
        (E.buildmap_dictionary_add s.out BuildMapDictionary.DictionaryCity name))

/-- The statement `if (NodePostalCode) { ... if (zip) buildmap_zip_add(zip, NodeLon, NodeLat); }`. -/
def node_end_zip (s : State) : State :=
  match s.NodePostalCode with
  | none => s
  | some code =>
    if sscanf_zip code ≠ 0 then
      s.call (Call.buildmap_zip_add (sscanf_zip code) s.NodeLon s.NodeLat)
    else s

def buildmap_osm_text_node_end (E : Extern) (s : State) (_data : CString) : Outcome :=
  Outcome.ok 0 (buildmap_osm_text_reset_node
    (if s.NodePlace = some "town".toList then node_end_zip (node_end_city E s) else s))

def buildmap_osm_text_way (s : State) (data : CString) : Outcome :=
  let s1 := { s with in_way := (sscanf_way data).getD s.in_way }
  if s1.in_way = 0 then Outcome.fatal else Outcome.ok 0 s1

/-- The growth of the array `WayNodes` by 100 cells when it is full. -/
def way_nodes_grow (s : State) : State :=
  if s.nWayNodes = s.nWayNodeAlloc then
    { s with nWayNodeAlloc := s.nWayNodeAlloc + 100,
             WayNodes := s.WayNodes ++ List.replicate 100 none }
  else s

/-- The write `WayNodes[nWayNodes++] = node` with the growth of the array
before it. -/
def way_nodes_push (s : State) (node : Int) : Option State :=
  if (way_nodes_grow s).nWayNodes < (way_nodes_grow s).WayNodes.length then
    some { way_nodes_grow s with
      WayNodes := (way_nodes_grow s).WayNodes.set (way_nodes_grow s).nWayNodes (some node),
      nWayNodes := (way_nodes_grow s).nWayNodes + 1 }
  else none

def buildmap_osm_text_nd (s : State) (data : CString) : Outcome :=
  if s.in_way = 0 then Outcome.fatal
  else
    match sscanf_nd data with
    | none => Outcome.ok (-1) s
    | some node =>
      if buildmap_osm_text_point_get s node < 0 then
        Outcome.ok 0 { s with WayInvalid := 1 }
      else
        match way_nodes_push s node with
        | none => Outcome.undefined
        | some s1 => Outcome.ok 0 s1

/-- Assign what `sscanf` matched to a static buffer, keep the old content otherwise. -/
def assign (new old : Option CString) : Option CString :=
  new.orElse (fun _ => old)

def buildmap_osm_text_node_tag (s : State) (data : CString) : Outcome :=
  let s1 := { s with tagk := assign (sscanf_tag data).1 s.tagk,
                     tagv := assign (sscanf_tag data).2 s.tagv }
  match s1.tagk with
  | none => Outcome.undefined
  | some tagk =>
    if tagk = "postal_code".toList then
      match s1.tagv with
      | none => Outcome.undefined
      | some tagv => Outcome.ok 0 { s1 with NodePostalCode := some tagv }
    else if tagk = "place".toList then
      match s1.tagv with
      | none => Outcome.undefined
      | some tagv => Outcome.ok 0 { s1 with NodePlace := some tagv }
    else if tagk = "name".toList then
      match s1.tagv with
      | none => Outcome.undefined
      | some tagv => Outcome.ok 0 { s1 with NodeTownName := some tagv }
    else Outcome.ok 0 s1

/-- The loop `for (i=1; found == 0 && list_info[i].name != 0; i++)` over the
cells from 1 on: the category found, if any. -/
def find_list (tag : CString) : List list_info_t → Option list_info_t
  | [] => none
  | e :: es => if tag = e.name then some e else find_list tag es

/-- The loop `for (i=1; list[i].name; i++)` over the cells from 1 on, acting
on `WayFlags` and `ret`. -/
def scan_rules (value : CString) : List layer_info_t → Int × Int → Int × Int
  | [], acc => acc
  | r :: rs, (flags, ret) =>
    if value = r.name then
      scan_rules value rs (r.flags, match r.layerp with | some l => l | none => ret)
    else scan_rules value rs (flags, ret)

def buildmap_osm_text_tag (E : Extern) (s : State) (data : CString) : Outcome :=
  if s.in_way = 0 then buildmap_osm_text_node_tag s data
  else
    let s1 := { s with tag := assign (sscanf_tag data).1 s.tag,
                       value := assign (sscanf_tag data).2 s.value }
    match s1.tag with
    | none => Outcome.undefined
    | some tag =>
      if tag = "name".toList then
        match s1.value with
        | none => Outcome.undefined
        | some value => Outcome.ok 0 { s1 with WayStreetName := some value }
      else
        match find_list tag (E.list_info.drop 1) with
        | some { name := _, list := some list } =>
          match list.drop 1, s1.value with
          | [], _ =>
            Outcome.ok 0 s1
          | _ :: _, none => Outcome.undefined
          | r :: rs, some value =>
            let fr := scan_rules value (r :: rs) (s1.WayFlags, 0)
            Outcome.ok fr.2
              { s1 with WayFlags := fr.1, WayLayer := if fr.2 ≠ 0 then fr.2 else s1.WayLayer }
        | _ => Outcome.ok 0 s1

/-- The loop `for (j=1; j<nWayNodes; j++)` of the area branch, `k` iterations
from `j` on. -/
def area_lines : Nat → Nat → State → Option State
  | 0, _, s => some s
  | k + 1, j, s =>
    match array_get s.WayNodes ((j : Int) - 1), array_get s.WayNodes (j : Int) with
    | some a, some b =>
      let prevpoint := buildmap_osm_text_point_get s a
      let point := buildmap_osm_text_point_get s b
      let lineid := s.lineid + 1
      area_lines k (j + 1)
        ({ s with lineid := lineid }.call
          (Call.buildmap_line_add lineid s.WayLayer prevpoint point))
    | _, _ => none

/-- The loop `for (j=0; j<nWayNodes; j++)` of the line branch, `k` iterations
from `j` on; `bufs` are the cells of `lonsbuf` and `latsbuf` written so far. -/
def shape_capture (E : Extern) : Nat → Nat → State → List Int × List Int →
    Option (State × List Int × List Int)
  | 0, _, s, bufs => some (s, bufs)
  | k + 1, j, s, bufs =>
    match array_get s.WayNodes (j : Int) with
    | none => none
    | some a =>
      let point := buildmap_osm_text_point_get s a
      let lon := E.buildmap_point_get_longitude s.out point
      let lat := E.buildmap_point_get_latitude s.out point
      shape_capture E k (j + 1) (s.call (Call.buildmap_square_adjust_limits lon lat))
        (bufs.1 ++ [lon], bufs.2 ++ [lat])

/-- The three calls `str2dict(DictionaryPrefix, "")`, `str2dict(DictionarySuffix, "")`
and `str2dict(DictionaryType, "")` at the head of `buildmap_osm_text_way_end`. -/
def way_end_dicts (E : Extern) (s : State) : State :=
  (str2dict E (str2dict E (str2dict E s BuildMapDictionary.DictionaryPrefix (some [])).2
    BuildMapDictionary.DictionarySuffix (some [])).2 BuildMapDictionary.DictionaryType (some [])).2

/-- The test `(WayFlags & AREA) && (fromlon == tolon) && (fromlat == tolat)`
for the points `from_point` and `to_point`. -/
def way_is_area (E : Extern) (s0 : State) (from_point to_point : Int) : Prop :=
  Int.land s0.WayFlags E.AREA ≠ 0
    ∧ E.buildmap_point_get_longitude s0.out from_point
        = E.buildmap_point_get_longitude s0.out to_point
    ∧ E.buildmap_point_get_latitude s0.out from_point
        = E.buildmap_point_get_latitude s0.out to_point

instance (E : Extern) (s0 : State) (from_point to_point : Int) :
    Decidable (way_is_area E s0 from_point to_point) := by
  unfold way_is_area
  infer_instance

/-- The area branch of `buildmap_osm_text_way_end`, before the reset. -/
def way_end_area (E : Extern) (s0 : State) : Option State :=
  area_lines (s0.nWayNodes - 1) 1
    ((((str2dict E
          { s0 with nPolygons := s0.nPolygons + 1, cenid := s0.cenid + 1,
                    polyid := s0.polyid + 1 }
          BuildMapDictionary.DictionaryStreet s0.WayStreetName).2).call
        (Call.buildmap_polygon_add_landmark (s0.nPolygons + 1) s0.WayLayer
          (E.buildmap_dictionary_add s0.out BuildMapDictionary.DictionaryStreet
            (s0.WayStreetName.getD [])))).call
      (Call.buildmap_polygon_add (s0.nPolygons + 1) (s0.cenid + 1) (s0.polyid + 1)))

/-- The statement `if (WayStreetName) rms_name = str2dict(DictionaryStreet, WayStreetName);`
with `rms_name` initially 0. -/
def street_name_dict (E : Extern) (s1 : State) : Int × State :=
  match s1.WayStreetName with
  | some name => str2dict E s1 BuildMapDictionary.DictionaryStreet (some name)
  | none => (0, s1)

/-- The line branch of `buildmap_osm_text_way_end` up to
`buildmap_range_add_no_address`: `s0` is the state after the three
dictionary calls, `h` the calls before them. -/
def way_end_street (E : Extern) (h : List Call) (s0 : State) (from_point to_point : Int) : State :=
  ((street_name_dict E
      ({ s0 with lineid := s0.lineid + 1 }.call
        (Call.buildmap_line_add (s0.lineid + 1) s0.WayLayer from_point to_point))).2.call
    (Call.buildmap_street_add s0.WayLayer
      (E.buildmap_dictionary_add h BuildMapDictionary.DictionaryPrefix [])
      (street_name_dict E
        ({ s0 with lineid := s0.lineid + 1 }.call
          (Call.buildmap_line_add (s0.lineid + 1) s0.WayLayer from_point to_point))).1
      (E.buildmap_dictionary_add
        (h ++ [Call.buildmap_dictionary_add BuildMapDictionary.DictionaryPrefix [],
               Call.buildmap_dictionary_add BuildMapDictionary.DictionarySuffix []])
        BuildMapDictionary.DictionaryType [])
      (E.buildmap_dictionary_add
        (h ++ [Call.buildmap_dictionary_add BuildMapDictionary.DictionaryPrefix []])
        BuildMapDictionary.DictionarySuffix [])
      (E.buildmap_line_add s0.out (s0.lineid + 1) s0.WayLayer from_point to_point))).call
    (Call.buildmap_range_add_no_address
      (E.buildmap_line_add s0.out (s0.lineid + 1) s0.WayLayer from_point to_point)
      (E.buildmap_street_add
        (street_name_dict E
          ({ s0 with lineid := s0.lineid + 1 }.call
            (Call.buildmap_line_add (s0.lineid + 1) s0.WayLayer from_point to_point))).2.out
        s0.WayLayer
        (E.buildmap_dictionary_add h BuildMapDictionary.DictionaryPrefix [])
        (street_name_dict E
          ({ s0 with lineid := s0.lineid + 1 }.call
            (Call.buildmap_line_add (s0.lineid + 1) s0.WayLayer from_point to_point))).1
        (E.buildmap_dictionary_add
          (h ++ [Call.buildmap_dictionary_add BuildMapDictionary.DictionaryPrefix [],
                 Call.buildmap_dictionary_add BuildMapDictionary.DictionarySuffix []])
          BuildMapDictionary.DictionaryType [])
        (E.buildmap_dictionary_add
          (h ++ [Call.buildmap_dictionary_add BuildMapDictionary.DictionaryPrefix []])
          BuildMapDictionary.DictionarySuffix [])
        (E.buildmap_line_add s0.out (s0.lineid + 1) s0.WayLayer from_point to_point)))

/-- The line branch of `buildmap_osm_text_way_end`, before the reset. -/
def way_end_line (E : Extern) (h : List Call) (s0 : State) (from_point to_point : Int) :
    Option State :=
  match shape_capture E (way_end_street E h s0 from_point to_point).nWayNodes 0
      (way_end_street E h s0 from_point to_point) ([], []) with
  | none => none
  | some (s4, lonsbuf, latsbuf) =>
    some { s4 with shapes := s4.shapes ++
      [{ lineid := s4.lineid, count := s4.nWayNodes, lons := lonsbuf, lats := latsbuf }] }

/-- The branches of `buildmap_osm_text_way_end` after the reads of
`WayNodes[0]` and `WayNodes[nWayNodes-1]`. -/
def way_end_branch (E : Extern) (h : List Call) (s0 : State) (first last : Int) : Option State :=
  if way_is_area E s0 (buildmap_osm_text_point_get s0 first)
      (buildmap_osm_text_point_get s0 last) then
    way_end_area E s0
  else
    way_end_line E h s0 (buildmap_osm_text_point_get s0 first)
      (buildmap_osm_text_point_get s0 last)

def buildmap_osm_text_way_end (E : Extern) (s : State) (_data : CString) : Outcome :=
  if s.WayInvalid ≠ 0 then Outcome.ok 0 s
  else if s.in_way = 0 then Outcome.fatal
  else
    match array_get (way_end_dicts E s).WayNodes 0,
        array_get (way_end_dicts E s).WayNodes (((way_end_dicts E s).nWayNodes : Int) - 1) with
    | some first, some last =>
      match way_end_branch E s.out (way_end_dicts E s) first last with
      | none => Outcome.undefined
      | some s4 => Outcome.ok 0 (buildmap_osm_text_reset_way s4)
    | _, _ => Outcome.undefined

/-- The loop `for (j = 1; j < count - 1; j++)` of the shape flush, `k`
iterations from `j` on. -/
def shape_points (line_index i lineid : Int) (lons lats : List Int) :
    Nat → Nat → State → Option State
  | 0, _, s => some s
  | k + 1, j, s =>
    match lons.get? j, lats.get? j with
    | some lon, some lat =>
      shape_points line_index i lineid lons lats k (j + 1)
        (s.call (Call.buildmap_shape_add line_index i lineid ((j : Int) - 1) lon lat))
    | _, _ => none

/-- The body of the loop `for (i = 0; i < numshapes; i++)` of the shape
flush for the cell `r = shapes[i]`. -/
def shape_record (E : Extern) (r : shapeinfo) (i : Nat) (s : State) : Option State :=
  if r.count ≤ 2 then some s
  else
    let line_index := E.buildmap_line_find_sorted s.out r.lineid
    if line_index ≥ 0 then
      shape_points line_index i r.lineid r.lons r.lats (r.count - 1 - 1) 1 s
    else some s

/-- The loop `for (i = 0; i < numshapes; i++)` of the shape flush over the
cells from `i` on. -/
def shapes_loop (E : Extern) : List shapeinfo → Nat → State → Option State
  | [], _, s => some s
  | r :: rs, i, s =>
    match shape_record E r i s with
    | none => none
    | some s1 => shapes_loop E rs (i + 1) s1

def buildmap_osm_text_ways_shapeinfo (E : Extern) (s : State) : Outcome :=
  match shapes_loop E s.shapes 0 (s.call Call.buildmap_line_sort) with
  | none => Outcome.undefined
  | some s1 => Outcome.ok 1 s1

/-! ## The driver -/

/-- The pointer `p` after `for (p=buf; *p && isspace(*p); p++) ;`, the two
tests on `*p`, `p++` and the second skip of blanks: `Except.error true` for
`continue`, `Except.error false` for `buildmap_fatal(0, "invalid XML")`. -/
def line_start (buf : CString) : Except Bool CString :=
  match skip_space buf with
  | [] => Except.error false
  | c :: cs =>
    if c.toNat = 10 ∨ c.toNat = 13 then Except.error true
    else if c ≠ '<' then Except.error false
    else Except.ok (skip_space cs)

/-- The branch of the `if ... else if ...` chain on the tag name. -/
inductive Token
  | osm
  | xml
  | way
  | way_end
  | node
  | node_end
  | nd
  | tag
  | relation
  | relation_end
  | member
  | member_end
  | bound
  | bounds
  | bounds_end
  | osm_end
  | invalid
  deriving DecidableEq, Repr

/-- The chain of `strncasecmp` tests, the same in both passes, in its order. -/
def token (p : CString) : Token :=
  if strncasecmp_eq p "osm".toList then Token.osm
  else if strncasecmp_eq p "?xml".toList then Token.xml
  else if strncasecmp_eq p "way".toList then Token.way
  else if strncasecmp_eq p "/way".toList then Token.way_end
  else if strncasecmp_eq p "node".toList then Token.node
  else if strncasecmp_eq p "/node".toList then Token.node_end
  else if strncasecmp_eq p "nd".toList then Token.nd
  else if strncasecmp_eq p "tag".toList then Token.tag
  else if strncasecmp_eq p "relation".toList then Token.relation
  else if strncasecmp_eq p "/relation".toList then Token.relation_end
  else if strncasecmp_eq p "member".toList then Token.member
  else if strncasecmp_eq p "/member".toList then Token.member_end
  else if strncasecmp_eq p "bound".toList then Token.bound
  else if strncasecmp_eq p "bounds".toList then Token.bounds
  else if strncasecmp_eq p "/bounds".toList then Token.bounds_end
  else if strncasecmp_eq p "/osm".toList then Token.osm_end
  else Token.invalid

/-- What pass 1 does in each branch of the chain. -/
def pass1_token (E : Extern) (s : State) (p : CString) : Token → Outcome
  | Token.osm => Outcome.ok 0 s
  | Token.xml => Outcome.ok 0 s
  | Token.way => Outcome.ok 0 s
  | Token.way_end => Outcome.ok 0 s
  | Token.node => buildmap_osm_text_node E s p
  | Token.node_end => buildmap_osm_text_node_end E s p
  | Token.nd => Outcome.ok 0 s
  | Token.tag => buildmap_osm_text_tag E s p
  | Token.relation => Outcome.ok 0 s
  | Token.relation_end => Outcome.ok 0 s
  | Token.member => Outcome.ok 0 s
  | Token.member_end => Outcome.ok 0 s
  | Token.bound => Outcome.ok 0 s
  | Token.bounds => Outcome.ok 0 s
  | Token.bounds_end => Outcome.ok 0 s
  | Token.osm_end => Outcome.ok 0 s
  | Token.invalid => Outcome.fatal

/-- What pass 2 does in each branch of the chain. -/
def pass2_token (E : Extern) (s : State) (p : CString) : Token → Outcome
  | Token.osm => Outcome.ok 0 s
  | Token.xml => Outcome.ok 0 s
  | Token.way => buildmap_osm_text_way s p
  | Token.way_end => buildmap_osm_text_way_end E s p
  | Token.node => Outcome.ok 0 s
  | Token.node_end => Outcome.ok 0 s
  | Token.nd => buildmap_osm_text_nd s p
  | Token.tag => buildmap_osm_text_tag E s p
  | Token.relation => Outcome.ok 0 s
  | Token.relation_end => Outcome.ok 0 s
  | Token.member => Outcome.ok 0 s
  | Token.member_end => Outcome.ok 0 s
  | Token.bound => Outcome.ok 0 s
  | Token.bounds => Outcome.ok 0 s
  | Token.bounds_end => Outcome.ok 0 s
  | Token.osm_end => Outcome.ok 0 s
  | Token.invalid => Outcome.fatal

/-- The body of the `while` loop of pass 1 for the line `buf`. -/
def pass1_line (E : Extern) (s : State) (buf : CString) : Outcome :=
  match line_start buf with
  | Except.error true => Outcome.ok 0 s
  | Except.error false => Outcome.fatal
  | Except.ok p => pass1_token E s p (token p)

/-- The body of the `while` loop of pass 2 for the line `buf`. -/
def pass2_line (E : Extern) (s : State) (buf : CString) : Outcome :=
  match line_start buf with
  | Except.error true => Outcome.ok 0 s
  | Except.error false => Outcome.fatal
  | Except.ok p => pass2_token E s p (token p)

/-- A `while (! feof(fdata))` loop over the lines that `fgets` delivers,
with `ret += ...` for each. -/
def run_lines (body : State → CString → Outcome) : List CString → Int → State → Outcome
  | [], ret, s => Outcome.ok ret s
  | buf :: rest, ret, s =>
    match body s buf with
    | Outcome.ok r s1 => run_lines body rest (ret + r) s1
    | Outcome.fatal => Outcome.fatal
    | Outcome.undefined => Outcome.undefined

/-- The function `buildmap_osm_text_read` on a file whose lines are `lines`. -/
def buildmap_osm_text_read (E : Extern) (s : State) (lines : List CString) : Outcome :=
  match run_lines (pass1_line E) lines 0 s with
  | Outcome.ok ret1 s1 =>
    match run_lines (pass2_line E) lines ret1 s1 with
    | Outcome.ok ret2 s2 =>
      match buildmap_osm_text_ways_shapeinfo E s2 with
      | Outcome.ok _ s3 => Outcome.ok ret2 s3
      | Outcome.fatal => Outcome.fatal
      | Outcome.undefined => Outcome.undefined
    | Outcome.fatal => Outcome.fatal
    | Outcome.undefined => Outcome.undefined
  | Outcome.fatal => Outcome.fatal
  | Outcome.undefined => Outcome.undefined

/-! ## One instance of the collaborators, for concrete runs -/

def is_point_add : Call → Bool
  | Call.buildmap_point_add _ _ => true
  | _ => false

def is_line_add : Call → Bool
  | Call.buildmap_line_add _ _ _ _ => true
  | _ => false

def is_street_add : Call → Bool
  | Call.buildmap_street_add _ _ _ _ _ _ => true
  | _ => false

def is_range_add : Call → Bool
  | Call.buildmap_range_add_no_address _ _ => true
  | _ => false

def is_polygon_add : Call → Bool
  | Call.buildmap_polygon_add _ _ _ => true
  | _ => false

def is_landmark_add : Call → Bool
  | Call.buildmap_polygon_add_landmark _ _ _ => true
  | _ => false

def is_shape_add : Call → Bool
  | Call.buildmap_shape_add _ _ _ _ _ _ => true
  | _ => false

/-- The calls that write a line, polygon, street, range or shape record. -/
def is_way_record (c : Call) : Bool :=
  is_line_add c || is_street_add c || is_range_add c || is_polygon_add c
    || is_landmark_add c || is_shape_add c

/-- The coordinates of the points added by the calls `h`, in order. -/
def sample_points : List Call → List (Int × Int)
  | [] => []
  | Call.buildmap_point_add lon lat :: h => (lon, lat) :: sample_points h
  | _ :: h => sample_points h

/-- The number of binary digits of `n` (`fuel` at least that number). -/
def bit_length : Nat → Nat → Nat
  | 0, _ => 0
  | fuel + 1, n => if n = 0 then 0 else bit_length fuel (n / 2) + 1

/-- The integer nearest to `n / d`, the even one of two that are equally near. -/
def div_round_even (n d : Nat) : Nat :=
  if 2 * (n % d) < d then n / d
  else if d < 2 * (n % d) then n / d + 1
  else if (n / d) % 2 = 0 then n / d else n / d + 1

/-- The fraction `n / d` divided by `2 ^ e`, as a numerator and a denominator. -/
def scale_pow2 (n d : Nat) (e : Int) : Nat × Nat :=
  if e < 0 then (n * 2 ^ e.natAbs, d) else (n, d * 2 ^ e.natAbs)

/-- The `double` nearest to `n / d` (round to nearest, ties to even, 53 binary
digits, exponents from -1074 on), as a numerator and a denominator. -/
def double_of_quotient (n d : Nat) : Nat × Nat :=
  if n = 0 ∨ d = 0 then (0, 1)
  else
    let k : Int := (bit_length n n : Int) - (bit_length d d : Int)
    let e1 : Int := k - 53
    let q1 := (scale_pow2 n d e1).1 / (scale_pow2 n d e1).2
    let e2 : Int := if 9007199254740992 ≤ q1 then e1 + 1 else e1
    let e : Int := if e2 < -1074 then -1074 else e2
    let m := div_round_even (scale_pow2 n d e).1 (scale_pow2 n d e).2
    if e < 0 then (m, 2 ^ e.natAbs) else (m * 2 ^ e.natAbs, 1)

/-- A decimal number as `strtod` reads it: whether it is negative, its digits
without the point, the number of digits after the point and the decimal
exponent.  Hexadecimal numbers, infinities and NaN are not read. -/
def scan_decimal (s : CString) : Option (Bool × Nat × Nat × Int) :=
  let s0 := skip_space s
  let neg := s0.head? = some '-'
  let s1 := if s0.head? = some '-' ∨ s0.head? = some '+' then s0.drop 1 else s0
  let ip := s1.takeWhile isdigit
  let s2 := s1.dropWhile isdigit
  let fp := if s2.head? = some '.' then (s2.drop 1).takeWhile isdigit else []
  let s3 := if s2.head? = some '.' then (s2.drop 1).dropWhile isdigit else s2
  if ip = [] ∧ fp = [] then none
  else
    let s4 := if s3.head? = some 'e' ∨ s3.head? = some 'E' then s3.drop 1 else []
    let eneg := s4.head? = some '-'
    let s5 := if s4.head? = some '-' ∨ s4.head? = some '+' then s4.drop 1 else s4
    let ed := s5.takeWhile isdigit
    let ex : Int := if eneg then - (digits_value ed : Int) else (digits_value ed : Int)
    some (neg, digits_value (ip ++ fp), fp.length, ex)

/-- The `int` that `NodeLat = flat * 1000000` stores for the decimal text `v`
of `flat`: the `double` nearest to the number, its product with 1000000
rounded to a `double`, cut towards zero ("8.200000" gives 8199999); a product
outside the range of `int` gives -2^31, as the conversion of the x86 does. -/
def sample_micro (v : CString) : Option Int :=
  match scan_decimal v with
  | none => none
  | some (neg, n, k, ex) =>
    let f := if ex - (k : Int) < 0 then double_of_quotient n (10 ^ (ex - (k : Int)).natAbs)
      else double_of_quotient (n * 10 ^ (ex - (k : Int)).natAbs) 1
    let p := double_of_quotient (f.1 * 1000000) f.2
    if 2147483648 ≤ p.1 / p.2 then some (-2147483648)
    else some (if neg then - ((p.1 / p.2 : Nat) : Int) else ((p.1 / p.2 : Nat) : Int))

/-- A point store with dense indices in insertion order, a line store and a
street store that number their records from 0, a dictionary that returns the
length of the string, and a sorted line store in which the line with
identifier `lineid` stands at position `lineid - 1`. -/
def sampleExtern : Extern where
  AREA := 2
  list_info :=
    [ { name := [], list := none },
      { name := "highway".toList,
        list := some [ { name := [], layerp := none, flags := 0 },
                       { name := "residential".toList, layerp := some 5, flags := 0 } ] },
      { name := "natural".toList,
        list := some [ { name := [], layerp := none, flags := 0 },
                       { name := "water".toList, layerp := some 9, flags := 2 } ] } ]
  strtod_micro := sample_micro
  buildmap_dictionary_add := fun _ _ string => string.length
  buildmap_point_add := fun h _ _ => (sample_points h).length
  buildmap_point_get_longitude := fun h ix => ((sample_points h).getD ix.toNat (0, 0)).1
  buildmap_point_get_latitude := fun h ix => ((sample_points h).getD ix.toNat (0, 0)).2
  buildmap_line_add := fun h _ _ _ _ => (h.filter is_line_add).length
  buildmap_street_add := fun h _ _ _ _ _ _ => (h.filter is_street_add).length
  buildmap_line_find_sorted := fun _ lineid => lineid - 1

/-! ## Definitions used to state the properties -/

/-- The state after the calls `buildmap_osm_text_point_add (a.id, a.npoint)`
for `a` in `adds`, in order. -/
def table_of_adds (s : State) (adds : List points_t) : State :=
  adds.foldl (fun s a => buildmap_osm_text_point_add s a.id a.npoint) s

/-- A key-value map from external node ids to point indices. -/
abbrev KVMap := Int → Option Int

def kv_empty : KVMap := fun _ => none

/-- Insertion into a key-value map: the value of an existing key is replaced. -/
def kv_insert (m : KVMap) (id npoint : Int) : KVMap :=
  fun k => if k = id then some npoint else m k

/-- Insertion that keeps the value of a key already present. -/
def kv_insert_new (m : KVMap) (id npoint : Int) : KVMap :=
  fun k => if k = id then (m k).orElse (fun _ => some npoint) else m k

/-- Lookup in a key-value map, -1 for an absent key. -/
def kv_lookup (m : KVMap) (k : Int) : Int :=
  (m k).getD (-1)

/-- The key-value map built from a sequence of add calls. -/
def kv_of_adds (adds : List points_t) : KVMap :=
  adds.foldl (fun m a => kv_insert m a.id a.npoint) kv_empty

/-- The key-value map built from a sequence of add calls in which the first
add of an id wins. -/
def kv_of_adds_first (adds : List points_t) : KVMap :=
  adds.foldl (fun m a => kv_insert_new m a.id a.npoint) kv_empty

/-- Some enabled bound of the bounding box is violated by `(lon, lat)`; a
coordinate equal to a bound is inside. -/
def bbox_violated (s : State) (lon lat : Int) : Prop :=
  (s.HaveLonMin ≠ 0 ∧ lon < s.LonMin) ∨ (s.HaveLonMax ≠ 0 ∧ lon > s.LonMax)
    ∨ (s.HaveLatMin ≠ 0 ∧ lat < s.LatMin) ∨ (s.HaveLatMax ≠ 0 ∧ lat > s.LatMax)

instance (s : State) (lon lat : Int) : Decidable (bbox_violated s lon lat) := by
  unfold bbox_violated
  infer_instance

/-- Every index recorded in the Point Table was returned by the point store
for a coordinate inserted before. -/
def PointsFromStore (E : Extern) (s : State) : Prop :=
  ∀ e ∈ s.points, ∃ h lon lat, (h ++ [Call.buildmap_point_add lon lat]) <+: s.out
    ∧ e.npoint = E.buildmap_point_add h lon lat

/-- The state with the variables that the scan of a node line writes set to
fixed values: two states agree outside these variables when their images agree. -/
def node_frame (s : State) : State :=
  { s with NodeId := 0, NodeLat := 0, NodeLon := 0, node_tag := none, node_value := none }

/-- The initial state with one bound enabled: `LonMin` = 3.000050 degrees. -/
def sampleBoxState : State :=
  { State.init with HaveLonMin := 1, LonMin := 3000050 }

/-- A node line, as the handlers receive it, west of the bound of `sampleBoxState`. -/
def sampleNodeWest : CString :=
  "node id=\"1\" lat=\"50.000000\" lon=\"3.000000\"/>\n".toList

/-- A node line, as the handlers receive it, east of the bound of `sampleBoxState`. -/
def sampleNodeEast : CString :=
  "node id=\"2\" lat=\"50.000100\" lon=\"3.000100\"/>\n".toList

/-- The state `s` after the scan of `sampleNodeWest`. -/
def scannedWest (s : State) : State :=
  { s with NodeId := 1, NodeLat := 50000000, NodeLon := 3000000,
           node_tag := some "lon".toList, node_value := some "3.000000".toList }

/-- The state `s` after the scan of `sampleNodeEast`. -/
def scannedEast (s : State) : State :=
  { s with NodeId := 2, NodeLat := 50000100, NodeLon := 3000100,
           node_tag := some "lon".toList, node_value := some "3.000100".toList }

/-- A second node line with the identifier 2, west of the bound of `sampleBoxState`. -/
def sampleNodeWestAgain : CString :=
  "node id=\"2\" lat=\"50.000000\" lon=\"3.000000\"/>\n".toList

/-- The state without what `buildmap_osm_text_node` may write. -/
def node_erase (s : State) : State :=
  { s with NodeId := 0, NodeLat := 0, NodeLon := 0, node_tag := none, node_value := none,
           out := [], points := [] }

/-- The state without what `buildmap_osm_text_node_end` may write. -/
def node_end_erase (s : State) : State :=
  { s with NodeId := 0, NodePlace := none, NodeTownName := none, NodePostalCode := none,
           fips := 0, out := [] }

/-- The state without what `buildmap_osm_text_node_tag` may write. -/
def node_tag_erase (s : State) : State :=
  { s with tagk := none, tagv := none, NodePlace := none, NodeTownName := none,
           NodePostalCode := none }

/-- The state without what `buildmap_osm_text_tag` may write while a way is open. -/
def way_tag_erase (s : State) : State :=
  { s with tag := none, value := none, WayStreetName := none, WayFlags := 0, WayLayer := 0 }

/-- The state without what `buildmap_osm_text_nd` may write. -/
def nd_erase (s : State) : State :=
  { s with WayInvalid := 0, nWayNodes := 0, nWayNodeAlloc := 0, WayNodes := [] }

/-- The state without what `buildmap_osm_text_way` may write. -/
def way_erase (s : State) : State :=
  { s with in_way := 0 }

/-- The state without what `buildmap_osm_text_way_end` may write. -/
def way_end_erase (s : State) : State :=
  { s with in_way := 0, nWayNodes := 0, WayStreetName := none, WayFlags := 0, WayInvalid := 0,
           nPolygons := 0, cenid := 0, polyid := 0, lineid := 0, shapes := [], out := [] }

def is_city_add : Call → Bool
  | Call.buildmap_city_add _ _ _ => true
  | _ => false

def is_zip_add : Call → Bool
  | Call.buildmap_zip_add _ _ _ => true
  | _ => false

/-- The identifiers of the locality records among the calls, in order. -/
def city_ids : List Call → List Int
  | [] => []
  | Call.buildmap_city_add fips _ _ :: h => fips :: city_ids h
  | _ :: h => city_ids h

/-- The identifiers passed to the line store among the calls, in order. -/
def line_ids : List Call → List Int
  | [] => []
  | Call.buildmap_line_add lineid _ _ _ :: h => lineid :: line_ids h
  | _ :: h => line_ids h

def is_square_adjust : Call → Bool
  | Call.buildmap_square_adjust_limits _ _ => true
  | _ => false

def is_dictionary_add : Call → Bool
  | Call.buildmap_dictionary_add _ _ => true
  | _ => false

/-- The calls of the loop of the area branch for the node identifiers
`nodes`: one line per consecutive pair, numbered from `lineid + 1`. -/
def area_calls (points : List points_t) (layer : Int) : List Int → Int → List Call
  | a :: b :: rest, lineid =>
    Call.buildmap_line_add (lineid + 1) layer (point_scan points a) (point_scan points b)
      :: area_calls points layer (b :: rest) (lineid + 1)
  | _, _ => []

/-- The calls that `buildmap_osm_text_way_end` can make. -/
def is_way_call (c : Call) : Bool :=
  is_dictionary_add c || is_line_add c || is_street_add c || is_range_add c
    || is_polygon_add c || is_landmark_add c || is_square_adjust c

/-- The calls that the handlers of pass 1 can make. -/
def is_node_call (c : Call) : Bool :=
  is_point_add c || is_dictionary_add c || is_city_add c || is_zip_add c

/-- The state without what a line of pass 1 may write. -/
def pass1_erase (s : State) : State :=
  { s with NodeId := 0, NodeLat := 0, NodeLon := 0, node_tag := none, node_value := none,
           out := [], points := [], NodePlace := none, NodeTownName := none,
           NodePostalCode := none, fips := 0, tagk := none, tagv := none, tag := none,
           value := none, WayStreetName := none, WayFlags := 0, WayLayer := 0 }

/-- The state without what a line of pass 2 may write. -/
def pass2_erase (s : State) : State :=
  { s with in_way := 0, nWayNodes := 0, nWayNodeAlloc := 0, WayNodes := [], WayInvalid := 0,
           WayStreetName := none, WayFlags := 0, WayLayer := 0, tag := none, value := none,
           tagk := none, tagv := none, NodePlace := none, NodeTownName := none,
           NodePostalCode := none, nPolygons := 0, cenid := 0, polyid := 0, lineid := 0,
           shapes := [], out := [] }

/-- How the state `s2` after some lines of pass 1 is related to the state `s` before them. -/
def Pass1Step (s s2 : State) : Prop :=
  pass1_erase s2 = pass1_erase s
    ∧ (s.in_way = 0 → s2.WayLayer = s.WayLayer ∧ s2.WayStreetName = s.WayStreetName
        ∧ s2.WayFlags = s.WayFlags ∧ s2.tag = s.tag ∧ s2.value = s.value)
    ∧ s.points <+: s2.points
    ∧ s.fips ≤ s2.fips
    ∧ ∃ calls, s2.out = s.out ++ calls
      ∧ (∀ c ∈ calls, is_node_call c = true)
      ∧ List.Pairwise (fun a b => a < b) (city_ids calls)
      ∧ (∀ f ∈ city_ids calls, s.fips < f ∧ f ≤ s2.fips)

/-- The arrays of a shape record hold `count` cells each. -/
def shapeinfo.wf (r : shapeinfo) : Prop :=
  r.lons.length = r.count ∧ r.lats.length = r.count

/-- How the state `s2` after some lines of pass 2 is related to the state `s` before them. -/
def Pass2Step (s s2 : State) : Prop :=
  pass2_erase s2 = pass2_erase s
    ∧ s.lineid ≤ s2.lineid
    ∧ (∃ recs, s2.shapes = s.shapes ++ recs ∧ ∀ r ∈ recs, r.wf)
    ∧ ∃ calls, s2.out = s.out ++ calls
      ∧ (∀ c ∈ calls, is_way_call c = true)
      ∧ List.Pairwise (fun a b => a < b) (line_ids calls)
      ∧ (∀ x ∈ line_ids calls, s.lineid < x ∧ x ≤ s2.lineid)

/-- The lines of a town node with a name and a postal code (the spec's example 8). -/
def sampleTownLines : List CString :=
  [ "  <node id=\"7\" lat=\"50.000000\" lon=\"3.000100\">\n".toList,
    "    <tag k=\"place\" v=\"town\"/>\n".toList,
    "    <tag k=\"name\" v=\"Springtown\"/>\n".toList,
    "    <tag k=\"postal_code\" v=\"1000\"/>\n".toList ]

/-- The state in which a handler or a run ended, the initial state if it did not return. -/
def Outcome.state : Outcome → State
  | Outcome.ok _ s => s
  | _ => State.init

/-- The value a handler or a run returned, 0 if it did not return. -/
def Outcome.ret : Outcome → Int
  | Outcome.ok r _ => r
  | _ => 0

/-- A town node whose postal code is "-5", with its closing line. -/
def sampleNegativeZipLines : List CString :=
  [ "  <node id=\"7\" lat=\"50.000000\" lon=\"3.000100\">\n".toList,
    "    <tag k=\"place\" v=\"town\"/>\n".toList,
    "    <tag k=\"postal_code\" v=\"-5\"/>\n".toList,
    "  </node>\n".toList ]

/-- A town node with postal code 1000 at longitude 3.000000, west of the
bound of `sampleBoxState`, with its closing line. -/
def sampleWestTownLines : List CString :=
  [ "  <node id=\"1\" lat=\"50.000000\" lon=\"3.000000\">\n".toList,
    "    <tag k=\"place\" v=\"town\"/>\n".toList,
    "    <tag k=\"postal_code\" v=\"1000\"/>\n".toList,
    "  </node>\n".toList ]

/-- The tag lines of `sampleWestTownLines`, as the handlers receive them. -/
def sampleTownTags : List CString :=
  [ "tag k=\"place\" v=\"town\"/>\n".toList,
    "tag k=\"postal_code\" v=\"1000\"/>\n".toList ]

/-- The last rule among `rules` whose name is `value`. -/
def last_rule (value : CString) (rules : List layer_info_t) : Option layer_info_t :=
  (rules.filter (fun r => decide (value = r.name))).getLast?

/-- The collaborators of `sampleExtern` with a rule table in which the layer
of the rule `highway=path` is 0. -/
def zeroLayerExtern : Extern :=
  { sampleExtern with
    list_info :=
      [ { name := [], list := none },
        { name := "highway".toList,
          list := some [ { name := [], layerp := none, flags := 0 },
                         { name := "residential".toList, layerp := some 5, flags := 0 },
                         { name := "path".toList, layerp := some 0, flags := 4 } ] } ] }

/-- The initial state with the way 10 open. -/
def sampleOpenWay : State :=
  { State.init with in_way := 10 }

/-- A way-open line and two tag lines, the second of a rule whose layer is 0
in `zeroLayerExtern`. -/
def sampleZeroLayerLines : List CString :=
  [ "  <way id=\"10\">\n".toList,
    "    <tag k=\"highway\" v=\"residential\"/>\n".toList,
    "    <tag k=\"highway\" v=\"path\"/>\n".toList ]

/-- Two nodes, a way 10 tagged `highway=residential` and a way 11 without a tag. -/
def sampleTwoWays : List CString :=
  [ "  <node id=\"1\" lat=\"50.000000\" lon=\"3.000000\"/>\n".toList,
    "  <node id=\"2\" lat=\"50.000100\" lon=\"3.000100\"/>\n".toList,
    "  <way id=\"10\">\n".toList,
    "    <nd ref=\"1\"/>\n".toList,
    "    <nd ref=\"2\"/>\n".toList,
    "    <tag k=\"highway\" v=\"residential\"/>\n".toList,
    "  </way>\n".toList,
    "  <way id=\"11\">\n".toList,
    "    <nd ref=\"1\"/>\n".toList,
    "    <nd ref=\"2\"/>\n".toList,
    "  </way>\n".toList ]

/-- The input `sampleTwoWays` without its way 10. -/
def sampleSecondWayOnly : List CString :=
  [ "  <node id=\"1\" lat=\"50.000000\" lon=\"3.000000\"/>\n".toList,
    "  <node id=\"2\" lat=\"50.000100\" lon=\"3.000100\"/>\n".toList,
    "  <way id=\"11\">\n".toList,
    "    <nd ref=\"1\"/>\n".toList,
    "    <nd ref=\"2\"/>\n".toList,
    "  </way>\n".toList ]

/-- A way named "Main St" followed by a town node without a name tag. -/
def sampleWayThenTown : List CString :=
  [ "  <way id=\"10\">\n".toList,
    "    <tag k=\"name\" v=\"Main St\"/>\n".toList,
    "  </way>\n".toList,
    "  <node id=\"7\" lat=\"50.000000\" lon=\"3.000100\">\n".toList,
    "    <tag k=\"place\" v=\"town\"/>\n".toList,
    "  </node>\n".toList ]

/-- A way 5 with an unresolved node reference, followed by a way-open line
without an identifier. -/
def sampleWayWithoutId : List CString :=
  [ "  <way id=\"5\">\n".toList,
    "    <nd ref=\"99\"/>\n".toList,
    "  </way>\n".toList,
    "  <way>\n".toList ]

/-- The array `WayNodes` has `nWayNodeAlloc` cells, at least `nWayNodes`. -/
def WayNodesAllocated (s : State) : Prop :=
  s.nWayNodeAlloc = s.WayNodes.length ∧ s.nWayNodes ≤ s.nWayNodeAlloc

/-- The way 10 open, with the node 1 in the Point Table at the point 0. -/
def sampleOpenWayWithNode : State :=
  { State.init with in_way := 10, points := [{ id := 1, npoint := 0 }] }

/-- The tag names whose lines both passes skip. -/
def ignored_names : List CString :=
  [ "osm".toList, "/osm".toList, "?xml".toList, "bounds".toList, "/bounds".toList,
    "bound".toList, "relation".toList, "/relation".toList, "member".toList,
    "/member".toList ]

/-- The branch of the chain that the line `buf` reaches, if it reaches the chain. -/
def line_token (buf : CString) : Option Token :=
  match line_start buf with
  | Except.ok p => some (token p)
  | Except.error _ => none

/-- A line between a way-open line and its way-close line: an nd line or a
tag line. -/
def is_way_body (buf : CString) : Prop :=
  line_token buf = some Token.nd ∨ line_token buf = some Token.tag

/-- An nd line whose reference is scanned and does not resolve in the Point
Table of `s`. -/
def unresolved_nd (s : State) (buf : CString) : Prop :=
  ∃ p node, line_start buf = Except.ok p ∧ token p = Token.nd ∧ sscanf_nd p = some node
    ∧ buildmap_osm_text_point_get s node < 0

/-- What the lines of the body of a way leave as it was, with a validity
flag that is never cleared. -/
def WayBodyStep (s s2 : State) : Prop :=
  s2.out = s.out ∧ s2.shapes = s.shapes ∧ s2.points = s.points ∧ s2.in_way = s.in_way
    ∧ s2.lineid = s.lineid ∧ s2.nPolygons = s.nPolygons ∧ s2.polyid = s.polyid
    ∧ s2.cenid = s.cenid ∧ (s.WayInvalid ≠ 0 → s2.WayInvalid ≠ 0)

/-- A way 5 whose second node reference does not resolve, after the node 1. -/
def sampleInvalidWay : List CString :=
  [ "  <way id=\"5\">\n".toList,
    "    <nd ref=\"1\"/>\n".toList,
    "    <nd ref=\"99\"/>\n".toList,
    "    <tag k=\"highway\" v=\"residential\"/>\n".toList ]

/-- The input `sampleSecondWayOnly` with a way 5, whose node reference does
not resolve, before its way 11. -/
def sampleInvalidThenValid : List CString :=
  [ "  <node id=\"1\" lat=\"50.000000\" lon=\"3.000000\"/>\n".toList,
    "  <node id=\"2\" lat=\"50.000100\" lon=\"3.000100\"/>\n".toList,
    "  <way id=\"5\">\n".toList,
    "    <nd ref=\"99\"/>\n".toList,
    "  </way>\n".toList,
    "  <way id=\"11\">\n".toList,
    "    <nd ref=\"1\"/>\n".toList,
    "    <nd ref=\"2\"/>\n".toList,
    "  </way>\n".toList ]

/-- The first `nWayNodes` cells of `WayNodes` hold the node identifiers `nodes`. -/
def WayNodesAre (s : State) (nodes : List Int) : Prop :=
  nodes.length = s.nWayNodes
    ∧ ∀ j, j < nodes.length → array_get s.WayNodes (j : Int) = some (nodes.getD j 0)

/-- The shape points of a record with `count` coordinates whose line stands
at `line_index`: one for each coordinate but the first and the last, numbered
from 0. -/
def interior_points (line_index i lineid : Int) (count : Nat) (lons lats : List Int) :
    List Call :=
  (List.range (count - 2)).map (fun (m : Nat) =>
    Call.buildmap_shape_add line_index i lineid (m : Int) (lons.getD (m + 1) 0)
      (lats.getD (m + 1) 0))

/-- The shape points of the record `r`, the cell `i` of the buffer, when the
calls made so far are `h`. -/
def record_points (E : Extern) (h : List Call) (r : shapeinfo) (i : Nat) : List Call :=
  if 2 < r.count ∧ 0 ≤ E.buildmap_line_find_sorted h r.lineid then
    interior_points (E.buildmap_line_find_sorted h r.lineid) i r.lineid r.count r.lons r.lats
  else []

/-- The shape points of the records `rs`, the cells of the buffer from `i`
on, in buffer order. -/
def flush_points (E : Extern) : List shapeinfo → Nat → List Call → List Call
  | [], _, _ => []
  | r :: rs, i, h =>
    record_points E h r i ++ flush_points E rs (i + 1) (h ++ record_points E h r i)

/-- A shape buffer with a record of four coordinates for the line 1 and a
record of two coordinates for the line 2. -/
def sampleShapeState : State :=
  { State.init with
    shapes := [ { lineid := 1, count := 4, lons := [10, 11, 12, 13], lats := [20, 21, 22, 23] },
                { lineid := 2, count := 2, lons := [1, 2], lats := [3, 4] } ] }

/-- Three nodes, of which the node 3 lies north of the node 2. -/
def sampleAreaNodes : List CString :=
  [ "  <node id=\"1\" lat=\"50.000000\" lon=\"3.000000\"/>\n".toList,
    "  <node id=\"2\" lat=\"50.000100\" lon=\"3.000100\"/>\n".toList,
    "  <node id=\"3\" lat=\"50.000200\" lon=\"3.000100\"/>\n".toList ]

/-- The lines of a closed way 20 over the nodes 1, 2, 3, 1 tagged
`natural=water`, before its way-close line. -/
def sampleAreaWay : List CString :=
  [ "  <way id=\"20\">\n".toList,
    "    <nd ref=\"1\"/>\n".toList,
    "    <nd ref=\"2\"/>\n".toList,
    "    <nd ref=\"3\"/>\n".toList,
    "    <nd ref=\"1\"/>\n".toList,
    "    <tag k=\"natural\" v=\"water\"/>\n".toList ]

/-- The state before the way-close line of the way 20 of `sampleAreaWay`. -/
def sampleAreaState : State :=
  (run_lines (pass2_line sampleExtern) sampleAreaWay 0
    (run_lines (pass1_line sampleExtern) sampleAreaNodes 0 State.init).state).state

/-- The lines of a way 10 over the nodes 1, 2, 3 named "Test St", before its
way-close line. -/
def sampleStreetWay : List CString :=
  [ "  <way id=\"10\">\n".toList,
    "    <nd ref=\"1\"/>\n".toList,
    "    <nd ref=\"2\"/>\n".toList,
    "    <nd ref=\"3\"/>\n".toList,
    "    <tag k=\"name\" v=\"Test St\"/>\n".toList ]

/-- The state before the way-close line of the way 10 of `sampleStreetWay`. -/
def sampleStreetState : State :=
  (run_lines (pass2_line sampleExtern) sampleStreetWay 0
    (run_lines (pass1_line sampleExtern) sampleAreaNodes 0 State.init).state).state

/-- The tag line `<tag k="name" v="Rue de l'Eglise"/>` as the handler receives
it; the value holds an apostrophe (the character 39). -/
def sampleApostropheTag : CString :=
  "tag k=\"name\" v=\"Rue de l".toList ++ [Char.ofNat 39] ++ "Eglise\"/>\n".toList

/-- The value of the attribute `v` of `sampleApostropheTag`. -/
def sampleApostropheValue : CString :=
  "Rue de l".toList ++ [Char.ofNat 39] ++ "Eglise".toList

/-- The tag line `<tag k="name" v="VAL"...` as the handler receives it: the
value `val` between double quotes (the character 34), followed by `rest`. -/
def name_tag_line (val rest : CString) : CString :=
  "tag k=\"name\" v=\"".toList ++ val ++ Char.ofNat 34 :: rest

/-- The states that calls of the handlers of pass 1 and pass 2, in any
order and on any lines, reach from the initial state. -/
inductive Reachable (E : Extern) : State → Prop
  | init : Reachable E State.init
  | node (s : State) (data : CString) (r : Int) (s2 : State) :
      Reachable E s → buildmap_osm_text_node E s data = Outcome.ok r s2 → Reachable E s2
  | node_end (s : State) (data : CString) (r : Int) (s2 : State) :
      Reachable E s → buildmap_osm_text_node_end E s data = Outcome.ok r s2 → Reachable E s2
  | tag (s : State) (data : CString) (r : Int) (s2 : State) :
      Reachable E s → buildmap_osm_text_tag E s data = Outcome.ok r s2 → Reachable E s2
  | way (s : State) (data : CString) (r : Int) (s2 : State) :
      Reachable E s → buildmap_osm_text_way s data = Outcome.ok r s2 → Reachable E s2
  | nd (s : State) (data : CString) (r : Int) (s2 : State) :
      Reachable E s → buildmap_osm_text_nd s data = Outcome.ok r s2 → Reachable E s2
  | way_end (s : State) (data : CString) (r : Int) (s2 : State) :
      Reachable E s → buildmap_osm_text_way_end E s data = Outcome.ok r s2 → Reachable E s2

/-- Every one of the first `nWayNodes` cells of `WayNodes` holds a node
identifier that `buildmap_osm_text_point_get` resolves to a non-negative index. -/
def WayNodesResolve (s : State) : Prop :=
  ∀ j, j < s.nWayNodes →
    ∃ id, array_get s.WayNodes (j : Int) = some id ∧ 0 ≤ buildmap_osm_text_point_get s id

/-- The node identifiers in the first `nWayNodes` cells of `WayNodes` (0 for
a cell that was never written). -/
def way_node_ids (s : State) : List Int :=
  (List.range s.nWayNodes).map (fun j => ((s.WayNodes.getD j none).getD 0))

/-- A way 10 over the nodes 1 and 2, closed, and the way-open line of a way 11. -/
def sampleEmptySecondWay : List CString :=
  [ "  <way id=\"10\">\n".toList,
    "    <nd ref=\"1\"/>\n".toList,
    "    <nd ref=\"2\"/>\n".toList,
    "  </way>\n".toList,
    "  <way id=\"11\">\n".toList ]

/-- The state after pass 1 over the two nodes of `sampleTwoWays` and pass 2
over `sampleEmptySecondWay`: the way 11 is open and has no node. -/
def sampleEmptyWayState : State :=
  (run_lines (pass2_line sampleExtern) sampleEmptySecondWay 0
    (run_lines (pass1_line sampleExtern) (sampleTwoWays.take 2) 0 State.init).state).state

/-- A file that holds one way without node references. -/
def sampleEmptyWay : List CString :=
  [ "  <way id=\"10\">\n".toList,
    "  </way>\n".toList ]

/-- The town node of `sampleWestTownLines` with a name tag besides. -/
def sampleWestNamedTownLines : List CString :=
  [ "  <node id=\"1\" lat=\"50.000000\" lon=\"3.000000\">\n".toList,
    "    <tag k=\"place\" v=\"town\"/>\n".toList,
    "    <tag k=\"name\" v=\"Westtown\"/>\n".toList,
    "    <tag k=\"postal_code\" v=\"1000\"/>\n".toList,
    "  </node>\n".toList ]

/-- Two nodes and a way 10 over them whose third node reference is written
`<ND ref="99"/>`: no node 99 exists. -/
def sampleUpperNdWay : List CString :=
  [ "  <node id=\"1\" lat=\"50.000000\" lon=\"3.000000\"/>\n".toList,
    "  <node id=\"2\" lat=\"50.000100\" lon=\"3.000100\"/>\n".toList,
    "  <way id=\"10\">\n".toList,
    "    <nd ref=\"1\"/>\n".toList,
    "    <nd ref=\"2\"/>\n".toList,
    "    <ND ref=\"99\"/>\n".toList,
    "  </way>\n".toList ]

/-- A way-open line, a tag line and two tag lines with the key "name" that the
scan of the handler does not read: one with the element name in upper case,
one with the attribute `v` before the attribute `k`. -/
def sampleUnscannedNameTags : List CString :=
  [ "  <way id=\"10\">\n".toList,
    "    <tag k=\"highway\" v=\"residential\"/>\n".toList,
    "    <TAG k=\"name\" v=\"Main St\"/>\n".toList,
    "    <tag v=\"Main St\" k=\"name\"/>\n".toList ]

/-- The lines of a town node whose postal code is "4294967296", which `%d`
stores as the `int` 0. -/
def sampleWrappedZipLines : List CString :=
  [ "  <node id=\"7\" lat=\"50.000000\" lon=\"3.000100\">\n".toList,
    "    <tag k=\"place\" v=\"town\"/>\n".toList,
    "    <tag k=\"postal_code\" v=\"4294967296\"/>\n".toList ]

set_option maxRecDepth 8192

/-! ## Theorems -/

/-! ### The Point Table -/

theorem points_table_of_adds (s : State) (adds : List points_t) :
    (table_of_adds s adds).points = s.points ++ adds := by
  induction adds generalizing s with
  | nil => simp [table_of_adds]
  | cons a as ih =>
    have := ih (buildmap_osm_text_point_add s a.id a.npoint)
    simp only [table_of_adds, List.foldl_cons] at this ⊢
    rw [this]
    simp [buildmap_osm_text_point_add]

theorem point_scan_append (xs ys : List points_t) (k : Int) :
    point_scan (xs ++ ys) k
      = if (∃ e ∈ xs, e.id = k) then point_scan xs k else point_scan ys k := by
  induction xs with
  | nil => simp
  | cons x xs ih =>
    by_cases hx : x.id = k
    · simp [point_scan, hx]
    · simp [point_scan, hx, ih]

theorem point_scan_absent (xs : List points_t) (k : Int) (h : ∀ e ∈ xs, e.id ≠ k) :
    point_scan xs k = -1 := by
  induction xs with
  | nil => rfl
  | cons x xs ih =>
    have hx : x.id ≠ k := h x (List.mem_cons_self _ _)
    simp only [point_scan, hx, if_false]
    exact ih (fun e he => h e (List.mem_cons_of_mem _ he))

theorem point_scan_present (xs : List points_t) (k : Int) (h : ∃ e ∈ xs, e.id = k) :
    ∃ e ∈ xs, e.id = k ∧ xs.find? (fun a => decide (a.id = k)) = some e
      ∧ point_scan xs k = e.npoint := by
  induction xs with
  | nil => simp at h
  | cons x xs ih =>
    by_cases hx : x.id = k
    · exact ⟨x, List.mem_cons_self _ _, hx, by simp [hx], by simp [point_scan, hx]⟩
    · obtain ⟨e, he, hek⟩ := h
      have he' : e ∈ xs := by
        rcases List.mem_cons.mp he with rfl | h'
        · exact absurd hek hx
        · exact h'
      obtain ⟨e', he'm, hk', hf, hs⟩ := ih ⟨e, he', hek⟩
      exact ⟨e', List.mem_cons_of_mem _ he'm, hk', by simp [hx, hf], by simp [point_scan, hx, hs]⟩

theorem kv_first_foldl (adds : List points_t) (m : KVMap) (k : Int) :
    (adds.foldl (fun m a => kv_insert_new m a.id a.npoint) m) k
      = (m k).orElse (fun _ => (adds.find? (fun a => decide (a.id = k))).map (fun a => a.npoint)) := by
  induction adds generalizing m with
  | nil => cases h : m k <;> simp [h]
  | cons a as ih =>
    rw [List.foldl_cons, ih]
    by_cases ha : a.id = k
    · cases h : m k <;> simp [kv_insert_new, ha, h]
    · have : ¬ k = a.id := fun h => ha h.symm
      cases h : m k <;> simp [kv_insert_new, ha, this, h]

/-- C9 (amended): for the Point Table built by any sequence of add calls and
every id `k`, `buildmap_osm_text_point_get` equals the lookup in the key-value
map built from the same adds in which the first add of an id wins; it returns
-1 when no entry with id `k` was added, the index of the first entry with id
`k` otherwise, and, when every recorded index is non-negative, it returns -1
only if no entry with id `k` was added. -/
theorem point_get_first_wins (adds : List points_t) (k : Int) :
    buildmap_osm_text_point_get (table_of_adds State.init adds) k
        = kv_lookup (kv_of_adds_first adds) k
      ∧ ((∀ a ∈ adds, a.id ≠ k) →
          buildmap_osm_text_point_get (table_of_adds State.init adds) k = -1)
      ∧ (∀ a, adds.find? (fun a => decide (a.id = k)) = some a →
          buildmap_osm_text_point_get (table_of_adds State.init adds) k = a.npoint)
      ∧ ((∀ a ∈ adds, 0 ≤ a.npoint) →
          (buildmap_osm_text_point_get (table_of_adds State.init adds) k = -1
            ↔ ∀ a ∈ adds, a.id ≠ k)) := by
  have hp : (table_of_adds State.init adds).points = adds := by
    rw [points_table_of_adds]; rfl
  unfold buildmap_osm_text_point_get
  rw [hp]
  by_cases h : ∃ e ∈ adds, e.id = k
  · obtain ⟨e, he, hek, hf, hs⟩ := point_scan_present adds k h
    refine ⟨?_, ?_, ?_, ?_⟩
    · simp [kv_lookup, kv_of_adds_first, kv_first_foldl, kv_empty, hf, hs]
    · intro hn; exact absurd hek (hn e he)
    · intro a ha
      rw [hf] at ha
      cases ha
      exact hs
    · intro hnn
      constructor
      · intro h1
        have := hnn e he
        omega
      · intro hn; exact absurd hek (hn e he)
  · have hn : ∀ a ∈ adds, a.id ≠ k := fun a ha hk => h ⟨a, ha, hk⟩
    have hs := point_scan_absent adds k hn
    have hf : adds.find? (fun a => decide (a.id = k)) = none := by
      rw [List.find?_eq_none]
      intro a ha
      simpa using hn a ha
    refine ⟨?_, fun _ => hs, ?_, fun _ => ⟨fun _ => hn, fun _ => hs⟩⟩
    · simp [kv_lookup, kv_of_adds_first, kv_first_foldl, kv_empty, hf, hs]
    · intro a ha
      rw [hf] at ha
      cases ha

/-- C9 witness: the adds (1, 0), (2, 1), (1, 5) and the ids 1 and 3. -/
theorem point_get_first_wins_witness :
    buildmap_osm_text_point_get
        (table_of_adds State.init [⟨1, 0⟩, ⟨2, 1⟩, ⟨1, 5⟩]) 1 = 0
      ∧ buildmap_osm_text_point_get
        (table_of_adds State.init [⟨1, 0⟩, ⟨2, 1⟩, ⟨1, 5⟩]) 3 = -1 :=
  ⟨(point_get_first_wins [⟨1, 0⟩, ⟨2, 1⟩, ⟨1, 5⟩] 1).2.2.1 ⟨1, 0⟩ (by decide),
   (point_get_first_wins [⟨1, 0⟩, ⟨2, 1⟩, ⟨1, 5⟩] 3).2.1 (by decide)⟩

/-- C9 counterexample: after the adds (1, 0) and (1, 5) the linear scan
returns 0 for the id 1 while the key-value map built from the same adds
returns 5. -/
theorem point_get_differs_from_map :
    buildmap_osm_text_point_get (table_of_adds State.init [⟨1, 0⟩, ⟨1, 5⟩]) 1 = 0
      ∧ kv_lookup (kv_of_adds [⟨1, 0⟩, ⟨1, 5⟩]) 1 = 5
      ∧ buildmap_osm_text_point_get (table_of_adds State.init [⟨1, 0⟩, ⟨1, 5⟩]) 1
          ≠ kv_lookup (kv_of_adds [⟨1, 0⟩, ⟨1, 5⟩]) 1 := by
  decide

/-! ### The driver: blank lines -/

theorem skip_space_blank (buf : CString) (h : ∀ c ∈ buf, isspace c = true) :
    skip_space buf = [] := by
  induction buf with
  | nil => rfl
  | cons c cs ih =>
    have hc : isspace c = true := h c (List.mem_cons_self _ _)
    simp only [skip_space, hc, if_true]
    exact ih (fun d hd => h d (List.mem_cons_of_mem _ hd))

/-- C10: a line that holds nothing but white space (its line terminator
included) is not skipped: in both passes `skip_space` runs over the `\n`, the
test `*p == '\n' || *p == '\r'` is never true, and the line ends in
`buildmap_fatal(0, "invalid XML")`. -/
theorem blank_line_is_fatal (E : Extern) (s : State) (buf : CString)
    (h : ∀ c ∈ buf, isspace c = true) :
    pass1_line E s buf = Outcome.fatal ∧ pass2_line E s buf = Outcome.fatal := by
  simp [pass1_line, pass2_line, line_start, skip_space_blank buf h]

/-- C10 witness: the line that holds only `\n`, and the line of two blanks
and `\r\n`. -/
theorem blank_line_is_fatal_witness :
    (pass1_line sampleExtern State.init "\n".toList = Outcome.fatal
        ∧ pass2_line sampleExtern State.init "\n".toList = Outcome.fatal)
      ∧ (pass1_line sampleExtern State.init "  \r\n".toList = Outcome.fatal
        ∧ pass2_line sampleExtern State.init "  \r\n".toList = Outcome.fatal) :=
  ⟨blank_line_is_fatal sampleExtern State.init "\n".toList (by decide),
   blank_line_is_fatal sampleExtern State.init "  \r\n".toList (by decide)⟩

/-! ### Node lines -/

theorem node_attrs_frame (E : Extern) (fuel : Nat) (s : State) (l : NodeLocals) (s1 : State)
    (h : node_attrs E fuel s l = some s1) : node_frame s1 = node_frame s := by
  induction fuel generalizing s l with
  | zero => simp [node_attrs] at h
  | succ n ih =>
    unfold node_attrs at h
    split at h
    · simp only at h
      split at h
      · exact absurd h (by simp)
      · split at h
        · split at h
          · exact absurd h (by simp)
          · split at h
            · exact absurd h (by simp)
            · split at h
              · exact (ih _ _ h).trans rfl
              · exact absurd h (by simp)
        · split at h
          · split at h
            · exact absurd h (by simp)
            · split at h
              · exact absurd h (by simp)
              · split at h
                · exact (ih _ _ h).trans rfl
                · exact absurd h (by simp)
          · split at h
            · exact (ih _ _ h).trans rfl
            · exact absurd h (by simp)
    · cases h; rfl

theorem node_scan_frame (E : Extern) (s : State) (data : CString) (s1 : State)
    (h : node_scan E s data = some s1) : node_frame s1 = node_frame s := by
  unfold node_scan at h
  split at h
  · exact absurd h (by simp)
  · exact (node_attrs_frame E _ _ _ _ h).trans rfl

theorem node_frame_fields (s1 s : State) (h : node_frame s1 = node_frame s) :
    s1.out = s.out ∧ s1.points = s.points
      ∧ s1.HaveLonMin = s.HaveLonMin ∧ s1.HaveLonMax = s.HaveLonMax
      ∧ s1.HaveLatMin = s.HaveLatMin ∧ s1.HaveLatMax = s.HaveLatMax
      ∧ s1.LonMin = s.LonMin ∧ s1.LonMax = s.LonMax
      ∧ s1.LatMin = s.LatMin ∧ s1.LatMax = s.LatMax :=
  ⟨(congrArg State.out h : _), (congrArg State.points h : _),
   (congrArg State.HaveLonMin h : _), (congrArg State.HaveLonMax h : _),
   (congrArg State.HaveLatMin h : _), (congrArg State.HaveLatMax h : _),
   (congrArg State.LonMin h : _), (congrArg State.LonMax h : _),
   (congrArg State.LatMin h : _), (congrArg State.LatMax h : _)⟩

theorem node_insert_violated (E : Extern) (s : State) (h : bbox_violated s s.NodeLon s.NodeLat) :
    node_insert E s = (1, { s with NodeLat := 0, NodeLon := 0 }) := by
  unfold bbox_violated at h
  simp only [node_insert, gt_iff_lt]
  rw [if_pos (by simpa using h)]

theorem node_insert_inside (E : Extern) (s : State) (h : ¬ bbox_violated s s.NodeLon s.NodeLat) :
    node_insert E s
      = (0, buildmap_osm_text_point_add (s.call (Call.buildmap_point_add s.NodeLon s.NodeLat))
              s.NodeId (E.buildmap_point_add s.out s.NodeLon s.NodeLat)) := by
  unfold bbox_violated at h
  simp only [node_insert, gt_iff_lt]
  rw [if_neg (by simpa using h)]
  rfl

theorem node_bbox_same (E : Extern) (s : State) (data : CString) (s1 : State)
    (h : node_scan E s data = some s1) (lon lat : Int) :
    bbox_violated s1 lon lat ↔ bbox_violated s lon lat := by
  obtain ⟨_, _, h1, h2, h3, h4, h5, h6, h7, h8⟩ :=
    node_frame_fields s1 s (node_scan_frame E s data s1 h)
  simp only [bbox_violated, h1, h2, h3, h4, h5, h6, h7, h8]

theorem node_rejected (E : Extern) (s : State) (data : CString) (s1 : State)
    (h : node_scan E s data = some s1) (hv : bbox_violated s s1.NodeLon s1.NodeLat) :
    buildmap_osm_text_node E s data = Outcome.ok 1 { s1 with NodeLat := 0, NodeLon := 0 }
      ∧ s1.out = s.out ∧ s1.points = s.points := by
  obtain ⟨ho, hp, _⟩ := node_frame_fields s1 s (node_scan_frame E s data s1 h)
  refine ⟨?_, ho, hp⟩
  simp only [buildmap_osm_text_node, h,
    node_insert_violated E s1 ((node_bbox_same E s data s1 h _ _).mpr hv)]

theorem node_accepted (E : Extern) (s : State) (data : CString) (s1 : State)
    (h : node_scan E s data = some s1) (hv : ¬ bbox_violated s s1.NodeLon s1.NodeLat) :
    buildmap_osm_text_node E s data
        = Outcome.ok 0 (buildmap_osm_text_point_add
            (s1.call (Call.buildmap_point_add s1.NodeLon s1.NodeLat))
            s1.NodeId (E.buildmap_point_add s1.out s1.NodeLon s1.NodeLat))
      ∧ s1.out = s.out ∧ s1.points = s.points := by
  obtain ⟨ho, hp, _⟩ := node_frame_fields s1 s (node_scan_frame E s data s1 h)
  refine ⟨?_, ho, hp⟩
  simp only [buildmap_osm_text_node, h,
    node_insert_inside E s1 (fun x => hv ((node_bbox_same E s data s1 h _ _).mp x))]

/-- C8: for a node line whose scan reads the identifier and the coordinate
`(lon, lat)`, and for every setting of the four bounds and their flags,
`buildmap_osm_text_node` returns 1 exactly when an enabled bound is violated
(a coordinate equal to a bound is inside), and then it makes no call to the
point store and leaves the Point Table as it was; otherwise it returns 0,
makes exactly one `buildmap_point_add (lon, lat)` call and appends exactly
one entry to the Point Table.  With no bound enabled it returns 0. -/
theorem node_bbox_filter (E : Extern) (s : State) (data : CString) (s1 : State)
    (h : node_scan E s data = some s1) :
    ∃ r s2, buildmap_osm_text_node E s data = Outcome.ok r s2
      ∧ (r = 1 ↔ bbox_violated s s1.NodeLon s1.NodeLat)
      ∧ (r = 0 ↔ ¬ bbox_violated s s1.NodeLon s1.NodeLat)
      ∧ (bbox_violated s s1.NodeLon s1.NodeLat → s2.out = s.out ∧ s2.points = s.points)
      ∧ (¬ bbox_violated s s1.NodeLon s1.NodeLat →
          s2.out = s.out ++ [Call.buildmap_point_add s1.NodeLon s1.NodeLat]
          ∧ s2.points = s.points ++
              [⟨s1.NodeId, E.buildmap_point_add s.out s1.NodeLon s1.NodeLat⟩])
      ∧ (s.HaveLonMin = 0 → s.HaveLonMax = 0 → s.HaveLatMin = 0 → s.HaveLatMax = 0 → r = 0) := by
  have hnone : s.HaveLonMin = 0 → s.HaveLonMax = 0 → s.HaveLatMin = 0 → s.HaveLatMax = 0 →
      ¬ bbox_violated s s1.NodeLon s1.NodeLat := by
    intro a b c d
    simp [bbox_violated, a, b, c, d]
  by_cases hv : bbox_violated s s1.NodeLon s1.NodeLat
  · obtain ⟨hr, ho, hp⟩ := node_rejected E s data s1 h hv
    refine ⟨1, { s1 with NodeLat := 0, NodeLon := 0 }, hr, ?_, ?_, ?_, ?_, ?_⟩
    · simp [hv]
    · simp [hv]
    · intro _; exact ⟨ho, hp⟩
    · intro hn; exact absurd hv hn
    · intro a b c d; exact absurd hv (hnone a b c d)
  · obtain ⟨hr, ho, hp⟩ := node_accepted E s data s1 h hv
    refine ⟨0, _, hr, ?_, ?_, ?_, ?_, ?_⟩
    · simp [hv]
    · simp [hv]
    · intro hy; exact absurd hy hv
    · intro _
      simp [buildmap_osm_text_point_add, State.call, ho, hp]
    · intro _ _ _ _; rfl

/-- C8 witness: with `LonMin` = 3.000050 enabled, the node at longitude
3.000000 is rejected and the node at longitude 3.000100 is accepted. -/
theorem node_bbox_filter_witness :
    (∃ r s2, buildmap_osm_text_node sampleExtern sampleBoxState sampleNodeWest = Outcome.ok r s2
      ∧ r = 1 ∧ s2.out = sampleBoxState.out ∧ s2.points = sampleBoxState.points)
    ∧ (∃ r s2, buildmap_osm_text_node sampleExtern sampleBoxState sampleNodeEast = Outcome.ok r s2
      ∧ r = 0 ∧ s2.out = [Call.buildmap_point_add 3000100 50000100]
      ∧ s2.points = [⟨2, 0⟩]) := by
  constructor
  · obtain ⟨r, s2, h, h1, _, h3, _, _⟩ :=
      node_bbox_filter sampleExtern sampleBoxState sampleNodeWest
        (scannedWest sampleBoxState) (by rfl)
    have hv : bbox_violated sampleBoxState (scannedWest sampleBoxState).NodeLon
        (scannedWest sampleBoxState).NodeLat := by decide
    exact ⟨r, s2, h, h1.mpr hv, (h3 hv).1, (h3 hv).2⟩
  · obtain ⟨r, s2, h, _, h2, _, h4, _⟩ :=
      node_bbox_filter sampleExtern sampleBoxState sampleNodeEast
        (scannedEast sampleBoxState) (by rfl)
    have hv : ¬ bbox_violated sampleBoxState (scannedEast sampleBoxState).NodeLon
        (scannedEast sampleBoxState).NodeLat := by decide
    exact ⟨r, s2, h, h2.mpr hv, (h4 hv).1, (h4 hv).2⟩

theorem points_from_store_mono (E : Extern) (s s2 : State) (hp : s2.points = s.points)
    (ho : s.out <+: s2.out) (h : PointsFromStore E s) : PointsFromStore E s2 := by
  intro e he
  rw [hp] at he
  obtain ⟨h0, lon, lat, hpre, heq⟩ := h e he
  exact ⟨h0, lon, lat, hpre.trans ho, heq⟩

/-- C7 (amended): for a node line whose scan reads the identifier `k` (the
`int` that `%d` stores in `NodeId`, wrapped for magnitudes of 2^31 and more), under
a point store that returns non-negative indices and a Point Table that holds
indices returned by the store: if the node is accepted by the bounding box,
every later lookup of `k` (in any table that extends the present one)
returns a non-negative index recorded for `k` that the point store returned
for a coordinate inserted before; if the node is rejected, the Point Table
is unchanged, so the lookup of `k` returns what it returned before, and -1
when no accepted node line carried the identifier `k`. -/
theorem node_lookup_after (E : Extern) (s : State) (data : CString) (s1 : State)
    (hstore : ∀ h lon lat, 0 ≤ E.buildmap_point_add h lon lat)
    (hinv : PointsFromStore E s)
    (h : node_scan E s data = some s1) :
    ∃ r s2, buildmap_osm_text_node E s data = Outcome.ok r s2
      ∧ PointsFromStore E s2
      ∧ (¬ bbox_violated s s1.NodeLon s1.NodeLat →
          ∀ s3 : State, s2.points <+: s3.points →
            0 ≤ buildmap_osm_text_point_get s3 s1.NodeId
            ∧ ∃ e ∈ s2.points, e.id = s1.NodeId
                ∧ buildmap_osm_text_point_get s3 s1.NodeId = e.npoint
                ∧ ∃ h0 lon lat, (h0 ++ [Call.buildmap_point_add lon lat]) <+: s2.out
                    ∧ e.npoint = E.buildmap_point_add h0 lon lat)
      ∧ (bbox_violated s s1.NodeLon s1.NodeLat →
          s2.points = s.points
          ∧ buildmap_osm_text_point_get s2 s1.NodeId = buildmap_osm_text_point_get s s1.NodeId
          ∧ ((∀ e ∈ s.points, e.id ≠ s1.NodeId) →
              buildmap_osm_text_point_get s2 s1.NodeId = -1)) := by
  by_cases hv : bbox_violated s s1.NodeLon s1.NodeLat
  · obtain ⟨hr, ho, hp⟩ := node_rejected E s data s1 h hv
    have hinv2 : PointsFromStore E { s1 with NodeLat := 0, NodeLon := 0 } :=
      points_from_store_mono E s _ hp (by show s.out <+: s1.out; rw [ho]) hinv
    refine ⟨1, _, hr, hinv2, fun hn => absurd hv hn, fun _ => ?_⟩
    have hg : buildmap_osm_text_point_get { s1 with NodeLat := 0, NodeLon := 0 } s1.NodeId
        = buildmap_osm_text_point_get s s1.NodeId := by
      unfold buildmap_osm_text_point_get
      show point_scan s1.points _ = _
      rw [hp]
    refine ⟨hp, hg, ?_⟩
    intro hn
    rw [hg]
    exact point_scan_absent _ _ hn
  · obtain ⟨hr, ho, hp⟩ := node_accepted E s data s1 h hv
    have ho2 : (buildmap_osm_text_point_add
        (s1.call (Call.buildmap_point_add s1.NodeLon s1.NodeLat))
        s1.NodeId (E.buildmap_point_add s1.out s1.NodeLon s1.NodeLat)).out
          = s.out ++ [Call.buildmap_point_add s1.NodeLon s1.NodeLat] := by
      simp [buildmap_osm_text_point_add, State.call, ho]
    have hp2 : (buildmap_osm_text_point_add
        (s1.call (Call.buildmap_point_add s1.NodeLon s1.NodeLat))
        s1.NodeId (E.buildmap_point_add s1.out s1.NodeLon s1.NodeLat)).points
          = s.points ++ [⟨s1.NodeId, E.buildmap_point_add s.out s1.NodeLon s1.NodeLat⟩] := by
      simp [buildmap_osm_text_point_add, State.call, ho, hp]
    generalize buildmap_osm_text_point_add
        (s1.call (Call.buildmap_point_add s1.NodeLon s1.NodeLat))
        s1.NodeId (E.buildmap_point_add s1.out s1.NodeLon s1.NodeLat) = s2 at hr ho2 hp2
    have hinv2 : PointsFromStore E s2 := by
      intro e he
      rw [hp2] at he
      rcases List.mem_append.mp he with he | he
      · obtain ⟨h0, lon, lat, hpre, heq⟩ := hinv e he
        exact ⟨h0, lon, lat, hpre.trans (by rw [ho2]; exact List.prefix_append _ _), heq⟩
      · rw [List.mem_singleton] at he
        subst he
        exact ⟨s.out, s1.NodeLon, s1.NodeLat, by rw [ho2], rfl⟩
    refine ⟨0, s2, hr, hinv2, fun _ s3 hpre => ?_, fun hy => absurd hy hv⟩
    obtain ⟨later, hl⟩ := hpre
    have hex : ∃ e ∈ s2.points, e.id = s1.NodeId := by
      refine ⟨⟨s1.NodeId, E.buildmap_point_add s.out s1.NodeLon s1.NodeLat⟩, ?_, rfl⟩
      rw [hp2]
      simp
    obtain ⟨e, he, hek, _, hs⟩ := point_scan_present s2.points s1.NodeId hex
    have hget : buildmap_osm_text_point_get s3 s1.NodeId = e.npoint := by
      unfold buildmap_osm_text_point_get
      rw [← hl, point_scan_append, if_pos hex, hs]
    obtain ⟨h0, lon, lat, hpre0, heq⟩ := hinv2 e he
    refine ⟨?_, e, he, hek, hget, h0, lon, lat, hpre0, heq⟩
    rw [hget, heq]
    exact hstore _ _ _

theorem points_from_store_init (E : Extern) (s : State) (h : s.points = []) :
    PointsFromStore E s := by
  intro e he
  rw [h] at he
  cases he

/-- C7 witness: from `sampleBoxState` the node 2 at longitude 3.000100 is
accepted and looked up at index 0; the node 1 at longitude 3.000000 is
rejected and its lookup returns -1. -/
theorem node_lookup_after_witness :
    (∃ r s2, buildmap_osm_text_node sampleExtern sampleBoxState sampleNodeEast = Outcome.ok r s2
      ∧ 0 ≤ buildmap_osm_text_point_get s2 2)
    ∧ (∃ r s2, buildmap_osm_text_node sampleExtern sampleBoxState sampleNodeWest = Outcome.ok r s2
      ∧ buildmap_osm_text_point_get s2 1 = -1) := by
  constructor
  · obtain ⟨r, s2, h, _, hacc, _⟩ :=
      node_lookup_after sampleExtern sampleBoxState sampleNodeEast (scannedEast sampleBoxState)
        (fun h _ _ => Int.ofNat_nonneg _)
        (points_from_store_init _ _ rfl) (by rfl)
    exact ⟨r, s2, h, (hacc (by decide) s2 (List.prefix_refl _)).1⟩
  · obtain ⟨r, s2, h, _, _, hrej⟩ :=
      node_lookup_after sampleExtern sampleBoxState sampleNodeWest (scannedWest sampleBoxState)
        (fun h _ _ => Int.ofNat_nonneg _)
        (points_from_store_init _ _ rfl) (by rfl)
    exact ⟨r, s2, h, (hrej (by decide)).2.2 (by decide)⟩

/-- C7 counterexample: with `LonMin` = 3.000050 enabled, the node line with
identifier 2 at longitude 3.000100 is accepted, a later node line with the
same identifier 2 at longitude 3.000000 is rejected (the handler returns 1),
and the lookup of 2 after it returns the index 0, not -1. -/
theorem rejected_node_is_found :
    ∃ s1 s2,
      buildmap_osm_text_node sampleExtern sampleBoxState sampleNodeEast = Outcome.ok 0 s1
      ∧ buildmap_osm_text_node sampleExtern s1 sampleNodeWestAgain = Outcome.ok 1 s2
      ∧ buildmap_osm_text_point_get s2 2 = 0
      ∧ buildmap_osm_text_point_get s2 2 ≠ -1 :=
  ⟨_, _, rfl, rfl, by decide, by decide⟩

/-! ### What each handler leaves unchanged -/

theorem node_frame_full (E : Extern) (s : State) (data : CString) (r : Int) (s2 : State)
    (h : buildmap_osm_text_node E s data = Outcome.ok r s2) : node_erase s2 = node_erase s := by
  unfold buildmap_osm_text_node at h
  split at h
  · cases h
  · rename_i s1 hs
    have hf := node_scan_frame E s data s1 hs
    have hf2 : node_erase s1 = node_erase s :=
      congrArg (fun t : State => { t with out := [], points := [] }) hf
    cases h
    rw [← hf2]
    unfold node_insert
    split <;> rfl

theorem node_end_city_frame (E : Extern) (s : State) :
    node_end_erase (node_end_city E s) = node_end_erase s := by
  unfold node_end_city
  split <;> rfl

theorem node_end_zip_frame (s : State) : node_end_erase (node_end_zip s) = node_end_erase s := by
  unfold node_end_zip
  split
  · rfl
  · split <;> rfl

theorem node_end_frame (E : Extern) (s : State) (data : CString) (r : Int) (s2 : State)
    (h : buildmap_osm_text_node_end E s data = Outcome.ok r s2) :
    node_end_erase s2 = node_end_erase s := by
  unfold buildmap_osm_text_node_end at h
  cases h
  split
  · exact ((node_end_zip_frame _).trans (node_end_city_frame E s) ▸ rfl :
      node_end_erase (buildmap_osm_text_reset_node (node_end_zip (node_end_city E s)))
        = node_end_erase s)
  · rfl

theorem node_tag_frame (s : State) (data : CString) (r : Int) (s2 : State)
    (h : buildmap_osm_text_node_tag s data = Outcome.ok r s2) :
    node_tag_erase s2 = node_tag_erase s := by
  unfold buildmap_osm_text_node_tag at h
  simp only at h
  split at h
  · cases h
  · split at h
    · split at h
      · cases h
      · cases h; rfl
    · split at h
      · split at h
        · cases h
        · cases h; rfl
      · split at h
        · split at h
          · cases h
          · cases h; rfl
        · cases h; rfl

theorem way_tag_frame (E : Extern) (s : State) (data : CString) (r : Int) (s2 : State)
    (hw : s.in_way ≠ 0)
    (h : buildmap_osm_text_tag E s data = Outcome.ok r s2) :
    way_tag_erase s2 = way_tag_erase s := by
  unfold buildmap_osm_text_tag at h
  rw [if_neg hw] at h
  simp only at h
  split at h
  · cases h
  · split at h
    · split at h
      · cases h
      · cases h; rfl
    · split at h
      · split at h
        · cases h; rfl
        · cases h
        · cases h; rfl
      · cases h; rfl

theorem way_nodes_grow_frame (s : State) : nd_erase (way_nodes_grow s) = nd_erase s := by
  unfold way_nodes_grow
  split <;> rfl

theorem way_nodes_push_frame (s : State) (node : Int) (s2 : State)
    (h : way_nodes_push s node = some s2) : nd_erase s2 = nd_erase s := by
  unfold way_nodes_push at h
  split at h
  · cases h
    exact (way_nodes_grow_frame s ▸ rfl :
      nd_erase { way_nodes_grow s with
        WayNodes := (way_nodes_grow s).WayNodes.set (way_nodes_grow s).nWayNodes (some node),
        nWayNodes := (way_nodes_grow s).nWayNodes + 1 } = nd_erase s)
  · cases h

theorem nd_frame (s : State) (data : CString) (r : Int) (s2 : State)
    (h : buildmap_osm_text_nd s data = Outcome.ok r s2) : nd_erase s2 = nd_erase s := by
  unfold buildmap_osm_text_nd at h
  split at h
  · cases h
  · split at h
    · cases h; rfl
    · split at h
      · cases h; rfl
      · split at h
        · cases h
        · rename_i s1 hs
          cases h
          exact way_nodes_push_frame _ _ _ hs

theorem way_frame (s : State) (data : CString) (r : Int) (s2 : State)
    (h : buildmap_osm_text_way s data = Outcome.ok r s2) : way_erase s2 = way_erase s := by
  unfold buildmap_osm_text_way at h
  simp only at h
  split at h
  · cases h
  · cases h; rfl

/-! ### The loops of `buildmap_osm_text_way_end` -/

theorem line_ids_append (xs ys : List Call) : line_ids (xs ++ ys) = line_ids xs ++ line_ids ys := by
  induction xs with
  | nil => rfl
  | cons c cs ih => cases c <;> simp [line_ids, ih]

theorem city_ids_append (xs ys : List Call) : city_ids (xs ++ ys) = city_ids xs ++ city_ids ys := by
  induction xs with
  | nil => rfl
  | cons c cs ih => cases c <;> simp [city_ids, ih]

theorem area_lines_effect (k j : Nat) (s s2 : State) (h : area_lines k j s = some s2) :
    ∃ calls, s2 = { s with lineid := s.lineid + k, out := s.out ++ calls }
      ∧ List.Pairwise (fun a b => a < b) (line_ids calls)
      ∧ (∀ x ∈ line_ids calls, s.lineid < x ∧ x ≤ s.lineid + k)
      ∧ (∀ c ∈ calls, is_line_add c = true) ∧ calls.length = k := by
  induction k generalizing j s with
  | zero =>
    simp only [area_lines] at h
    cases h
    exact ⟨[], by simp, by simp [line_ids], by simp [line_ids], by simp, rfl⟩
  | succ n ih =>
    unfold area_lines at h
    split at h
    · rename_i a b _ _
      obtain ⟨calls, hs, hl, hb, hc, hn⟩ := ih _ _ h
      refine ⟨Call.buildmap_line_add (s.lineid + 1) s.WayLayer
        (buildmap_osm_text_point_get s a) (buildmap_osm_text_point_get s b) :: calls,
        ?_, ?_, ?_, ?_, ?_⟩
      · rw [hs]
        simp only [State.call, Nat.cast_add, Nat.cast_one, List.append_assoc, List.singleton_append]
        congr 1
        omega
      · simp only [line_ids, List.pairwise_cons]
        refine ⟨fun x hx => ?_, hl⟩
        have := (hb x hx).1
        simpa [State.call] using this
      · intro x hx
        simp only [line_ids, List.mem_cons] at hx
        rcases hx with rfl | hx
        · constructor <;> push_cast <;> omega
        · have := hb x hx
          simp only [State.call] at this
          constructor <;> push_cast <;> omega
      · intro c hcm
        rcases List.mem_cons.mp hcm with rfl | hm
        · rfl
        · exact hc c hm
      · simp [hn]
    · cases h

theorem shape_capture_effect (E : Extern) (k j : Nat) (s : State) (bufs : List Int × List Int)
    (s2 : State) (bufs2 : List Int × List Int)
    (h : shape_capture E k j s bufs = some (s2, bufs2)) :
    ∃ calls, s2 = { s with out := s.out ++ calls }
      ∧ (∀ c ∈ calls, is_square_adjust c = true)
      ∧ bufs2.1.length = bufs.1.length + k ∧ bufs2.2.length = bufs.2.length + k := by
  induction k generalizing j s bufs with
  | zero =>
    simp only [shape_capture] at h
    cases h
    exact ⟨[], by simp, by simp, rfl, rfl⟩
  | succ n ih =>
    unfold shape_capture at h
    split at h
    · cases h
    · rename_i a _
      obtain ⟨calls, hs, hc, h1, h2⟩ := ih _ _ _ h
      refine ⟨Call.buildmap_square_adjust_limits
        (E.buildmap_point_get_longitude s.out (buildmap_osm_text_point_get s a))
        (E.buildmap_point_get_latitude s.out (buildmap_osm_text_point_get s a)) :: calls,
        ?_, ?_, ?_, ?_⟩
      · rw [hs]
        simp only [State.call, List.append_assoc, List.singleton_append]
      · intro c hcm
        rcases List.mem_cons.mp hcm with rfl | hm
        · rfl
        · exact hc c hm
      · rw [h1]; simp only [List.length_append, List.length_singleton]; omega
      · rw [h2]; simp only [List.length_append, List.length_singleton]; omega

theorem way_end_area_effect (E : Extern) (s0 s4 : State) (h : way_end_area E s0 = some s4) :
    ∃ lines, s4 = { s0 with nPolygons := s0.nPolygons + 1, cenid := s0.cenid + 1,
                            polyid := s0.polyid + 1,
                            lineid := s0.lineid + ((s0.nWayNodes - 1 : Nat) : Int),
                            out := s0.out ++
                              (Call.buildmap_dictionary_add BuildMapDictionary.DictionaryStreet
                                  (s0.WayStreetName.getD [])
                                :: Call.buildmap_polygon_add_landmark (s0.nPolygons + 1) s0.WayLayer
                                    (E.buildmap_dictionary_add s0.out
                                      BuildMapDictionary.DictionaryStreet (s0.WayStreetName.getD []))
                                :: Call.buildmap_polygon_add (s0.nPolygons + 1) (s0.cenid + 1)
                                    (s0.polyid + 1)
                                :: lines) }
      ∧ List.Pairwise (fun a b => a < b) (line_ids lines)
      ∧ (∀ x ∈ line_ids lines, s0.lineid < x ∧ x ≤ s0.lineid + ((s0.nWayNodes - 1 : Nat) : Int))
      ∧ (∀ c ∈ lines, is_line_add c = true) ∧ lines.length = s0.nWayNodes - 1 := by
  unfold way_end_area at h
  obtain ⟨lines, hs, hp, hb, hc, hn⟩ := area_lines_effect _ _ _ _ h
  refine ⟨lines, ?_, hp, ?_, hc, hn⟩
  · rw [hs]
    simp only [State.call, str2dict, List.append_assoc, List.singleton_append, List.cons_append,
      List.nil_append]
  · intro x hx
    simpa [State.call, str2dict] using hb x hx

theorem line_ids_of_not_line (cs : List Call) (h : ∀ c ∈ cs, is_line_add c = false) :
    line_ids cs = [] := by
  induction cs with
  | nil => rfl
  | cons c cs ih =>
    have hc := h c (List.mem_cons_self _ _)
    have ih2 := ih (fun d hd => h d (List.mem_cons_of_mem _ hd))
    cases c <;> simp [is_line_add] at hc <;> simpa [line_ids] using ih2

theorem street_name_dict_eq (E : Extern) (s1 : State) :
    ∃ d, (street_name_dict E s1).2 = { s1 with out := s1.out ++ d }
      ∧ (∀ c ∈ d, is_dictionary_add c = true) := by
  unfold street_name_dict
  split
  · exact ⟨[_], rfl, by simp [is_dictionary_add]⟩
  · exact ⟨[], by simp, by simp⟩

theorem way_end_street_eq (E : Extern) (h0 : List Call) (s0 : State) (fp tp : Int) :
    ∃ pre, way_end_street E h0 s0 fp tp
        = { s0 with lineid := s0.lineid + 1, out := s0.out ++ pre }
      ∧ line_ids pre = [s0.lineid + 1] ∧ (∀ c ∈ pre, is_way_call c = true) := by
  have key := street_name_dict_eq E ({ s0 with lineid := s0.lineid + 1 }.call
        (Call.buildmap_line_add (s0.lineid + 1) s0.WayLayer fp tp))
  unfold way_end_street
  generalize street_name_dict E ({ s0 with lineid := s0.lineid + 1 }.call
        (Call.buildmap_line_add (s0.lineid + 1) s0.WayLayer fp tp)) = sn at key ⊢
  obtain ⟨d, hd, hdd⟩ := key
  obtain ⟨n1, st⟩ := sn
  simp only at hd
  subst hd
  simp only [State.call, List.append_assoc]
  refine ⟨_, rfl, ?_, ?_⟩
  · have hd0 : line_ids d = [] := line_ids_of_not_line d (fun c hc => by
      have := hdd c hc
      cases c <;> simp_all [is_dictionary_add, is_line_add])
    simp only [List.singleton_append, line_ids, List.cons.injEq, true_and]
    show line_ids (d ++ _) = []
    rw [line_ids_append, hd0]
    rfl
  · intro c hc
    simp only [List.singleton_append, List.mem_cons, List.mem_append, List.mem_singleton,
      List.not_mem_nil, or_false] at hc
    rcases hc with rfl | hc | rfl | rfl
    · rfl
    · simp [is_way_call, hdd c hc]
    · rfl
    · rfl

theorem way_end_line_effect (E : Extern) (h0 : List Call) (s0 s4 : State) (fp tp : Int)
    (h : way_end_line E h0 s0 fp tp = some s4) :
    ∃ calls rec, s4 = { s0 with lineid := s0.lineid + 1, out := s0.out ++ calls,
                                shapes := s0.shapes ++ [rec] }
      ∧ rec.lineid = s0.lineid + 1 ∧ rec.count = s0.nWayNodes
      ∧ rec.lons.length = rec.count ∧ rec.lats.length = rec.count
      ∧ line_ids calls = [s0.lineid + 1]
      ∧ (∀ c ∈ calls, is_way_call c = true) := by
  obtain ⟨pre, hst, hlp, hcp⟩ := way_end_street_eq E h0 s0 fp tp
  unfold way_end_line at h
  rw [hst] at h
  split at h
  · cases h
  · rename_i s3 lonsbuf latsbuf hcap
    obtain ⟨sq, hs, hsq, hl1, hl2⟩ := shape_capture_effect E _ _ _ _ _ _ hcap
    cases h
    subst hs
    refine ⟨pre ++ sq, ⟨s0.lineid + 1, s0.nWayNodes, lonsbuf, latsbuf⟩, ?_, rfl, rfl, ?_, ?_, ?_, ?_⟩
    · simp only [List.append_assoc]
    · simpa using hl1
    · simpa using hl2
    · rw [line_ids_append, hlp, line_ids_of_not_line sq (fun c hc => by
        have := hsq c hc
        cases c <;> simp_all [is_square_adjust, is_line_add])]
      rfl
    · intro c hc
      rcases List.mem_append.mp hc with hc | hc
      · exact hcp c hc
      · have := hsq c hc
        simp [is_way_call, this]

theorem way_end_dicts_eq (E : Extern) (s : State) :
    way_end_dicts E s = { s with out := s.out ++
      [Call.buildmap_dictionary_add BuildMapDictionary.DictionaryPrefix [],
       Call.buildmap_dictionary_add BuildMapDictionary.DictionarySuffix [],
       Call.buildmap_dictionary_add BuildMapDictionary.DictionaryType []] } := by
  simp [way_end_dicts, str2dict, State.call]

theorem way_end_invalid (E : Extern) (s : State) (data : CString) (h : s.WayInvalid ≠ 0) :
    buildmap_osm_text_way_end E s data = Outcome.ok 0 s := by
  unfold buildmap_osm_text_way_end
  rw [if_pos h]

theorem way_end_effect (E : Extern) (s : State) (data : CString) (r : Int) (s2 : State)
    (h : buildmap_osm_text_way_end E s data = Outcome.ok r s2) :
    r = 0 ∧ ((s.WayInvalid ≠ 0 ∧ s2 = s)
      ∨ (s.WayInvalid = 0 ∧ s.in_way ≠ 0
          ∧ way_end_erase s2 = way_end_erase s
          ∧ s2.in_way = 0 ∧ s2.nWayNodes = 0 ∧ s2.WayStreetName = none ∧ s2.WayFlags = 0
          ∧ s2.WayInvalid = 0
          ∧ ∃ calls, s2.out = s.out ++ calls
            ∧ (∀ c ∈ calls, is_way_call c = true)
            ∧ List.Pairwise (fun a b => a < b) (line_ids calls)
            ∧ (∀ x ∈ line_ids calls, s.lineid < x ∧ x ≤ s2.lineid)
            ∧ s.lineid ≤ s2.lineid
            ∧ (s2.shapes = s.shapes
                ∨ ∃ rec, s2.shapes = s.shapes ++ [rec] ∧ rec.lons.length = rec.count
                    ∧ rec.lats.length = rec.count))) := by
  unfold buildmap_osm_text_way_end at h
  split at h
  · rename_i hinv
    cases h
    exact ⟨rfl, Or.inl ⟨hinv, rfl⟩⟩
  · rename_i hinv
    have hinv0 : s.WayInvalid = 0 := by
      by_contra hc; exact hinv hc
    split at h
    · cases h
    · rename_i hway
      split at h
      · rename_i first last _ _
        split at h
        · cases h
        · rename_i s4 hbr
          cases h
          refine ⟨rfl, Or.inr ⟨hinv0, hway, ?_⟩⟩
          have hA : ∀ cs, line_ids
              ([Call.buildmap_dictionary_add BuildMapDictionary.DictionaryPrefix [],
                Call.buildmap_dictionary_add BuildMapDictionary.DictionarySuffix [],
                Call.buildmap_dictionary_add BuildMapDictionary.DictionaryType []] ++ cs)
              = line_ids cs := fun cs => rfl
          unfold way_end_branch at hbr
          rw [way_end_dicts_eq] at hbr
          split at hbr
          · obtain ⟨lines, hs, hp, hb, hc, _⟩ := way_end_area_effect E _ _ hbr
            subst hs
            refine ⟨rfl, rfl, rfl, rfl, rfl, rfl, _, List.append_assoc _ _ _, ?_, ?_, ?_, ?_,
              Or.inl rfl⟩
            · intro c hcm
              rcases List.mem_append.mp hcm with h1 | h1
              · simp only [List.mem_cons, List.not_mem_nil, or_false] at h1
                rcases h1 with rfl | rfl | rfl <;> rfl
              · simp only [List.mem_cons] at h1
                rcases h1 with rfl | rfl | rfl | h1
                · rfl
                · rfl
                · rfl
                · simp [is_way_call, hc c h1]
            · rw [hA]
              exact hp
            · intro x hx
              rw [hA] at hx
              exact hb x hx
            · show s.lineid ≤ s.lineid + _
              omega
          · obtain ⟨calls, rec, hs, _, _, hl1, hl2, hli, hc⟩ := way_end_line_effect E _ _ _ _ _ hbr
            subst hs
            refine ⟨rfl, rfl, rfl, rfl, rfl, rfl, _, List.append_assoc _ _ _, ?_, ?_, ?_, ?_,
              Or.inr ⟨rec, rfl, hl1, hl2⟩⟩
            · intro c hcm
              rcases List.mem_append.mp hcm with h1 | h1
              · simp only [List.mem_cons, List.not_mem_nil, or_false] at h1
                rcases h1 with rfl | rfl | rfl <;> rfl
              · exact hc c h1
            · rw [hA, hli]
              exact List.pairwise_singleton _ _
            · intro x hx
              rw [hA, hli] at hx
              rw [List.mem_singleton.mp hx]
              show s.lineid < s.lineid + 1 ∧ s.lineid + 1 ≤ s.lineid + 1
              omega
            · show s.lineid ≤ s.lineid + 1
              omega
      · cases h

/-! ### The effect of a line of pass 1 and of pass 2 -/

theorem pass1_step_refl (s : State) : Pass1Step s s :=
  ⟨rfl, fun _ => ⟨rfl, rfl, rfl, rfl, rfl⟩, List.prefix_refl _, le_refl _,
    [], by simp, by simp, by simp [city_ids], by simp [city_ids]⟩

theorem pass1_step_trans (s s1 s2 : State) (h1 : Pass1Step s s1) (h2 : Pass1Step s1 s2) :
    Pass1Step s s2 := by
  obtain ⟨e1, w1, p1, f1, c1, o1, n1, pw1, b1⟩ := h1
  obtain ⟨e2, w2, p2, f2, c2, o2, n2, pw2, b2⟩ := h2
  have hin : s1.in_way = s.in_way := (congrArg State.in_way e1 : _)
  refine ⟨e2.trans e1, ?_, p1.trans p2, le_trans f1 f2, c1 ++ c2, ?_, ?_, ?_, ?_⟩
  · intro h0
    obtain ⟨a1, a2, a3, a4, a5⟩ := w1 h0
    obtain ⟨d1, d2, d3, d4, d5⟩ := w2 (hin.trans h0)
    exact ⟨d1.trans a1, d2.trans a2, d3.trans a3, d4.trans a4, d5.trans a5⟩
  · rw [o2, o1, List.append_assoc]
  · intro c hc
    rcases List.mem_append.mp hc with hc | hc
    · exact n1 c hc
    · exact n2 c hc
  · rw [city_ids_append, List.pairwise_append]
    refine ⟨pw1, pw2, fun a ha b hb => ?_⟩
    have := (b1 a ha).2
    have := (b2 b hb).1
    omega
  · intro x hx
    rw [city_ids_append] at hx
    rcases List.mem_append.mp hx with hx | hx
    · have := b1 x hx
      omega
    · have := b2 x hx
      omega

theorem pass2_step_refl (s : State) : Pass2Step s s :=
  ⟨rfl, le_refl _, ⟨[], by simp, by simp⟩, [], by simp, by simp, by simp [line_ids],
    by simp [line_ids]⟩

theorem pass2_step_trans (s s1 s2 : State) (h1 : Pass2Step s s1) (h2 : Pass2Step s1 s2) :
    Pass2Step s s2 := by
  obtain ⟨e1, f1, ⟨r1, hr1, w1⟩, c1, o1, n1, pw1, b1⟩ := h1
  obtain ⟨e2, f2, ⟨r2, hr2, w2⟩, c2, o2, n2, pw2, b2⟩ := h2
  refine ⟨e2.trans e1, le_trans f1 f2, ⟨r1 ++ r2, ?_, ?_⟩, c1 ++ c2, ?_, ?_, ?_, ?_⟩
  · rw [hr2, hr1, List.append_assoc]
  · intro r hr
    rcases List.mem_append.mp hr with hr | hr
    · exact w1 r hr
    · exact w2 r hr
  · rw [o2, o1, List.append_assoc]
  · intro c hc
    rcases List.mem_append.mp hc with hc | hc
    · exact n1 c hc
    · exact n2 c hc
  · rw [line_ids_append, List.pairwise_append]
    refine ⟨pw1, pw2, fun a ha b hb => ?_⟩
    have := (b1 a ha).2
    have := (b2 b hb).1
    omega
  · intro x hx
    rw [line_ids_append] at hx
    rcases List.mem_append.mp hx with hx | hx
    · have := b1 x hx
      omega
    · have := b2 x hx
      omega

theorem node_end_city_none (E : Extern) (s : State) (h : s.NodeTownName = none) :
    node_end_city E s = s := by
  unfold node_end_city
  split
  · rfl
  · rename_i name h2
    rw [h] at h2
    cases h2

theorem node_end_city_some (E : Extern) (s : State) (name : CString)
    (h : s.NodeTownName = some name) :
    node_end_city E s = { s with fips := s.fips + 1, out := s.out ++
      [Call.buildmap_dictionary_add BuildMapDictionary.DictionaryCity name,
       Call.buildmap_city_add (s.fips + 1) 2008
         (E.buildmap_dictionary_add s.out BuildMapDictionary.DictionaryCity name)] } := by
  unfold node_end_city
  split
  · rename_i h2
    rw [h] at h2
    cases h2
  · rename_i name2 h2
    rw [h] at h2
    cases h2
    simp only [State.call, List.append_assoc, List.singleton_append]

theorem node_end_zip_none (s : State) (h : s.NodePostalCode = none) : node_end_zip s = s := by
  unfold node_end_zip
  split
  · rfl
  · rename_i code h2
    rw [h] at h2
    cases h2

theorem node_end_zip_zero (s : State) (code : CString) (h : s.NodePostalCode = some code)
    (hz : sscanf_zip code = 0) : node_end_zip s = s := by
  unfold node_end_zip
  split
  · rfl
  · rename_i code2 h2
    rw [h] at h2
    cases h2
    rw [if_neg (by simpa using hz)]

theorem node_end_zip_some (s : State) (code : CString) (h : s.NodePostalCode = some code)
    (hz : sscanf_zip code ≠ 0) :
    node_end_zip s = { s with out := s.out ++
      [Call.buildmap_zip_add (sscanf_zip code) s.NodeLon s.NodeLat] } := by
  unfold node_end_zip
  split
  · rename_i h2
    rw [h] at h2
    cases h2
  · rename_i code2 h2
    rw [h] at h2
    cases h2
    rw [if_pos hz]
    rfl

theorem node_end_city_calls (E : Extern) (s : State) :
    ∃ calls, node_end_city E s
        = { s with fips := (node_end_city E s).fips, out := s.out ++ calls }
      ∧ (∀ c ∈ calls, is_node_call c = true)
      ∧ (city_ids calls = [] ∧ (node_end_city E s).fips = s.fips
          ∨ city_ids calls = [s.fips + 1] ∧ (node_end_city E s).fips = s.fips + 1) := by
  obtain ⟨o, ho⟩ : ∃ o, s.NodeTownName = o := ⟨_, rfl⟩
  cases o with
  | none =>
    rw [node_end_city_none E s ho]
    exact ⟨[], by simp, by simp, Or.inl ⟨rfl, rfl⟩⟩
  | some name =>
    rw [node_end_city_some E s name ho]
    refine ⟨_, rfl, ?_, Or.inr ⟨rfl, rfl⟩⟩
    intro c hc
    simp only [List.mem_cons, List.not_mem_nil, or_false] at hc
    rcases hc with rfl | rfl <;> rfl

theorem node_end_zip_calls (s : State) :
    ∃ calls, node_end_zip s = { s with out := s.out ++ calls }
      ∧ (∀ c ∈ calls, is_zip_add c = true) ∧ city_ids calls = [] := by
  obtain ⟨o, ho⟩ : ∃ o, s.NodePostalCode = o := ⟨_, rfl⟩
  cases o with
  | none =>
    rw [node_end_zip_none s ho]
    exact ⟨[], by simp, by simp, rfl⟩
  | some code =>
    by_cases hz : sscanf_zip code = 0
    · rw [node_end_zip_zero s code ho hz]
      exact ⟨[], by simp, by simp, rfl⟩
    · rw [node_end_zip_some s code ho hz]
      refine ⟨_, rfl, ?_, rfl⟩
      intro c hc
      rw [List.mem_singleton.mp hc]
      rfl

theorem node_end_calls (E : Extern) (s : State) :
    ∃ calls, (node_end_zip (node_end_city E s)).out = s.out ++ calls
      ∧ (∀ c ∈ calls, is_node_call c = true)
      ∧ (city_ids calls = [] ∧ (node_end_zip (node_end_city E s)).fips = s.fips
          ∨ city_ids calls = [s.fips + 1]
            ∧ (node_end_zip (node_end_city E s)).fips = s.fips + 1) := by
  obtain ⟨c1, h1, n1, k1⟩ := node_end_city_calls E s
  obtain ⟨c2, h2, n2, k2⟩ := node_end_zip_calls (node_end_city E s)
  have hf : (node_end_zip (node_end_city E s)).fips = (node_end_city E s).fips := by
    rw [h2]
  have ho : (node_end_zip (node_end_city E s)).out = s.out ++ (c1 ++ c2) := by
    rw [h2]
    show (node_end_city E s).out ++ c2 = _
    rw [h1]
    simp only [List.append_assoc]
  refine ⟨c1 ++ c2, ho, ?_, ?_⟩
  · intro c hc
    rcases List.mem_append.mp hc with hc | hc
    · exact n1 c hc
    · have := n2 c hc
      simp [is_node_call, this]
  · rw [city_ids_append, k2, List.append_nil, hf]
    exact k1

theorem node_end_step (E : Extern) (s : State) (data : CString) (r : Int) (s2 : State)
    (h : buildmap_osm_text_node_end E s data = Outcome.ok r s2) : Pass1Step s s2 := by
  have hfr := node_end_frame E s data r s2 h
  have he : pass1_erase s2 = pass1_erase s := (congrArg pass1_erase hfr : _)
  have hW : s2.WayLayer = s.WayLayer ∧ s2.WayStreetName = s.WayStreetName
      ∧ s2.WayFlags = s.WayFlags ∧ s2.tag = s.tag ∧ s2.value = s.value ∧ s2.points = s.points :=
    ⟨(congrArg State.WayLayer hfr : _), (congrArg State.WayStreetName hfr : _),
     (congrArg State.WayFlags hfr : _), (congrArg State.tag hfr : _),
     (congrArg State.value hfr : _), (congrArg State.points hfr : _)⟩
  obtain ⟨w1, w2, w3, w4, w5, w6⟩ := hW
  refine ⟨he, fun _ => ⟨w1, w2, w3, w4, w5⟩, by rw [w6], ?_⟩
  unfold buildmap_osm_text_node_end at h
  cases h
  split
  · obtain ⟨calls, ho, hn, hk⟩ := node_end_calls E s
    rcases hk with ⟨hk, hf⟩ | ⟨hk, hf⟩
    · refine ⟨by show s.fips ≤ (node_end_zip (node_end_city E s)).fips; rw [hf],
        calls, ho, hn, by rw [hk]; exact List.Pairwise.nil, by rw [hk]; simp⟩
    · refine ⟨by show s.fips ≤ (node_end_zip (node_end_city E s)).fips; rw [hf]; omega,
        calls, ho, hn, by rw [hk]; exact List.pairwise_singleton _ _, ?_⟩
      intro f hfm
      rw [hk] at hfm
      rw [List.mem_singleton.mp hfm]
      show s.fips < s.fips + 1 ∧ s.fips + 1 ≤ (node_end_zip (node_end_city E s)).fips
      rw [hf]
      omega
  · exact ⟨le_refl _, [], by simp [buildmap_osm_text_reset_node], by simp, by simp [city_ids],
      by simp [city_ids]⟩

theorem node_step (E : Extern) (s : State) (data : CString) (r : Int) (s2 : State)
    (h : buildmap_osm_text_node E s data = Outcome.ok r s2) : Pass1Step s s2 := by
  have hfr := node_frame_full E s data r s2 h
  have he : pass1_erase s2 = pass1_erase s := (congrArg pass1_erase hfr : _)
  have hW : s2.WayLayer = s.WayLayer ∧ s2.WayStreetName = s.WayStreetName
      ∧ s2.WayFlags = s.WayFlags ∧ s2.tag = s.tag ∧ s2.value = s.value ∧ s2.fips = s.fips :=
    ⟨(congrArg State.WayLayer hfr : _), (congrArg State.WayStreetName hfr : _),
     (congrArg State.WayFlags hfr : _), (congrArg State.tag hfr : _),
     (congrArg State.value hfr : _), (congrArg State.fips hfr : _)⟩
  obtain ⟨w1, w2, w3, w4, w5, w6⟩ := hW
  unfold buildmap_osm_text_node at h
  split at h
  · cases h
  · rename_i s1 hs
    obtain ⟨ho, hp, _⟩ := node_frame_fields s1 s (node_scan_frame E s data s1 hs)
    by_cases hv : bbox_violated s1 s1.NodeLon s1.NodeLat
    · rw [node_insert_violated E s1 hv] at h
      cases h
      exact ⟨he, fun _ => ⟨w1, w2, w3, w4, w5⟩, by show s.points <+: s1.points; rw [hp],
        by rw [w6], [], by show s1.out = _; rw [ho]; simp, by simp, by simp [city_ids],
        by simp [city_ids]⟩
    · rw [node_insert_inside E s1 hv] at h
      cases h
      refine ⟨he, fun _ => ⟨w1, w2, w3, w4, w5⟩, ?_, by rw [w6],
        [Call.buildmap_point_add s1.NodeLon s1.NodeLat], ?_, ?_, by simp [city_ids],
        by simp [city_ids]⟩
      · show s.points <+: s1.points ++ _
        rw [hp]
        exact List.prefix_append _ _
      · show s1.out ++ _ = _
        rw [ho]
      · intro c hc
        rw [List.mem_singleton.mp hc]
        rfl

theorem same_out_step1 (s s2 : State) (he : pass1_erase s2 = pass1_erase s)
    (hw : s.in_way = 0 → s2.WayLayer = s.WayLayer ∧ s2.WayStreetName = s.WayStreetName
        ∧ s2.WayFlags = s.WayFlags ∧ s2.tag = s.tag ∧ s2.value = s.value)
    (ho : s2.out = s.out) (hp : s2.points = s.points) (hf : s2.fips = s.fips) :
    Pass1Step s s2 :=
  ⟨he, hw, by rw [hp], by rw [hf], [], by rw [ho]; simp, by simp, by simp [city_ids],
    by simp [city_ids]⟩

theorem tag_step1 (E : Extern) (s : State) (data : CString) (r : Int) (s2 : State)
    (h : buildmap_osm_text_tag E s data = Outcome.ok r s2) : Pass1Step s s2 := by
  by_cases hw : s.in_way = 0
  · have h2 : buildmap_osm_text_node_tag s data = Outcome.ok r s2 := by
      unfold buildmap_osm_text_tag at h
      rw [if_pos hw] at h
      exact h
    have hfr := node_tag_frame s data r s2 h2
    exact same_out_step1 s s2 (congrArg pass1_erase hfr : _)
      (fun _ => ⟨(congrArg State.WayLayer hfr : _), (congrArg State.WayStreetName hfr : _),
        (congrArg State.WayFlags hfr : _), (congrArg State.tag hfr : _),
        (congrArg State.value hfr : _)⟩)
      (congrArg State.out hfr : _) (congrArg State.points hfr : _) (congrArg State.fips hfr : _)
  · have hfr := way_tag_frame E s data r s2 hw h
    exact same_out_step1 s s2 (congrArg pass1_erase hfr : _) (fun h0 => absurd h0 hw)
      (congrArg State.out hfr : _) (congrArg State.points hfr : _) (congrArg State.fips hfr : _)

theorem pass1_line_step (E : Extern) (s : State) (buf : CString) (r : Int) (s2 : State)
    (h : pass1_line E s buf = Outcome.ok r s2) : Pass1Step s s2 := by
  unfold pass1_line at h
  split at h
  · cases h; exact pass1_step_refl _
  · cases h
  · rename_i p _
    generalize token p = tk at h
    cases tk <;> simp only [pass1_token] at h
    case node => exact node_step E s p r s2 h
    case node_end => exact node_end_step E s p r s2 h
    case tag => exact tag_step1 E s p r s2 h
    case invalid => cases h
    all_goals (cases h; exact pass1_step_refl _)

theorem run_pass1_step (E : Extern) (lines : List CString) (r0 : Int) (s : State)
    (r : Int) (s2 : State) (h : run_lines (pass1_line E) lines r0 s = Outcome.ok r s2) :
    Pass1Step s s2 := by
  induction lines generalizing r0 s with
  | nil =>
    simp only [run_lines] at h
    cases h
    exact pass1_step_refl _
  | cons buf rest ih =>
    simp only [run_lines] at h
    split at h
    · rename_i r1 s1 h1
      exact pass1_step_trans s s1 s2 (pass1_line_step E s buf r1 s1 h1) (ih _ _ h)
    · cases h
    · cases h

theorem same_out_step2 (s s2 : State) (he : pass2_erase s2 = pass2_erase s)
    (ho : s2.out = s.out) (hl : s2.lineid = s.lineid) (hs : s2.shapes = s.shapes) :
    Pass2Step s s2 :=
  ⟨he, by rw [hl], ⟨[], by rw [hs]; simp, by simp⟩, [], by rw [ho]; simp, by simp,
    by simp [line_ids], by simp [line_ids]⟩

theorem tag_step2 (E : Extern) (s : State) (data : CString) (r : Int) (s2 : State)
    (h : buildmap_osm_text_tag E s data = Outcome.ok r s2) : Pass2Step s s2 := by
  by_cases hw : s.in_way = 0
  · have h2 : buildmap_osm_text_node_tag s data = Outcome.ok r s2 := by
      unfold buildmap_osm_text_tag at h
      rw [if_pos hw] at h
      exact h
    have hfr := node_tag_frame s data r s2 h2
    exact same_out_step2 s s2 (congrArg pass2_erase hfr : _)
      (congrArg State.out hfr : _) (congrArg State.lineid hfr : _)
      (congrArg State.shapes hfr : _)
  · have hfr := way_tag_frame E s data r s2 hw h
    exact same_out_step2 s s2 (congrArg pass2_erase hfr : _)
      (congrArg State.out hfr : _) (congrArg State.lineid hfr : _)
      (congrArg State.shapes hfr : _)

theorem way_step (s : State) (data : CString) (r : Int) (s2 : State)
    (h : buildmap_osm_text_way s data = Outcome.ok r s2) : Pass2Step s s2 := by
  have hfr := way_frame s data r s2 h
  exact same_out_step2 s s2 (congrArg pass2_erase hfr : _)
    (congrArg State.out hfr : _) (congrArg State.lineid hfr : _)
    (congrArg State.shapes hfr : _)

theorem nd_step (s : State) (data : CString) (r : Int) (s2 : State)
    (h : buildmap_osm_text_nd s data = Outcome.ok r s2) : Pass2Step s s2 := by
  have hfr := nd_frame s data r s2 h
  exact same_out_step2 s s2 (congrArg pass2_erase hfr : _)
    (congrArg State.out hfr : _) (congrArg State.lineid hfr : _)
    (congrArg State.shapes hfr : _)

theorem way_end_step (E : Extern) (s : State) (data : CString) (r : Int) (s2 : State)
    (h : buildmap_osm_text_way_end E s data = Outcome.ok r s2) : Pass2Step s s2 := by
  obtain ⟨_, hcase⟩ := way_end_effect E s data r s2 h
  rcases hcase with ⟨_, rfl⟩ | ⟨_, _, hfr, _, _, _, _, _, calls, ho, hc, hp, hb, hl, hsh⟩
  · exact pass2_step_refl _
  · refine ⟨(congrArg pass2_erase hfr : _), hl, ?_, calls, ho, hc, hp, hb⟩
    rcases hsh with hsh | ⟨rec, hsh, w1, w2⟩
    · exact ⟨[], by rw [hsh]; simp, by simp⟩
    · refine ⟨[rec], hsh, ?_⟩
      intro r hr
      rw [List.mem_singleton.mp hr]
      exact ⟨w1, w2⟩

theorem pass2_line_step (E : Extern) (s : State) (buf : CString) (r : Int) (s2 : State)
    (h : pass2_line E s buf = Outcome.ok r s2) : Pass2Step s s2 := by
  unfold pass2_line at h
  split at h
  · cases h; exact pass2_step_refl _
  · cases h
  · rename_i p _
    generalize token p = tk at h
    cases tk <;> simp only [pass2_token] at h
    case way => exact way_step s p r s2 h
    case way_end => exact way_end_step E s p r s2 h
    case nd => exact nd_step s p r s2 h
    case tag => exact tag_step2 E s p r s2 h
    case invalid => cases h
    all_goals (cases h; exact pass2_step_refl _)

theorem run_pass2_step (E : Extern) (lines : List CString) (r0 : Int) (s : State)
    (r : Int) (s2 : State) (h : run_lines (pass2_line E) lines r0 s = Outcome.ok r s2) :
    Pass2Step s s2 := by
  induction lines generalizing r0 s with
  | nil =>
    simp only [run_lines] at h
    cases h
    exact pass2_step_refl _
  | cons buf rest ih =>
    simp only [run_lines] at h
    split at h
    · rename_i r1 s1 h1
      exact pass2_step_trans s s1 s2 (pass2_line_step E s buf r1 s1 h1) (ih _ _ h)
    · cases h
    · cases h

/-! ### Node close -/

/-- C11: at a node close reached in pass 1 of a run, if the place is
"town" and a town name was captured, exactly one locality record is emitted,
for that name, with the year 2008 and an identifier (`fips + 1`) strictly
greater than every locality identifier emitted earlier in the run; if the
place is absent or is not "town", no call at all is made (neither a
locality nor a postal-area record), whatever name and postal code were
captured; in every case the handler returns 0 and `NodeId`, `NodePlace`,
`NodeTownName` and `NodePostalCode` are reset. -/
theorem node_end_locality (E : Extern) (s0 : State) (pre : List CString) (r0 r : Int)
    (s : State) (data : CString)
    (hfresh : city_ids s0.out = [])
    (hrun : run_lines (pass1_line E) pre r0 s0 = Outcome.ok r s) :
    ∃ s2, buildmap_osm_text_node_end E s data = Outcome.ok 0 s2
      ∧ s2.NodeId = 0 ∧ s2.NodePlace = none ∧ s2.NodeTownName = none
      ∧ s2.NodePostalCode = none
      ∧ ∃ calls, s2.out = s.out ++ calls
        ∧ (∀ name, s.NodePlace = some "town".toList → s.NodeTownName = some name →
            calls.filter is_city_add
                = [Call.buildmap_city_add (s.fips + 1) 2008
                    (E.buildmap_dictionary_add s.out BuildMapDictionary.DictionaryCity name)]
              ∧ ∀ f ∈ city_ids s.out, f < s.fips + 1)
        ∧ (s.NodePlace = some "town".toList → s.NodeTownName = none →
            calls.filter is_city_add = [])
        ∧ (s.NodePlace ≠ some "town".toList → calls = []) := by
  have hinv : ∀ f ∈ city_ids s.out, f ≤ s.fips := by
    obtain ⟨_, _, _, _, calls, ho, _, _, hb⟩ := run_pass1_step E pre r0 s0 r s hrun
    intro f hf
    rw [ho, city_ids_append, hfresh, List.nil_append] at hf
    exact (hb f hf).2
  by_cases ht : s.NodePlace = some "town".toList
  · obtain ⟨o, ho⟩ : ∃ o, s.NodeTownName = o := ⟨_, rfl⟩
    obtain ⟨zc, hz, hzn, _⟩ := node_end_zip_calls (node_end_city E s)
    have hzf : zc.filter is_city_add = [] := by
      rw [List.filter_eq_nil_iff]
      intro c hc
      have := hzn c hc
      cases c <;> simp_all [is_zip_add, is_city_add]
    have hend : buildmap_osm_text_node_end E s data
        = Outcome.ok 0 (buildmap_osm_text_reset_node (node_end_zip (node_end_city E s))) := by
      unfold buildmap_osm_text_node_end
      rw [if_pos ht]
    refine ⟨_, hend, rfl, rfl, rfl, rfl, ?_⟩
    cases o with
    | none =>
      refine ⟨zc, ?_, ?_, fun _ _ => hzf, fun h1 => absurd ht h1⟩
      · show (node_end_zip (node_end_city E s)).out = _
        rw [hz, node_end_city_none E s ho]
      · intro name _ h2
        rw [ho] at h2
        cases h2
    | some name =>
      refine ⟨[Call.buildmap_dictionary_add BuildMapDictionary.DictionaryCity name,
          Call.buildmap_city_add (s.fips + 1) 2008
            (E.buildmap_dictionary_add s.out BuildMapDictionary.DictionaryCity name)] ++ zc,
        ?_, ?_, ?_, fun h1 => absurd ht h1⟩
      · show (node_end_zip (node_end_city E s)).out = _
        rw [hz, node_end_city_some E s name ho]
        simp only [List.append_assoc]
      · intro name2 _ h2
        rw [ho] at h2
        cases h2
        refine ⟨?_, fun f hf => ?_⟩
        · rw [List.filter_append, hzf]
          rfl
        · have := hinv f hf
          omega
      · intro _ h2
        rw [ho] at h2
        cases h2
  · refine ⟨buildmap_osm_text_reset_node s, ?_, rfl, rfl, rfl, rfl, [], by
      simp [buildmap_osm_text_reset_node], fun _ h1 => absurd h1 ht, fun h1 => absurd h1 ht,
      fun _ => rfl⟩
    unfold buildmap_osm_text_node_end
    rw [if_neg ht]

/-- C11 witness: the town node "Springtown" of `sampleTownLines`, closed
after its three tag lines. -/
theorem node_end_locality_witness :
    ∃ s2, buildmap_osm_text_node_end sampleExtern
        (run_lines (pass1_line sampleExtern) sampleTownLines 0 State.init).state []
          = Outcome.ok 0 s2
      ∧ s2.NodePlace = none
      ∧ s2.out.filter is_city_add = [Call.buildmap_city_add 329990001 2008 10] := by
  obtain ⟨s2, h1, _, h3, _, _, calls, ho, hc, _, _⟩ :=
    node_end_locality sampleExtern State.init sampleTownLines 0 0
      (run_lines (pass1_line sampleExtern) sampleTownLines 0 State.init).state [] rfl rfl
  refine ⟨s2, h1, h3, ?_⟩
  rw [ho, List.filter_append, (hc "Springtown".toList rfl rfl).1]
  rfl

theorem filter_zip_of_city_calls (E : Extern) (s : State) :
    ∃ calls, (node_end_city E s).out = s.out ++ calls ∧ calls.filter is_zip_add = []
      ∧ (node_end_city E s).NodePostalCode = s.NodePostalCode
      ∧ (node_end_city E s).NodeLon = s.NodeLon ∧ (node_end_city E s).NodeLat = s.NodeLat := by
  obtain ⟨o, ho⟩ : ∃ o, s.NodeTownName = o := ⟨_, rfl⟩
  cases o with
  | none =>
    rw [node_end_city_none E s ho]
    exact ⟨[], by simp, rfl, rfl, rfl, rfl⟩
  | some name =>
    rw [node_end_city_some E s name ho]
    exact ⟨_, rfl, rfl, rfl, rfl, rfl⟩

/-- C12 (amended): at the close of a town node with a captured postal code,
exactly one postal-area record is emitted when the `int` that `%d` stores
for the integer at the head of the code is not zero (negative integers
included; an integer of magnitude 2^31 or more is stored wrapped), and none
when no integer can be read or the stored `int` is zero. -/
theorem node_end_postal (E : Extern) (s : State) (data : CString) (code : CString)
    (ht : s.NodePlace = some "town".toList) (hc : s.NodePostalCode = some code) :
    ∃ s2 calls, buildmap_osm_text_node_end E s data = Outcome.ok 0 s2
      ∧ s2.out = s.out ++ calls
      ∧ (sscanf_zip code ≠ 0 →
          calls.filter is_zip_add = [Call.buildmap_zip_add (sscanf_zip code) s.NodeLon s.NodeLat])
      ∧ (sscanf_zip code = 0 → calls.filter is_zip_add = [])
      ∧ (scan_d code = none → calls.filter is_zip_add = []) := by
  have hend : buildmap_osm_text_node_end E s data
      = Outcome.ok 0 (buildmap_osm_text_reset_node (node_end_zip (node_end_city E s))) := by
    unfold buildmap_osm_text_node_end
    rw [if_pos ht]
  obtain ⟨cc, hco, hcf, hcp, hlon, hlat⟩ := filter_zip_of_city_calls E s
  have hc2 : (node_end_city E s).NodePostalCode = some code := by rw [hcp, hc]
  have hzero : sscanf_zip code = 0 → ∃ calls,
      (node_end_zip (node_end_city E s)).out = s.out ++ calls
        ∧ calls.filter is_zip_add = [] := by
    intro hz
    refine ⟨cc, ?_, hcf⟩
    rw [node_end_zip_zero _ code hc2 hz, hco]
  by_cases hz : sscanf_zip code = 0
  · obtain ⟨calls, ho, hf⟩ := hzero hz
    exact ⟨_, calls, hend, ho, fun hn => absurd hz hn, fun _ => hf, fun _ => hf⟩
  · refine ⟨_, cc ++ [Call.buildmap_zip_add (sscanf_zip code) s.NodeLon s.NodeLat], hend, ?_,
      fun _ => ?_, fun h0 => absurd h0 hz, fun hn => ?_⟩
    · show (node_end_zip (node_end_city E s)).out = _
      rw [node_end_zip_some _ code hc2 hz]
      show (node_end_city E s).out ++ _ = _
      rw [hco, hlon, hlat, List.append_assoc]
    · rw [List.filter_append, hcf]
      rfl
    · exfalso
      apply hz
      unfold sscanf_zip
      rw [hn]

/-- C12 witness: the town node of `sampleTownLines`, whose postal code is
"1000", and the town node of `sampleWrappedZipLines`, whose postal code
"4294967296" is stored as 0 and yields no record. -/
theorem node_end_postal_witness :
    (∃ s2 calls, buildmap_osm_text_node_end sampleExtern
        (run_lines (pass1_line sampleExtern) sampleTownLines 0 State.init).state []
          = Outcome.ok 0 s2
      ∧ s2.out = (run_lines (pass1_line sampleExtern) sampleTownLines 0 State.init).state.out
          ++ calls
      ∧ calls.filter is_zip_add = [Call.buildmap_zip_add 1000 3000100 50000000])
    ∧ (sscanf_zip "4294967296".toList = 0
      ∧ ∃ s2 calls, buildmap_osm_text_node_end sampleExtern
          (run_lines (pass1_line sampleExtern) sampleWrappedZipLines 0 State.init).state []
            = Outcome.ok 0 s2
        ∧ s2.out
            = (run_lines (pass1_line sampleExtern) sampleWrappedZipLines 0 State.init).state.out
              ++ calls
        ∧ calls.filter is_zip_add = []) := by
  constructor
  · obtain ⟨s2, calls, h1, h2, h3, _, _⟩ :=
      node_end_postal sampleExtern
        (run_lines (pass1_line sampleExtern) sampleTownLines 0 State.init).state []
        "1000".toList rfl rfl
    exact ⟨s2, calls, h1, h2, h3 (by decide)⟩
  · obtain ⟨s2, calls, h1, h2, _, h4, _⟩ :=
      node_end_postal sampleExtern
        (run_lines (pass1_line sampleExtern) sampleWrappedZipLines 0 State.init).state []
        "4294967296".toList rfl rfl
    exact ⟨by rfl, s2, calls, h1, h2, h4 (by rfl)⟩

/-- C12 counterexample: a town node whose postal code is "-5" (a negative
integer) yields the postal-area record `buildmap_zip_add(-5, lon, lat)`. -/
theorem negative_postal_code_emitted :
    (run_lines (pass1_line sampleExtern) sampleNegativeZipLines 0 State.init).state.out.filter
        is_zip_add
      = [Call.buildmap_zip_add (-5) 3000100 50000000] := by
  rfl

theorem tag_keeps_coordinate (E : Extern) (s : State) (data : CString) (r : Int) (s2 : State)
    (h : buildmap_osm_text_tag E s data = Outcome.ok r s2) :
    s2.NodeLon = s.NodeLon ∧ s2.NodeLat = s.NodeLat := by
  by_cases hw : s.in_way = 0
  · have h2 : buildmap_osm_text_node_tag s data = Outcome.ok r s2 := by
      unfold buildmap_osm_text_tag at h
      rw [if_pos hw] at h
      exact h
    have hfr := node_tag_frame s data r s2 h2
    exact ⟨(congrArg State.NodeLon hfr : _), (congrArg State.NodeLat hfr : _)⟩
  · have hfr := way_tag_frame E s data r s2 hw h
    exact ⟨(congrArg State.NodeLon hfr : _), (congrArg State.NodeLat hfr : _)⟩

theorem tags_keep_coordinate (E : Extern) (tags : List CString) (r0 : Int) (s : State)
    (r : Int) (s2 : State)
    (h : run_lines (buildmap_osm_text_tag E) tags r0 s = Outcome.ok r s2) :
    s2.NodeLon = s.NodeLon ∧ s2.NodeLat = s.NodeLat := by
  induction tags generalizing r0 s with
  | nil =>
    simp only [run_lines] at h
    cases h
    exact ⟨rfl, rfl⟩
  | cons t ts ih =>
    simp only [run_lines] at h
    split at h
    · rename_i r1 s1 h1
      obtain ⟨a1, a2⟩ := tag_keeps_coordinate E s t r1 s1 h1
      obtain ⟨b1, b2⟩ := ih _ _ h
      exact ⟨b1.trans a1, b2.trans a2⟩
    · cases h
    · cases h

theorem node_end_zip_coordinate (E : Extern) (s : State) (data : CString) :
    ∃ s2 calls, buildmap_osm_text_node_end E s data = Outcome.ok 0 s2
      ∧ s2.out = s.out ++ calls
      ∧ ∀ z lon lat, Call.buildmap_zip_add z lon lat ∈ calls →
          lon = s.NodeLon ∧ lat = s.NodeLat := by
  by_cases ht : s.NodePlace = some "town".toList
  · have hend : buildmap_osm_text_node_end E s data
        = Outcome.ok 0 (buildmap_osm_text_reset_node (node_end_zip (node_end_city E s))) := by
      unfold buildmap_osm_text_node_end
      rw [if_pos ht]
    obtain ⟨cc, hco, hcf, hcp, hlon, hlat⟩ := filter_zip_of_city_calls E s
    obtain ⟨o, ho⟩ : ∃ o, (node_end_city E s).NodePostalCode = o := ⟨_, rfl⟩
    have hcc : ∀ z lon lat, Call.buildmap_zip_add z lon lat ∈ cc → False := by
      intro z lon lat hm
      have : Call.buildmap_zip_add z lon lat ∈ cc.filter is_zip_add :=
        List.mem_filter.mpr ⟨hm, rfl⟩
      rw [hcf] at this
      cases this
    have hsame : node_end_zip (node_end_city E s) = node_end_city E s →
        ∃ s2 calls, buildmap_osm_text_node_end E s data = Outcome.ok 0 s2
          ∧ s2.out = s.out ++ calls
          ∧ ∀ z lon lat, Call.buildmap_zip_add z lon lat ∈ calls →
              lon = s.NodeLon ∧ lat = s.NodeLat := by
      intro he
      refine ⟨_, cc, hend, ?_, fun z lon lat hm => (hcc z lon lat hm).elim⟩
      show (node_end_zip (node_end_city E s)).out = _
      rw [he, hco]
    cases o with
    | none => exact hsame (node_end_zip_none _ ho)
    | some code =>
      by_cases hz : sscanf_zip code = 0
      · exact hsame (node_end_zip_zero _ code ho hz)
      · refine ⟨_, cc ++ [Call.buildmap_zip_add (sscanf_zip code) s.NodeLon s.NodeLat], hend,
          ?_, ?_⟩
        · show (node_end_zip (node_end_city E s)).out = _
          rw [node_end_zip_some _ code ho hz]
          show (node_end_city E s).out ++ _ = _
          rw [hco, hlon, hlat, List.append_assoc]
        · intro z lon lat hm
          rcases List.mem_append.mp hm with hm | hm
          · exact (hcc z lon lat hm).elim
          · rw [List.mem_singleton] at hm
            cases hm
            exact ⟨rfl, rfl⟩
  · refine ⟨buildmap_osm_text_reset_node s, [], ?_, by simp [buildmap_osm_text_reset_node],
      fun z lon lat hm => by cases hm⟩
    unfold buildmap_osm_text_node_end
    rw [if_neg ht]

/-- For a node whose node-open line scans to the coordinate `(lon, lat)` and
is accepted by the bounding box, after any tag lines, every postal-area
record emitted at the node close carries `(lon, lat)`. -/
theorem postal_record_coordinate (E : Extern) (s : State) (data : CString) (s1 : State)
    (tags : List CString) (r0 r : Int) (s3 : State) (closing : CString)
    (hscan : node_scan E s data = some s1)
    (hacc : ¬ bbox_violated s s1.NodeLon s1.NodeLat)
    (htags : run_lines (buildmap_osm_text_tag E) tags r0
      (buildmap_osm_text_node E s data).state = Outcome.ok r s3) :
    ∃ s4 calls, buildmap_osm_text_node_end E s3 closing = Outcome.ok 0 s4
      ∧ s4.out = s3.out ++ calls
      ∧ ∀ z lon lat, Call.buildmap_zip_add z lon lat ∈ calls →
          lon = s1.NodeLon ∧ lat = s1.NodeLat := by
  obtain ⟨hnode, _, _⟩ := node_accepted E s data s1 hscan hacc
  rw [hnode] at htags
  obtain ⟨a1, a2⟩ := tags_keep_coordinate E tags r0 _ r s3 htags
  obtain ⟨s4, calls, h1, h2, h3⟩ := node_end_zip_coordinate E s3 closing
  refine ⟨s4, calls, h1, h2, fun z lon lat hm => ?_⟩
  obtain ⟨b1, b2⟩ := h3 z lon lat hm
  exact ⟨b1.trans a1, b2.trans a2⟩

/-- The node 2 of `sampleNodeEast`, accepted by `sampleBoxState`, with the
tags of a town with postal code 1000: its postal-area record carries the
coordinate of its node-open line. -/
theorem postal_record_coordinate_accepted :
    ∃ s4 calls, buildmap_osm_text_node_end sampleExtern
        (run_lines (buildmap_osm_text_tag sampleExtern) sampleTownTags 0
          (buildmap_osm_text_node sampleExtern sampleBoxState sampleNodeEast).state).state []
          = Outcome.ok 0 s4
      ∧ s4.out = (run_lines (buildmap_osm_text_tag sampleExtern) sampleTownTags 0
          (buildmap_osm_text_node sampleExtern sampleBoxState sampleNodeEast).state).state.out
            ++ calls
      ∧ ∀ z lon lat, Call.buildmap_zip_add z lon lat ∈ calls →
          lon = 3000100 ∧ lat = 50000100 :=
  postal_record_coordinate sampleExtern sampleBoxState sampleNodeEast
    (scannedEast sampleBoxState) sampleTownTags 0 0
    (run_lines (buildmap_osm_text_tag sampleExtern) sampleTownTags 0
      (buildmap_osm_text_node sampleExtern sampleBoxState sampleNodeEast).state).state []
    (by rfl) (by decide) (by rfl)

/-- C13: with `LonMin` = 3.000050 enabled, the town node whose node-open
line reads the coordinate (3.000000, 50.000000) is rejected by the bounding
box (the handler returns 1 and inserts no point), yet its close emits the
postal-area record `buildmap_zip_add(1000, 0, 0)`, at the coordinate (0, 0)
and not at the coordinate of the line; when the node is named, its close
emits a locality record as well. -/
theorem rejected_node_postal_at_origin :
    node_scan sampleExtern sampleBoxState sampleNodeWest = some (scannedWest sampleBoxState)
      ∧ (scannedWest sampleBoxState).NodeLon = 3000000
      ∧ (scannedWest sampleBoxState).NodeLat = 50000000
      ∧ (buildmap_osm_text_node sampleExtern sampleBoxState sampleNodeWest).ret = 1
      ∧ (buildmap_osm_text_node sampleExtern sampleBoxState sampleNodeWest).state.points = []
      ∧ (run_lines (pass1_line sampleExtern) sampleWestTownLines 0 sampleBoxState).state.out
          = [Call.buildmap_zip_add 1000 0 0]
      ∧ (run_lines (pass1_line sampleExtern) sampleWestNamedTownLines 0 sampleBoxState).state.out
          = [Call.buildmap_dictionary_add BuildMapDictionary.DictionaryCity "Westtown".toList,
             Call.buildmap_city_add 329990001 2008 8,
             Call.buildmap_zip_add 1000 0 0] := by
  refine ⟨by rfl, by rfl, by rfl, by rfl, by rfl, by rfl, by rfl⟩

/-! ### Tag lines of a way -/

theorem scan_rules_append (value : CString) (xs : List layer_info_t) (r : layer_info_t)
    (acc : Int × Int) :
    scan_rules value (xs ++ [r]) acc
      = if value = r.name then
          (r.flags, match r.layerp with
            | some l => l
            | none => (scan_rules value xs acc).2)
        else scan_rules value xs acc := by
  induction xs generalizing acc with
  | nil =>
    obtain ⟨f, l⟩ := acc
    by_cases h : value = r.name <;> simp [scan_rules, h]
  | cons x xs ih =>
    obtain ⟨f, l⟩ := acc
    by_cases hx : value = x.name
    · simp only [List.cons_append, scan_rules, hx, if_true]
      rw [← hx]
      exact ih _
    · simp only [List.cons_append, scan_rules, hx, if_false]
      exact ih _

theorem scan_rules_last (value : CString) (rules : List layer_info_t) (acc : Int × Int) :
    (last_rule value rules = none → scan_rules value rules acc = acc)
      ∧ (∀ rule, last_rule value rules = some rule →
          (scan_rules value rules acc).1 = rule.flags
            ∧ ∀ l, rule.layerp = some l → (scan_rules value rules acc).2 = l) := by
  induction rules using List.reverseRecOn with
  | nil =>
    refine ⟨fun _ => by obtain ⟨f, l⟩ := acc; rfl, fun rule h => ?_⟩
    simp [last_rule] at h
  | append_singleton xs r ih =>
    rw [scan_rules_append]
    by_cases h : value = r.name
    · have hl : last_rule value (xs ++ [r]) = some r := by
        simp [last_rule, List.filter_append, h]
      refine ⟨fun hn => ?_, fun rule hr => ?_⟩
      · rw [hl] at hn
        cases hn
      · rw [hl] at hr
        cases hr
        rw [if_pos h]
        refine ⟨rfl, fun l hlp => ?_⟩
        simp [hlp]
    · have hl : last_rule value (xs ++ [r]) = last_rule value xs := by
        simp [last_rule, List.filter_append, h]
      rw [hl, if_neg h]
      exact ih

theorem tag_way_other (E : Extern) (s : State) (data key val : CString)
    (hw : s.in_way ≠ 0) (hscan : sscanf_tag data = (some key, some val))
    (hname : key ≠ "name".toList)
    (hcat : ∀ cat list, find_list key (E.list_info.drop 1) = some cat → cat.list ≠ some list) :
    buildmap_osm_text_tag E s data = Outcome.ok 0 { s with tag := some key, value := some val } := by
  unfold buildmap_osm_text_tag
  rw [if_neg hw]
  simp only [hscan, assign, Option.orElse]
  rw [if_neg hname]
  split
  · rename_i nm list hf
    exact absurd rfl (hcat _ list hf)
  · rfl

theorem tag_way_rules (E : Extern) (s : State) (data key val : CString)
    (cat : list_info_t) (list : List layer_info_t)
    (hw : s.in_way ≠ 0) (hscan : sscanf_tag data = (some key, some val))
    (hname : key ≠ "name".toList)
    (hcat : find_list key (E.list_info.drop 1) = some cat) (hlist : cat.list = some list) :
    buildmap_osm_text_tag E s data
      = Outcome.ok (scan_rules val (list.drop 1) (s.WayFlags, 0)).2
          { s with tag := some key, value := some val,
                   WayFlags := (scan_rules val (list.drop 1) (s.WayFlags, 0)).1,
                   WayLayer := if (scan_rules val (list.drop 1) (s.WayFlags, 0)).2 ≠ 0
                     then (scan_rules val (list.drop 1) (s.WayFlags, 0)).2 else s.WayLayer } := by
  unfold buildmap_osm_text_tag
  rw [if_neg hw]
  simp only [hscan, assign, Option.orElse]
  rw [if_neg hname]
  obtain ⟨cname, clist⟩ := cat
  simp only at hlist
  subst hlist
  rw [hcat]
  simp only
  obtain ⟨rules, hr⟩ : ∃ rules, list.drop 1 = rules := ⟨_, rfl⟩
  rw [hr]
  cases rules with
  | nil => simp [scan_rules]
  | cons r0 rs => rfl

/-- C14 (amended): for a tag line of an open way whose key and value are
both scanned and whose key is not "name": when the first category (from
cell 1 of `list_info`) whose name is the key has a rule list, the handler
returns without a fatal error, the way's flags become those of the LAST rule
(from cell 1 of the list) whose name is the value, and, when that rule
specifies a layer that is not 0, the way's layer becomes that layer; when no
rule of that category has the value as its name, or no category has the key
as its name, the flags and the layer are unchanged. -/
theorem tag_rule (E : Extern) (s : State) (data key val : CString)
    (hw : s.in_way ≠ 0)
    (hscan : sscanf_tag data = (some key, some val))
    (hname : key ≠ "name".toList) :
    ∃ r s2, buildmap_osm_text_tag E s data = Outcome.ok r s2
      ∧ (∀ cat list rule, find_list key (E.list_info.drop 1) = some cat →
          cat.list = some list → last_rule val (list.drop 1) = some rule →
            s2.WayFlags = rule.flags
            ∧ ∀ l, rule.layerp = some l → l ≠ 0 → s2.WayLayer = l)
      ∧ (∀ cat list, find_list key (E.list_info.drop 1) = some cat →
          cat.list = some list → last_rule val (list.drop 1) = none →
            s2.WayFlags = s.WayFlags ∧ s2.WayLayer = s.WayLayer)
      ∧ (find_list key (E.list_info.drop 1) = none →
            s2.WayFlags = s.WayFlags ∧ s2.WayLayer = s.WayLayer) := by
  by_cases hc : ∃ cat list, find_list key (E.list_info.drop 1) = some cat ∧ cat.list = some list
  · obtain ⟨cat, list, hcat, hlist⟩ := hc
    obtain ⟨hnone, hsome⟩ := scan_rules_last val (list.drop 1) (s.WayFlags, 0)
    refine ⟨_, _, tag_way_rules E s data key val cat list hw hscan hname hcat hlist, ?_, ?_, ?_⟩
    · intro cat2 list2 rule h1 h2 h3
      rw [hcat] at h1
      cases h1
      rw [hlist] at h2
      cases h2
      obtain ⟨hf, hl⟩ := hsome rule h3
      refine ⟨hf, fun l hlp hl0 => ?_⟩
      show (if (scan_rules val (list.drop 1) (s.WayFlags, 0)).2 ≠ 0 then
        (scan_rules val (list.drop 1) (s.WayFlags, 0)).2 else s.WayLayer) = l
      rw [hl l hlp, if_pos hl0]
    · intro cat2 list2 h1 h2 h3
      rw [hcat] at h1
      cases h1
      rw [hlist] at h2
      cases h2
      have := hnone h3
      refine ⟨(by show (scan_rules val (list.drop 1) (s.WayFlags, 0)).1 = _; rw [this]), ?_⟩
      show (if (scan_rules val (list.drop 1) (s.WayFlags, 0)).2 ≠ 0 then
        (scan_rules val (list.drop 1) (s.WayFlags, 0)).2 else s.WayLayer) = _
      rw [this]
      simp
    · intro h1
      rw [hcat] at h1
      cases h1
  · have hcat : ∀ cat list, find_list key (E.list_info.drop 1) = some cat →
        cat.list ≠ some list := fun cat list h1 h2 => hc ⟨cat, list, h1, h2⟩
    refine ⟨_, _, tag_way_other E s data key val hw hscan hname hcat,
      fun cat list rule h1 h2 _ => absurd h2 (hcat cat list h1),
      fun cat list h1 h2 _ => absurd h2 (hcat cat list h1), fun _ => ⟨rfl, rfl⟩⟩

/-- C14 witness: the tag `highway=residential` on the open way 10 sets the
flags 0 and the layer 5 of that rule of `sampleExtern`. -/
theorem tag_rule_witness :
    ∃ r s2, buildmap_osm_text_tag sampleExtern sampleOpenWay
        "tag k=\"highway\" v=\"residential\"/>\n".toList = Outcome.ok r s2
      ∧ s2.WayFlags = 0 ∧ s2.WayLayer = 5 := by
  obtain ⟨r, s2, h, h1, _, _⟩ :=
    tag_rule sampleExtern sampleOpenWay "tag k=\"highway\" v=\"residential\"/>\n".toList
      "highway".toList "residential".toList (by decide) (by rfl) (by decide)
  obtain ⟨hf, hl⟩ := h1
    { name := "highway".toList,
      list := some [ { name := [], layerp := none, flags := 0 },
                     { name := "residential".toList, layerp := some 5, flags := 0 } ] }
    [ { name := [], layerp := none, flags := 0 },
      { name := "residential".toList, layerp := some 5, flags := 0 } ]
    { name := "residential".toList, layerp := some 5, flags := 0 } (by rfl) rfl (by rfl)
  exact ⟨r, s2, h, hf, hl 5 rfl (by decide)⟩

/-- C14 counterexample: with the rule table of `zeroLayerExtern`, the tag
`highway=path` matches a rule that specifies the layer 0 and the flags 4;
after it the way's flags are 4 but its layer is still 5, the layer of the
earlier tag `highway=residential`. -/
theorem zero_layer_rule_keeps_layer :
    (run_lines (pass2_line zeroLayerExtern) sampleZeroLayerLines 0 State.init).state.WayFlags = 4
      ∧ (run_lines (pass2_line zeroLayerExtern) sampleZeroLayerLines 0 State.init).state.WayLayer
          = 5
      ∧ last_rule "path".toList
          [ { name := "residential".toList, layerp := some 5, flags := 0 },
            { name := "path".toList, layerp := some 0, flags := 4 } ]
          = some { name := "path".toList, layerp := some 0, flags := 4 } := by
  refine ⟨by rfl, by rfl, by rfl⟩

/-! ### Defects shown on concrete inputs -/

/-- C15: `buildmap_osm_text_reset_way` does not reset `WayLayer`.  On the
input `sampleTwoWays` the line of the untagged way 11 is emitted with the
layer 5 of the way 10 finalized before it, while the same way alone is
emitted with the initial layer 0. -/
theorem way_layer_survives_reset :
    (∀ s : State, (buildmap_osm_text_reset_way s).WayLayer = s.WayLayer)
      ∧ (buildmap_osm_text_read sampleExtern State.init sampleTwoWays).state.out.filter
            is_line_add
          = [Call.buildmap_line_add 1 5 0 1, Call.buildmap_line_add 2 5 0 1]
      ∧ (buildmap_osm_text_read sampleExtern State.init sampleSecondWayOnly).state.out.filter
            is_line_add
          = [Call.buildmap_line_add 1 0 0 1] := by
  refine ⟨fun _ => rfl, by rfl, by rfl⟩

/-- C17: in pass 1 the way-open line is ignored, so `in_way` is 0 and a tag
line of a way is handled as a node tag.  On the input `sampleWayThenTown`
the tag `name=Main St` of the way 10 sets `NodeTownName`, and the close of
the later town node (which has no name tag) emits a locality record for
"Main St". -/
theorem way_tag_reaches_node_accumulator :
    (run_lines (pass1_line sampleExtern) (sampleWayThenTown.take 2) 0 State.init).state.NodeTownName
        = some "Main St".toList
      ∧ (run_lines (pass1_line sampleExtern) sampleWayThenTown 0 State.init).state.out
          = [Call.buildmap_point_add 3000100 50000000,
             Call.buildmap_dictionary_add BuildMapDictionary.DictionaryCity "Main St".toList,
             Call.buildmap_city_add 329990001 2008 7] := by
  refine ⟨by rfl, by rfl⟩

/-- C18: `buildmap_osm_text_way` tests `in_way == 0` after a `sscanf` that
assigns nothing when the line has no identifier, so the value left by an
earlier way decides.  On the input `sampleWayWithoutId` the way 5 is invalid,
its close returns before the reset, and the line `<way>` is accepted without
a fatal error, the open way still being 5. -/
theorem way_without_id_not_fatal :
    sscanf_way "way>\n".toList = none
      ∧ run_lines (pass2_line sampleExtern) sampleWayWithoutId 0 State.init
          = Outcome.ok 0 { State.init with in_way := 5, WayInvalid := 1 }
      ∧ buildmap_osm_text_way State.init "way>\n".toList = Outcome.fatal := by
  refine ⟨by rfl, by rfl, by rfl⟩

/-! ### The two passes -/

theorem node_call_not_way_record (c : Call) (h : is_node_call c = true) :
    is_way_record c = false := by
  cases c <;> simp_all [is_node_call, is_way_record, is_point_add, is_dictionary_add,
    is_city_add, is_zip_add, is_line_add, is_street_add, is_range_add, is_polygon_add,
    is_landmark_add, is_shape_add]

theorem way_call_not_node_record (c : Call) (h : is_way_call c = true) :
    is_point_add c = false ∧ is_city_add c = false ∧ is_zip_add c = false := by
  cases c <;> simp_all [is_way_call, is_point_add, is_dictionary_add,
    is_city_add, is_zip_add, is_line_add, is_street_add, is_range_add, is_polygon_add,
    is_landmark_add, is_square_adjust]

/-- C16: from a state in which no way is open (as the initial state), any
number of lines of pass 1 leave `in_way`, the node list, the layer, the
street name, the flags, the validity flag and the shape buffer as they were
and make no call that writes a line, polygon, street, range or shape record;
from any state, any number of lines of pass 2 leave the Point Table as it
was and make no call that inserts a point or writes a locality or
postal-area record. -/
theorem passes_are_separate (E : Extern) (s : State) (lines : List CString) (r0 r : Int)
    (s2 : State) :
    (s.in_way = 0 → run_lines (pass1_line E) lines r0 s = Outcome.ok r s2 →
        s2.in_way = 0 ∧ s2.nWayNodes = s.nWayNodes ∧ s2.WayNodes = s.WayNodes
          ∧ s2.nWayNodeAlloc = s.nWayNodeAlloc
          ∧ s2.WayLayer = s.WayLayer ∧ s2.WayStreetName = s.WayStreetName
          ∧ s2.WayFlags = s.WayFlags ∧ s2.WayInvalid = s.WayInvalid
          ∧ s2.shapes = s.shapes
          ∧ ∃ calls, s2.out = s.out ++ calls ∧ ∀ c ∈ calls, is_way_record c = false)
      ∧ (run_lines (pass2_line E) lines r0 s = Outcome.ok r s2 →
          s2.points = s.points
            ∧ ∃ calls, s2.out = s.out ++ calls
              ∧ ∀ c ∈ calls, is_point_add c = false ∧ is_city_add c = false
                  ∧ is_zip_add c = false) := by
  constructor
  · intro h0 h
    obtain ⟨he, hw, _, _, calls, ho, hc, _, _⟩ := run_pass1_step E lines r0 s r s2 h
    obtain ⟨w1, w2, w3, _, _⟩ := hw h0
    have hin : s2.in_way = s.in_way := (congrArg State.in_way he : _)
    exact ⟨hin.trans h0,
      (congrArg State.nWayNodes he : _), (congrArg State.WayNodes he : _),
      (congrArg State.nWayNodeAlloc he : _), w1, w2, w3,
      (congrArg State.WayInvalid he : _), (congrArg State.shapes he : _),
      calls, ho, fun c hcm => node_call_not_way_record c (hc c hcm)⟩
  · intro h
    obtain ⟨he, _, _, calls, ho, hc, _, _⟩ := run_pass2_step E lines r0 s r s2 h
    exact ⟨(congrArg State.points he : _), calls, ho,
      fun c hcm => way_call_not_node_record c (hc c hcm)⟩

/-- C16 witness: pass 1 and then pass 2 over the input `sampleTwoWays`. -/
theorem passes_are_separate_witness :
    (run_lines (pass1_line sampleExtern) sampleTwoWays 0 State.init).state.in_way = 0
      ∧ (run_lines (pass2_line sampleExtern) sampleTwoWays 0
          (run_lines (pass1_line sampleExtern) sampleTwoWays 0 State.init).state).state.points
        = (run_lines (pass1_line sampleExtern) sampleTwoWays 0 State.init).state.points :=
  ⟨((passes_are_separate sampleExtern State.init sampleTwoWays 0 0
      (run_lines (pass1_line sampleExtern) sampleTwoWays 0 State.init).state).1 rfl
        (by rfl)).1,
   ((passes_are_separate sampleExtern
      (run_lines (pass1_line sampleExtern) sampleTwoWays 0 State.init).state sampleTwoWays 0 5
      (run_lines (pass2_line sampleExtern) sampleTwoWays 0
        (run_lines (pass1_line sampleExtern) sampleTwoWays 0 State.init).state).state).2
        (by rfl)).1⟩

/-! ### Node references of a way -/

theorem way_nodes_grow_spec (s : State) (h : WayNodesAllocated s) :
    (way_nodes_grow s).nWayNodes = s.nWayNodes
      ∧ (way_nodes_grow s).nWayNodes < (way_nodes_grow s).WayNodes.length
      ∧ (way_nodes_grow s).nWayNodeAlloc = (way_nodes_grow s).WayNodes.length
      ∧ (∀ i, i < s.WayNodes.length →
          (way_nodes_grow s).WayNodes.getD i none = s.WayNodes.getD i none)
      ∧ s.WayNodes.length ≤ (way_nodes_grow s).WayNodes.length := by
  obtain ⟨h1, h2⟩ := h
  unfold way_nodes_grow
  split
  · rename_i heq
    refine ⟨rfl, ?_, ?_, ?_, ?_⟩
    · show s.nWayNodes < (s.WayNodes ++ List.replicate 100 none).length
      simp only [List.length_append, List.length_replicate]
      omega
    · show s.nWayNodeAlloc + 100 = (s.WayNodes ++ List.replicate 100 none).length
      simp only [List.length_append, List.length_replicate]
      omega
    · intro i hi
      show (s.WayNodes ++ List.replicate 100 none).getD i none = _
      simp only [List.getD_eq_getElem?_getD]
      rw [List.getElem?_append_left hi]
    · show s.WayNodes.length ≤ (s.WayNodes ++ List.replicate 100 none).length
      simp
  · rename_i hne
    refine ⟨rfl, ?_, h1, fun _ _ => rfl, le_refl _⟩
    omega

theorem nd_invalid_sticky (s : State) (data : CString) (r : Int) (s2 : State)
    (h : buildmap_osm_text_nd s data = Outcome.ok r s2) :
    (s.WayInvalid ≠ 0 → s2.WayInvalid ≠ 0)
      ∧ (∀ node, sscanf_nd data = some node → buildmap_osm_text_point_get s node < 0 →
          s2.WayInvalid ≠ 0) := by
  unfold buildmap_osm_text_nd at h
  split at h
  · cases h
  · split at h
    · rename_i hnone
      cases h
      exact ⟨fun h0 => h0, fun node hn => by rw [hnone] at hn; cases hn⟩
    · rename_i node hscan
      split at h
      · rename_i hres
        cases h
        exact ⟨fun _ => by simp, fun _ _ _ => by simp⟩
      · rename_i hres
        split at h
        · cases h
        · rename_i s1 hpush
          cases h
          have hinv : s2.WayInvalid = s.WayInvalid := by
            unfold way_nodes_push at hpush
            split at hpush
            · cases hpush
              show (way_nodes_grow s).WayInvalid = s.WayInvalid
              unfold way_nodes_grow
              split <;> rfl
            · cases hpush
          refine ⟨fun h0 => by rw [hinv]; exact h0, fun node hn hlt => ?_⟩
          rw [hscan] at hn
          cases hn
          exact absurd hlt hres

/-- For an nd line whose reference is scanned as `node`, processed while a
way is open and the array `WayNodes` is allocated as the handler leaves it:
what the handler does when `node` resolves and when it does not. -/
theorem nd_scanned_effect (s : State) (data : CString) (node : Int)
    (hw : s.in_way ≠ 0) (hscan : sscanf_nd data = some node) (ha : WayNodesAllocated s) :
    ∃ s2, buildmap_osm_text_nd s data = Outcome.ok 0 s2
      ∧ WayNodesAllocated s2
      ∧ (s.WayInvalid ≠ 0 → s2.WayInvalid ≠ 0)
      ∧ s2.WayFlags = s.WayFlags ∧ s2.WayLayer = s.WayLayer
      ∧ s2.WayStreetName = s.WayStreetName ∧ s2.in_way = s.in_way
      ∧ (0 ≤ buildmap_osm_text_point_get s node →
          s2.nWayNodes = s.nWayNodes + 1
            ∧ array_get s2.WayNodes (s.nWayNodes : Int) = some node
            ∧ (∀ i, i < s.nWayNodes → s2.WayNodes.getD i none = s.WayNodes.getD i none)
            ∧ s2.WayInvalid = s.WayInvalid)
      ∧ (buildmap_osm_text_point_get s node < 0 →
          s2 = { s with WayInvalid := 1 }) := by
  by_cases hres : buildmap_osm_text_point_get s node < 0
  · refine ⟨{ s with WayInvalid := 1 }, ?_, ha, fun _ => by simp, rfl, rfl, rfl, rfl,
      fun h0 => absurd hres (by omega), fun _ => rfl⟩
    unfold buildmap_osm_text_nd
    rw [if_neg hw, hscan]
    simp only
    rw [if_pos hres]
  · obtain ⟨g1, g2, g3, g4, g5⟩ := way_nodes_grow_spec s ha
    have hfr := way_nodes_grow_frame s
    obtain ⟨s2, hs2⟩ : ∃ s2 : State, s2 = { way_nodes_grow s with
        WayNodes := (way_nodes_grow s).WayNodes.set (way_nodes_grow s).nWayNodes (some node),
        nWayNodes := (way_nodes_grow s).nWayNodes + 1 } := ⟨_, rfl⟩
    have hpush : way_nodes_push s node = some s2 := by
      unfold way_nodes_push
      rw [if_pos g2, hs2]
    have f1 : s2.nWayNodes = (way_nodes_grow s).nWayNodes + 1 := by rw [hs2]
    have f2 : s2.WayNodes
        = (way_nodes_grow s).WayNodes.set (way_nodes_grow s).nWayNodes (some node) := by
      rw [hs2]
    have f3 : s2.nWayNodeAlloc = (way_nodes_grow s).nWayNodeAlloc := by rw [hs2]
    have f4 : s2.WayInvalid = s.WayInvalid := by
      rw [hs2]
      show (way_nodes_grow s).WayInvalid = s.WayInvalid
      unfold way_nodes_grow
      split <;> rfl
    have f5 : s2.WayFlags = s.WayFlags := by
      rw [hs2]
      have h9 : (way_nodes_grow s).WayFlags = s.WayFlags := (congrArg State.WayFlags hfr : _)
      exact h9
    have f6 : s2.WayLayer = s.WayLayer := by
      rw [hs2]
      have h9 : (way_nodes_grow s).WayLayer = s.WayLayer := (congrArg State.WayLayer hfr : _)
      exact h9
    have f7 : s2.WayStreetName = s.WayStreetName := by
      rw [hs2]
      have h9 : (way_nodes_grow s).WayStreetName = s.WayStreetName := (congrArg State.WayStreetName hfr : _)
      exact h9
    have f8 : s2.in_way = s.in_way := by
      rw [hs2]
      have h9 : (way_nodes_grow s).in_way = s.in_way := (congrArg State.in_way hfr : _)
      exact h9
    refine ⟨s2, ?_, ?_, fun h0 => by rw [f4]; exact h0, f5, f6, f7, f8,
      fun _ => ⟨by rw [f1, g1], ?_, ?_, f4⟩, fun h0 => absurd h0 hres⟩
    · unfold buildmap_osm_text_nd
      rw [if_neg hw, hscan]
      simp only
      rw [if_neg hres, hpush]
    · constructor
      · rw [f3, f2, List.length_set]
        exact g3
      · rw [f1, f3, g3]
        omega
    · rw [f2]
      unfold array_get
      rw [if_neg (by omega)]
      simp only [Int.toNat_ofNat, List.getD_eq_getElem?_getD]
      rw [g1, List.getElem?_set_self (by rw [← g1]; exact g2)]
      rfl
    · intro i hi
      rw [f2]
      have hlen : i < s.WayNodes.length := by
        have := ha.1
        have := ha.2
        omega
      simp only [List.getD_eq_getElem?_getD]
      rw [List.getElem?_set_ne (by rw [g1]; omega)]
      have := g4 i hlen
      simpa only [List.getD_eq_getElem?_getD] using this

/-- C20 (amended): for an nd line processed while a way is open and the
array `WayNodes` is allocated as the handler leaves it.  When the scan of the
handler reads no reference, the handler returns -1 and leaves the whole state
as it is.  When it reads the reference `node`: if `node` resolves in the Point
Table, it is written at the end of the node list, whose length grows by one
and whose earlier entries, like the flags, the layer, the street name and the
validity flag, are unchanged; if it does not resolve, only the validity flag
changes, to 1; in both of these cases the handler returns 0 and the array
stays allocated.  In no case is a set validity flag cleared. -/
theorem nd_appends_or_invalidates (s : State) (data : CString)
    (hw : s.in_way ≠ 0) (ha : WayNodesAllocated s) :
    (sscanf_nd data = none → buildmap_osm_text_nd s data = Outcome.ok (-1) s)
      ∧ (∀ node, sscanf_nd data = some node →
          ∃ s2, buildmap_osm_text_nd s data = Outcome.ok 0 s2
            ∧ WayNodesAllocated s2
            ∧ s2.WayFlags = s.WayFlags ∧ s2.WayLayer = s.WayLayer
            ∧ s2.WayStreetName = s.WayStreetName ∧ s2.in_way = s.in_way
            ∧ (0 ≤ buildmap_osm_text_point_get s node →
                s2.nWayNodes = s.nWayNodes + 1
                  ∧ array_get s2.WayNodes (s.nWayNodes : Int) = some node
                  ∧ (∀ i, i < s.nWayNodes →
                      s2.WayNodes.getD i none = s.WayNodes.getD i none)
                  ∧ s2.WayInvalid = s.WayInvalid)
            ∧ (buildmap_osm_text_point_get s node < 0 →
                s2 = { s with WayInvalid := 1 }))
      ∧ (∀ r s2, buildmap_osm_text_nd s data = Outcome.ok r s2 →
          s.WayInvalid ≠ 0 → s2.WayInvalid ≠ 0) := by
  refine ⟨fun hnone => ?_, fun node hscan => ?_, fun r s2 h => (nd_invalid_sticky s data r s2 h).1⟩
  · unfold buildmap_osm_text_nd
    rw [if_neg hw, hnone]
  · obtain ⟨s2, h1, h2, _, h4, h5, h6, h7, h8, h9⟩ := nd_scanned_effect s data node hw hscan ha
    exact ⟨s2, h1, h2, h4, h5, h6, h7, h8, h9⟩

/-- C20 witness: in `sampleOpenWayWithNode` the line `<nd ref="1"/>` resolves
and is written as the first node of the way 10, which stays valid. -/
theorem nd_appends_or_invalidates_witness :
    sampleOpenWayWithNode.in_way ≠ 0
      ∧ sscanf_nd "nd ref=\"1\"/>\n".toList = some 1
      ∧ WayNodesAllocated sampleOpenWayWithNode
      ∧ ∃ s2, buildmap_osm_text_nd sampleOpenWayWithNode "nd ref=\"1\"/>\n".toList
            = Outcome.ok 0 s2
          ∧ s2.nWayNodes = 1 ∧ array_get s2.WayNodes 0 = some 1 ∧ s2.WayInvalid = 0 := by
  obtain ⟨s2, h, _, _, _, _, _, hres, _⟩ :=
    (nd_appends_or_invalidates sampleOpenWayWithNode "nd ref=\"1\"/>\n".toList
      (by decide) ⟨rfl, le_refl _⟩).2.1 1 (by rfl)
  obtain ⟨h1, h2, _, h4⟩ := hres (by decide)
  exact ⟨by decide, by rfl, ⟨rfl, le_refl _⟩, s2, h, h1, h2, h4⟩

/-- C20 counterexample: in `sampleOpenWayWithNode`, where the node 1 resolves,
the line `<ND ref="1"/>` reaches the nd branch of the chain, the scan of the
handler reads no reference, and the handler returns -1, not 0, and appends
nothing. -/
theorem unscanned_nd_returns_error :
    token "ND ref=\"1\"/>\n".toList = Token.nd
      ∧ sscanf_nd "ND ref=\"1\"/>\n".toList = none
      ∧ buildmap_osm_text_point_get sampleOpenWayWithNode 1 = 0
      ∧ buildmap_osm_text_nd sampleOpenWayWithNode "ND ref=\"1\"/>\n".toList
          = Outcome.ok (-1) sampleOpenWayWithNode
      ∧ (buildmap_osm_text_nd sampleOpenWayWithNode "ND ref=\"1\"/>\n".toList).ret ≠ 0
      ∧ (buildmap_osm_text_nd sampleOpenWayWithNode
          "ND ref=\"1\"/>\n".toList).state.nWayNodes = 0 := by
  refine ⟨by rfl, by rfl, by rfl, by rfl, by decide, by rfl⟩

/-! ### Skipped lines -/

theorem strncasecmp_head (p lit : CString) (h : strncasecmp_eq p lit = true)
    (hl : 2 ≤ lit.length) :
    (p.take 2).map tolower = (lit.take 2).map tolower := by
  unfold strncasecmp_eq at h
  have h1 : (p.take lit.length).map tolower = lit.map tolower := by simpa using h
  have h2 := congrArg (List.take 2) h1
  rw [← List.map_take, ← List.map_take, List.take_take, Nat.min_eq_left hl] at h2
  exact h2

theorem strncasecmp_disjoint (p a b : CString) (ha : strncasecmp_eq p a = true)
    (h2a : 2 ≤ a.length) (h2b : 2 ≤ b.length)
    (hne : (a.take 2).map tolower ≠ (b.take 2).map tolower) :
    strncasecmp_eq p b = false := by
  cases hb : strncasecmp_eq p b with
  | false => rfl
  | true =>
    exact absurd ((strncasecmp_head p a ha h2a).symm.trans (strncasecmp_head p b hb h2b)) hne

theorem token_skipped (E : Extern) (s : State) (p : CString)
    (k1 : strncasecmp_eq p "way".toList = false) (k2 : strncasecmp_eq p "/way".toList = false)
    (k3 : strncasecmp_eq p "node".toList = false)
    (k4 : strncasecmp_eq p "/node".toList = false)
    (k5 : strncasecmp_eq p "nd".toList = false) (k6 : strncasecmp_eq p "tag".toList = false)
    (hor : strncasecmp_eq p "osm".toList = true ∨ strncasecmp_eq p "/osm".toList = true
      ∨ strncasecmp_eq p "?xml".toList = true ∨ strncasecmp_eq p "bounds".toList = true
      ∨ strncasecmp_eq p "/bounds".toList = true ∨ strncasecmp_eq p "bound".toList = true
      ∨ strncasecmp_eq p "relation".toList = true
      ∨ strncasecmp_eq p "/relation".toList = true
      ∨ strncasecmp_eq p "member".toList = true
      ∨ strncasecmp_eq p "/member".toList = true) :
    pass1_token E s p (token p) = Outcome.ok 0 s
      ∧ pass2_token E s p (token p) = Outcome.ok 0 s := by
  unfold token
  rw [k1, k2, k3, k4, k5, k6]
  generalize strncasecmp_eq p "osm".toList = b1 at hor ⊢
  generalize strncasecmp_eq p "?xml".toList = b2 at hor ⊢
  generalize strncasecmp_eq p "relation".toList = b9 at hor ⊢
  generalize strncasecmp_eq p "/relation".toList = b10 at hor ⊢
  generalize strncasecmp_eq p "member".toList = b11 at hor ⊢
  generalize strncasecmp_eq p "/member".toList = b12 at hor ⊢
  generalize strncasecmp_eq p "bound".toList = b13 at hor ⊢
  generalize strncasecmp_eq p "bounds".toList = b14 at hor ⊢
  generalize strncasecmp_eq p "/bounds".toList = b15 at hor ⊢
  generalize strncasecmp_eq p "/osm".toList = b16 at hor ⊢
  cases b1 <;> cases b2 <;> cases b9 <;> cases b10 <;> cases b11 <;> cases b12
    <;> cases b13 <;> cases b14 <;> cases b15 <;> cases b16
    <;> first | exact ⟨rfl, rfl⟩ | simp at hor

/-- C19: in both passes, a line whose tag name starts, whatever the case of
its letters, with one of osm, /osm, ?xml, bounds, /bounds, bound, relation,
/relation, member and /member is skipped: the body of the loop returns 0 and
leaves the whole state, the calls made so far included, as it was. -/
theorem listed_tags_ignored (E : Extern) (s : State) (buf p name : CString)
    (hname : name ∈ ignored_names) (hp : line_start buf = Except.ok p)
    (hn : strncasecmp_eq p name = true) :
    pass1_line E s buf = Outcome.ok 0 s ∧ pass2_line E s buf = Outcome.ok 0 s := by
  have key : strncasecmp_eq p "way".toList = false ∧ strncasecmp_eq p "/way".toList = false
      ∧ strncasecmp_eq p "node".toList = false ∧ strncasecmp_eq p "/node".toList = false
      ∧ strncasecmp_eq p "nd".toList = false ∧ strncasecmp_eq p "tag".toList = false := by
    simp only [ignored_names, List.mem_cons, List.mem_singleton, List.not_mem_nil,
      or_false] at hname
    rcases hname with h | h | h | h | h | h | h | h | h | h <;> subst h <;>
      exact ⟨strncasecmp_disjoint p _ _ hn (by decide) (by decide) (by decide),
        strncasecmp_disjoint p _ _ hn (by decide) (by decide) (by decide),
        strncasecmp_disjoint p _ _ hn (by decide) (by decide) (by decide),
        strncasecmp_disjoint p _ _ hn (by decide) (by decide) (by decide),
        strncasecmp_disjoint p _ _ hn (by decide) (by decide) (by decide),
        strncasecmp_disjoint p _ _ hn (by decide) (by decide) (by decide)⟩
  obtain ⟨k1, k2, k3, k4, k5, k6⟩ := key
  have hor : strncasecmp_eq p "osm".toList = true ∨ strncasecmp_eq p "/osm".toList = true
      ∨ strncasecmp_eq p "?xml".toList = true ∨ strncasecmp_eq p "bounds".toList = true
      ∨ strncasecmp_eq p "/bounds".toList = true ∨ strncasecmp_eq p "bound".toList = true
      ∨ strncasecmp_eq p "relation".toList = true
      ∨ strncasecmp_eq p "/relation".toList = true
      ∨ strncasecmp_eq p "member".toList = true
      ∨ strncasecmp_eq p "/member".toList = true := by
    simp only [ignored_names, List.mem_cons, List.mem_singleton, List.not_mem_nil,
      or_false] at hname
    rcases hname with h | h | h | h | h | h | h | h | h | h <;> subst h
    · exact Or.inl hn
    · exact Or.inr (Or.inl hn)
    · exact Or.inr (Or.inr (Or.inl hn))
    · exact Or.inr (Or.inr (Or.inr (Or.inl hn)))
    · exact Or.inr (Or.inr (Or.inr (Or.inr (Or.inl hn))))
    · exact Or.inr (Or.inr (Or.inr (Or.inr (Or.inr (Or.inl hn)))))
    · exact Or.inr (Or.inr (Or.inr (Or.inr (Or.inr (Or.inr (Or.inl hn))))))
    · exact Or.inr (Or.inr (Or.inr (Or.inr (Or.inr (Or.inr (Or.inr (Or.inl hn)))))))
    · exact Or.inr (Or.inr (Or.inr (Or.inr (Or.inr (Or.inr (Or.inr (Or.inr (Or.inl hn))))))))
    · exact Or.inr (Or.inr (Or.inr (Or.inr (Or.inr (Or.inr (Or.inr (Or.inr (Or.inr hn))))))))
  unfold pass1_line pass2_line
  rw [hp]
  exact token_skipped E s p k1 k2 k3 k4 k5 k6 hor

/-- C19 witness: the line `<osm version="0.6">` is skipped in both passes. -/
theorem listed_tags_ignored_witness :
    "osm".toList ∈ ignored_names
      ∧ line_start "<osm version=\"0.6\">\n".toList = Except.ok "osm version=\"0.6\">\n".toList
      ∧ strncasecmp_eq "osm version=\"0.6\">\n".toList "osm".toList = true
      ∧ pass1_line sampleExtern sampleOpenWay "<osm version=\"0.6\">\n".toList
          = Outcome.ok 0 sampleOpenWay
      ∧ pass2_line sampleExtern sampleOpenWay "<osm version=\"0.6\">\n".toList
          = Outcome.ok 0 sampleOpenWay :=
  ⟨by decide, by rfl, by rfl,
    listed_tags_ignored sampleExtern sampleOpenWay "<osm version=\"0.6\">\n".toList
      "osm version=\"0.6\">\n".toList "osm".toList (by decide) (by rfl) (by rfl)⟩

/-- C19 counterexample: the tag name of the line `</bound>` is /bound, and the
line is a fatal error in both passes. -/
theorem closing_bound_is_fatal :
    line_start "  </bound>\n".toList = Except.ok "/bound>\n".toList
      ∧ strncasecmp_eq "/bound>\n".toList "/bound".toList = true
      ∧ token "/bound>\n".toList = Token.invalid
      ∧ pass1_line sampleExtern State.init "  </bound>\n".toList = Outcome.fatal
      ∧ pass2_line sampleExtern State.init "  </bound>\n".toList = Outcome.fatal :=
  ⟨by rfl, by rfl, by rfl, by rfl, by rfl⟩

/-! ### Ways with an unresolved node reference -/

theorem line_token_eq (buf : CString) (t : Token) (h : line_token buf = some t) :
    ∃ p, line_start buf = Except.ok p ∧ token p = t := by
  unfold line_token at h
  split at h
  · rename_i p hp
    exact ⟨p, hp, Option.some.inj h⟩
  · cases h

theorem pass2_line_of_token (E : Extern) (s : State) (buf p : CString)
    (hp : line_start buf = Except.ok p) :
    pass2_line E s buf = pass2_token E s p (token p) := by
  unfold pass2_line
  rw [hp]

theorem way_body_step_refl (s : State) : WayBodyStep s s :=
  ⟨rfl, rfl, rfl, rfl, rfl, rfl, rfl, rfl, fun h => h⟩

theorem way_body_step_trans (s s1 s2 : State) (h1 : WayBodyStep s s1) (h2 : WayBodyStep s1 s2) :
    WayBodyStep s s2 := by
  obtain ⟨a1, a2, a3, a4, a5, a6, a7, a8, a9⟩ := h1
  obtain ⟨b1, b2, b3, b4, b5, b6, b7, b8, b9⟩ := h2
  exact ⟨b1.trans a1, b2.trans a2, b3.trans a3, b4.trans a4, b5.trans a5, b6.trans a6,
    b7.trans a7, b8.trans a8, fun h => b9 (a9 h)⟩

theorem way_body_line (E : Extern) (s : State) (buf : CString) (r : Int) (s2 : State)
    (hw : s.in_way ≠ 0) (hb : is_way_body buf) (h : pass2_line E s buf = Outcome.ok r s2) :
    WayBodyStep s s2 ∧ (unresolved_nd s buf → s2.WayInvalid ≠ 0) := by
  rcases hb with hb | hb
  · obtain ⟨p, hp, ht⟩ := line_token_eq buf _ hb
    rw [pass2_line_of_token E s buf p hp, ht] at h
    have h2 : buildmap_osm_text_nd s p = Outcome.ok r s2 := h
    have hfr := nd_frame s p r s2 h2
    obtain ⟨k1, k2⟩ := nd_invalid_sticky s p r s2 h2
    refine ⟨⟨(congrArg State.out hfr : _), (congrArg State.shapes hfr : _),
      (congrArg State.points hfr : _), (congrArg State.in_way hfr : _),
      (congrArg State.lineid hfr : _), (congrArg State.nPolygons hfr : _),
      (congrArg State.polyid hfr : _), (congrArg State.cenid hfr : _), k1⟩, ?_⟩
    rintro ⟨q, node, hq, _, hscan, hlt⟩
    rw [hp] at hq
    cases hq
    exact k2 node hscan hlt
  · obtain ⟨p, hp, ht⟩ := line_token_eq buf _ hb
    rw [pass2_line_of_token E s buf p hp, ht] at h
    have h2 : buildmap_osm_text_tag E s p = Outcome.ok r s2 := h
    have hfr := way_tag_frame E s p r s2 hw h2
    have hi : s2.WayInvalid = s.WayInvalid := (congrArg State.WayInvalid hfr : _)
    refine ⟨⟨(congrArg State.out hfr : _), (congrArg State.shapes hfr : _),
      (congrArg State.points hfr : _), (congrArg State.in_way hfr : _),
      (congrArg State.lineid hfr : _), (congrArg State.nPolygons hfr : _),
      (congrArg State.polyid hfr : _), (congrArg State.cenid hfr : _),
      fun h0 => by rw [hi]; exact h0⟩, ?_⟩
    rintro ⟨q, node, hq, htok, _, _⟩
    rw [hp] at hq
    cases hq
    rw [ht] at htok
    cases htok

theorem unresolved_nd_of_points (s s1 : State) (buf : CString) (hp : s1.points = s.points)
    (h : unresolved_nd s buf) : unresolved_nd s1 buf := by
  obtain ⟨p, node, h1, h2, h3, h4⟩ := h
  refine ⟨p, node, h1, h2, h3, ?_⟩
  unfold buildmap_osm_text_point_get at h4 ⊢
  rw [hp]
  exact h4

theorem way_body_run (E : Extern) (body : List CString) (s : State) (r0 r : Int) (s2 : State)
    (hw : s.in_way ≠ 0) (hb : ∀ l ∈ body, is_way_body l)
    (h : run_lines (pass2_line E) body r0 s = Outcome.ok r s2) :
    WayBodyStep s s2 ∧ ((∃ l ∈ body, unresolved_nd s l) → s2.WayInvalid ≠ 0) := by
  induction body generalizing s r0 with
  | nil =>
    simp only [run_lines] at h
    cases h
    exact ⟨way_body_step_refl _, fun ⟨l, hl, _⟩ => by cases hl⟩
  | cons l rest ih =>
    simp only [run_lines] at h
    split at h
    · rename_i r1 s1 hl
      obtain ⟨st1, bad1⟩ := way_body_line E s l r1 s1 hw (hb l (List.mem_cons_self _ _)) hl
      have hw1 : s1.in_way ≠ 0 := by rw [st1.2.2.2.1]; exact hw
      obtain ⟨st2, bad2⟩ := ih s1 (r0 + r1) hw1
        (fun x hx => hb x (List.mem_cons_of_mem _ hx)) h
      refine ⟨way_body_step_trans s s1 s2 st1 st2, ?_⟩
      rintro ⟨x, hx, hbad⟩
      rcases List.mem_cons.mp hx with hx | hx
      · subst hx
        exact st2.2.2.2.2.2.2.2.2 (bad1 hbad)
      · exact bad2 ⟨x, hx, unresolved_nd_of_points s s1 x st1.2.2.1 hbad⟩
    · cases h
    · cases h

/-- C1 (amended): for a way-open line, a body of nd and tag lines of which at
least one is an nd line whose reference the scan of the handler reads and whose
node identifier is not in the Point Table, and a way-close line, processed by
pass 2: after the body the validity flag is set, the way-close line returns 0
and leaves the whole state as it is, and no call was made and no shape record
buffered since before the way-open line (the line and polygon counters are
unchanged too). -/
theorem invalid_way_emits_nothing (E : Extern) (s : State) (opening closing : CString)
    (body : List CString) (r0 r : Int) (s3 : State)
    (hopen : line_token opening = some Token.way)
    (hbody : ∀ l ∈ body, is_way_body l)
    (hbad : ∃ l ∈ body, unresolved_nd s l)
    (hclose : line_token closing = some Token.way_end)
    (hrun : run_lines (pass2_line E) (opening :: body) r0 s = Outcome.ok r s3) :
    s3.WayInvalid ≠ 0
      ∧ pass2_line E s3 closing = Outcome.ok 0 s3
      ∧ s3.out = s.out ∧ s3.shapes = s.shapes
      ∧ s3.lineid = s.lineid ∧ s3.nPolygons = s.nPolygons := by
  simp only [run_lines] at hrun
  split at hrun
  · rename_i r1 s1 hl
    obtain ⟨p, hp, ht⟩ := line_token_eq opening _ hopen
    rw [pass2_line_of_token E s opening p hp, ht] at hl
    have h2 : buildmap_osm_text_way s p = Outcome.ok r1 s1 := hl
    have hfr := way_frame s p r1 s1 h2
    have hw1 : s1.in_way ≠ 0 := by
      unfold buildmap_osm_text_way at h2
      simp only at h2
      split at h2
      · cases h2
      · rename_i hne
        cases h2
        exact hne
    have hpts : s1.points = s.points := (congrArg State.points hfr : _)
    obtain ⟨l, hlm, hlbad⟩ := hbad
    obtain ⟨st, bad⟩ := way_body_run E body s1 (r0 + r1) r s3 hw1 hbody hrun
    have hinv := bad ⟨l, hlm, unresolved_nd_of_points s s1 l hpts hlbad⟩
    obtain ⟨a1, a2, _, _, a5, a6, _, _, _⟩ := st
    obtain ⟨q, hq, htq⟩ := line_token_eq closing _ hclose
    refine ⟨hinv, ?_, a1.trans (congrArg State.out hfr : _),
      a2.trans (congrArg State.shapes hfr : _), a5.trans (congrArg State.lineid hfr : _),
      a6.trans (congrArg State.nPolygons hfr : _)⟩
    rw [pass2_line_of_token E s3 closing q hq, htq]
    exact way_end_invalid E s3 q hinv
  · cases hrun
  · cases hrun

/-- C1 witness: the way 5 of `sampleInvalidWay`, whose reference to the node
99 does not resolve, after pass 1 over the two nodes of `sampleTwoWays`. -/
theorem invalid_way_emits_nothing_witness :
    (run_lines (pass2_line sampleExtern) sampleInvalidWay 0
        (run_lines (pass1_line sampleExtern) (sampleTwoWays.take 2) 0 State.init).state).state.out
      = (run_lines (pass1_line sampleExtern) (sampleTwoWays.take 2) 0 State.init).state.out
    ∧ pass2_line sampleExtern
        (run_lines (pass2_line sampleExtern) sampleInvalidWay 0
          (run_lines (pass1_line sampleExtern) (sampleTwoWays.take 2) 0 State.init).state).state
        "  </way>\n".toList
      = Outcome.ok 0
        (run_lines (pass2_line sampleExtern) sampleInvalidWay 0
          (run_lines (pass1_line sampleExtern) (sampleTwoWays.take 2) 0 State.init).state).state :=
  have h := invalid_way_emits_nothing sampleExtern
    (run_lines (pass1_line sampleExtern) (sampleTwoWays.take 2) 0 State.init).state
    "  <way id=\"5\">\n".toList "  </way>\n".toList sampleInvalidWay.tail 0 5
    (run_lines (pass2_line sampleExtern) sampleInvalidWay 0
      (run_lines (pass1_line sampleExtern) (sampleTwoWays.take 2) 0 State.init).state).state
    (by rfl)
    (by
      intro l hl
      simp only [sampleInvalidWay, List.tail_cons, List.mem_cons, List.mem_singleton,
        List.not_mem_nil, or_false] at hl
      rcases hl with h | h | h <;> subst h
      · exact Or.inl (by rfl)
      · exact Or.inl (by rfl)
      · exact Or.inr (by rfl))
    ⟨"    <nd ref=\"99\"/>\n".toList, by simp [sampleInvalidWay],
      "nd ref=\"99\"/>\n".toList, 99, by rfl, by rfl, by rfl, by decide⟩
    (by rfl) (by rfl)
  ⟨h.2.2.1, h.2.1⟩


/-- C1 counterexample: in `sampleUpperNdWay` the line `<ND ref="99"/>` of the
way 10 reaches the nd branch of the chain, which compares without regard to
case, but the scan of the handler, which does not, reads no reference: the
handler returns -1 before the lookup, the validity flag stays clear, and the
way is emitted with a line, a street and a range record although no node 99
is in the Point Table. -/
theorem unscanned_nd_way_is_emitted :
    line_token "    <ND ref=\"99\"/>\n".toList = some Token.nd
      ∧ sscanf_nd "ND ref=\"99\"/>\n".toList = none
      ∧ buildmap_osm_text_point_get
          (run_lines (pass1_line sampleExtern) sampleUpperNdWay 0 State.init).state 99 = -1
      ∧ (buildmap_osm_text_read sampleExtern State.init sampleUpperNdWay).state.out.filter
          is_way_record
        = [Call.buildmap_line_add 1 0 0 1, Call.buildmap_street_add 0 0 0 0 0 0,
           Call.buildmap_range_add_no_address 0 0] := by
  refine ⟨by rfl, by rfl, by rfl, by rfl⟩

/-- C2: the way-close of an invalid way returns before
`buildmap_osm_text_reset_way`.  On the input `sampleInvalidThenValid` the
validity flag set by the way 5 is still set at the end of the run and the way
11, whose two nodes resolve, emits no record, while on the same input without
the way 5 it emits a line, a street and a range record. -/
theorem invalid_way_is_not_reset :
    (buildmap_osm_text_read sampleExtern State.init sampleInvalidThenValid).state.out.filter
        is_way_record = []
      ∧ (buildmap_osm_text_read sampleExtern State.init sampleInvalidThenValid).state.WayInvalid
          = 1
      ∧ (buildmap_osm_text_read sampleExtern State.init sampleInvalidThenValid).state.nWayNodes
          = 2
      ∧ (buildmap_osm_text_read sampleExtern State.init sampleSecondWayOnly).state.out.filter
          is_way_record
        = [Call.buildmap_line_add 1 0 0 1, Call.buildmap_street_add 0 0 0 0 0 0,
           Call.buildmap_range_add_no_address 0 0] := by
  refine ⟨by rfl, by rfl, by rfl, by rfl⟩

/-! ### The shape flush -/

theorem shape_points_exact (li i lid : Int) (lons lats : List Int) (k j : Nat) (s : State)
    (h1 : j + k ≤ lons.length) (h2 : j + k ≤ lats.length) :
    shape_points li i lid lons lats k j s
      = some { s with out := s.out ++ (List.range k).map (fun m =>
          Call.buildmap_shape_add li i lid (((j + m : Nat) : Int) - 1) (lons.getD (j + m) 0)
            (lats.getD (j + m) 0)) } := by
  induction k generalizing j s with
  | zero => simp [shape_points]
  | succ n ih =>
    have e1 : lons.get? j = some (lons.getD j 0) := by
      rw [List.get?_eq_getElem?, List.getD_eq_getElem?_getD,
        List.getElem?_eq_getElem (by omega : j < lons.length)]
      rfl
    have e2 : lats.get? j = some (lats.getD j 0) := by
      rw [List.get?_eq_getElem?, List.getD_eq_getElem?_getD,
        List.getElem?_eq_getElem (by omega : j < lats.length)]
      rfl
    have hm : (List.range n).map (fun m =>
          Call.buildmap_shape_add li i lid (((j + 1 + m : Nat) : Int) - 1)
            (lons.getD (j + 1 + m) 0) (lats.getD (j + 1 + m) 0))
        = (List.range n).map ((fun m =>
          Call.buildmap_shape_add li i lid (((j + m : Nat) : Int) - 1) (lons.getD (j + m) 0)
            (lats.getD (j + m) 0)) ∘ Nat.succ) := by
      apply List.map_congr_left
      intro m _
      simp only [Function.comp, Nat.succ_eq_add_one]
      rw [show j + 1 + m = j + (m + 1) by omega]
    unfold shape_points
    rw [e1, e2]
    simp only
    rw [ih (j + 1) _ (by omega) (by omega), List.range_succ_eq_map, List.map_cons, List.map_map,
      ← hm]
    simp only [State.call, List.append_assoc, List.singleton_append, Nat.add_zero]

theorem shape_record_exact (E : Extern) (r : shapeinfo) (i : Nat) (s : State) (hwf : r.wf) :
    shape_record E r i s = some { s with out := s.out ++ record_points E s.out r i } := by
  obtain ⟨w1, w2⟩ := hwf
  unfold shape_record record_points
  by_cases hc : r.count ≤ 2
  · rw [if_pos hc, if_neg (by omega)]
    simp
  · rw [if_neg hc]
    simp only
    by_cases hf : E.buildmap_line_find_sorted s.out r.lineid ≥ 0
    · rw [if_pos hf, if_pos ⟨by omega, hf⟩,
        shape_points_exact _ _ _ _ _ _ _ _ (by omega) (by omega)]
      unfold interior_points
      congr 3
      rw [show r.count - 1 - 1 = r.count - 2 by omega]
      apply List.map_congr_left
      intro m _
      rw [show 1 + m = m + 1 by omega]
      congr 1
      push_cast
      omega
    · rw [if_neg hf, if_neg (fun h => hf h.2)]
      simp

theorem shapes_loop_exact (E : Extern) (rs : List shapeinfo) (i : Nat) (s : State)
    (hwf : ∀ r ∈ rs, r.wf) :
    shapes_loop E rs i s = some { s with out := s.out ++ flush_points E rs i s.out } := by
  induction rs generalizing i s with
  | nil => simp [shapes_loop, flush_points]
  | cons r rest ih =>
    unfold shapes_loop
    rw [shape_record_exact E r i s (hwf r (List.mem_cons_self _ _))]
    simp only
    rw [ih (i + 1) _ (fun x hx => hwf x (List.mem_cons_of_mem _ hx))]
    simp only [flush_points, List.append_assoc]

/-- C6: when the arrays of every buffered shape record hold `count` cells,
the shape flush returns 1 after the call `buildmap_line_sort` and, for the
records in buffer order, the calls `flush_points`: for the record `i` with
`count > 2` whose line identifier is found at the position `p`, the shape
points `(p, i, lineid, j - 1, lons[j], lats[j])` for `j` from 1 to
`count - 2` in that order, and no call for a record with `count <= 2` or
whose line identifier is not found. -/
theorem shape_flush_points (E : Extern) (s : State) (hwf : ∀ r ∈ s.shapes, r.wf) :
    buildmap_osm_text_ways_shapeinfo E s
        = Outcome.ok 1 { s with out := s.out ++ (Call.buildmap_line_sort ::
            flush_points E s.shapes 0 (s.out ++ [Call.buildmap_line_sort])) }
      ∧ (∀ h r i, r.count ≤ 2 → record_points E h r i = [])
      ∧ (∀ h r i, E.buildmap_line_find_sorted h r.lineid < 0 → record_points E h r i = [])
      ∧ (∀ h r i, 2 < r.count → 0 ≤ E.buildmap_line_find_sorted h r.lineid →
          record_points E h r i
            = (List.range (r.count - 2)).map (fun (m : Nat) =>
                Call.buildmap_shape_add (E.buildmap_line_find_sorted h r.lineid) i r.lineid
                  (m : Int) (r.lons.getD (m + 1) 0) (r.lats.getD (m + 1) 0))) := by
  refine ⟨?_, ?_, ?_, ?_⟩
  · unfold buildmap_osm_text_ways_shapeinfo
    rw [shapes_loop_exact E s.shapes 0 _ hwf]
    simp only [State.call, List.append_assoc, List.singleton_append]
  · intro h r i hc
    unfold record_points
    rw [if_neg (by omega)]
  · intro h r i hf
    unfold record_points
    rw [if_neg (by omega)]
  · intro h r i hc hf
    unfold record_points
    rw [if_pos ⟨hc, hf⟩]
    rfl

/-- C6 witness: a buffer with a record of four coordinates for the line 1
and a record of two coordinates for the line 2. -/
theorem shape_flush_points_witness :
    (∀ r ∈ sampleShapeState.shapes, r.wf)
      ∧ buildmap_osm_text_ways_shapeinfo sampleExtern sampleShapeState
        = Outcome.ok 1 { sampleShapeState with out :=
            [Call.buildmap_line_sort, Call.buildmap_shape_add 0 0 1 0 11 21,
             Call.buildmap_shape_add 0 0 1 1 12 22] } := by
  have hwf : ∀ r ∈ sampleShapeState.shapes, r.wf := by
    intro r hr
    simp only [sampleShapeState, State.init, List.mem_cons, List.mem_singleton,
      List.not_mem_nil, or_false] at hr
    rcases hr with h | h <;> subst h <;> exact ⟨rfl, rfl⟩
  refine ⟨hwf, ?_⟩
  rw [(shape_flush_points sampleExtern sampleShapeState hwf).1]
  rfl

/-! ### Line identifiers over a run -/

theorem line_ids_flush_points (E : Extern) (rs : List shapeinfo) (i : Nat) (h : List Call) :
    line_ids (flush_points E rs i h) = [] := by
  apply line_ids_of_not_line
  induction rs generalizing i h with
  | nil =>
    intro c hc
    simp [flush_points] at hc
  | cons r rest ih =>
    intro c hc
    simp only [flush_points, List.mem_append] at hc
    rcases hc with hc | hc
    · unfold record_points at hc
      split at hc
      · unfold interior_points at hc
        obtain ⟨m, _, hm⟩ := List.mem_map.mp hc
        rw [← hm]
        rfl
      · cases hc
    · exact ih _ _ c hc

/-- C5: in a run of `buildmap_osm_text_read` from the initial state that
returns, the line identifiers passed to `buildmap_line_add`, in the order of
the calls, are strictly increasing, so none is used twice, whichever branch of
the way-close made the call; they lie between 1 and the final value of the
counter `lineid`. -/
theorem line_ids_increasing (E : Extern) (lines : List CString) (r : Int) (s3 : State)
    (h : buildmap_osm_text_read E State.init lines = Outcome.ok r s3) :
    List.Pairwise (fun a b => a < b) (line_ids s3.out)
      ∧ (line_ids s3.out).Nodup
      ∧ ∀ x ∈ line_ids s3.out, 0 < x ∧ x ≤ s3.lineid := by
  unfold buildmap_osm_text_read at h
  split at h
  · rename_i ret1 s1 h1
    split at h
    · rename_i ret2 s2 h2
      obtain ⟨e1, _, _, _, c1, o1, n1, _, _⟩ := run_pass1_step E lines 0 State.init ret1 s1 h1
      obtain ⟨_, _, ⟨recs, hrecs, hwf⟩, c2, o2, _, pw2, b2⟩ :=
        run_pass2_step E lines ret1 s1 ret2 s2 h2
      have hl1 : s1.lineid = 0 := (congrArg State.lineid e1 : _)
      have hs1 : s1.shapes = [] := (congrArg State.shapes e1 : _)
      have hc1 : line_ids c1 = [] := line_ids_of_not_line c1 (fun c hc => by
        have := n1 c hc
        cases c <;> simp_all [is_node_call, is_point_add, is_dictionary_add, is_city_add,
          is_zip_add, is_line_add])
      have hwf2 : ∀ r ∈ s2.shapes, r.wf := by
        intro x hx
        rw [hrecs, hs1, List.nil_append] at hx
        exact hwf x hx
      unfold buildmap_osm_text_ways_shapeinfo at h
      rw [shapes_loop_exact E s2.shapes 0 _ hwf2] at h
      simp only [Outcome.ok.injEq] at h
      obtain ⟨_, h3⟩ := h
      have ho3 : line_ids s3.out = line_ids c2 := by
        rw [← h3]
        simp only [State.call]
        rw [line_ids_append, line_ids_flush_points, List.append_nil, line_ids_append, o2,
          line_ids_append, o1, line_ids_append, hc1]
        show ([] : List Int) ++ [] ++ line_ids c2 ++ [] = line_ids c2
        simp
      have hl3 : s3.lineid = s2.lineid := by rw [← h3]; rfl
      rw [ho3, hl3]
      refine ⟨pw2, ?_, fun x hx => ?_⟩
      · exact pw2.imp (fun hab => ne_of_lt hab)
      · have := b2 x hx
        omega
    · cases h
    · cases h
  · cases h
  · cases h

/-- C5 witness: the run over `sampleTwoWays`, whose two ways get the line
identifiers 1 and 2. -/
theorem line_ids_increasing_witness :
    line_ids (buildmap_osm_text_read sampleExtern State.init sampleTwoWays).state.out = [1, 2]
      ∧ List.Pairwise (fun a b => a < b)
          (line_ids (buildmap_osm_text_read sampleExtern State.init sampleTwoWays).state.out) :=
  ⟨by rfl, (line_ids_increasing sampleExtern sampleTwoWays 5
    (buildmap_osm_text_read sampleExtern State.init sampleTwoWays).state (by rfl)).1⟩

/-! ### The records of a valid way -/

theorem area_calls_length (points : List points_t) (layer : Int) (nodes : List Int)
    (lineid : Int) : (area_calls points layer nodes lineid).length = nodes.length - 1 := by
  induction nodes generalizing lineid with
  | nil => rfl
  | cons a rest ih =>
    cases rest with
    | nil => rfl
    | cons b rest2 =>
      simp only [area_calls, List.length_cons]
      rw [ih]
      simp only [List.length_cons]
      omega

theorem area_calls_get (points : List points_t) (layer : Int) (nodes : List Int)
    (lineid : Int) (m : Nat) (hm : m + 1 < nodes.length) :
    (area_calls points layer nodes lineid).get? m
      = some (Call.buildmap_line_add (lineid + 1 + (m : Int)) layer
          (point_scan points (nodes.getD m 0)) (point_scan points (nodes.getD (m + 1) 0))) := by
  induction nodes generalizing lineid m with
  | nil => simp at hm
  | cons a rest ih =>
    cases rest with
    | nil => simp at hm
    | cons b rest2 =>
      cases m with
      | zero => simp [area_calls]
      | succ k =>
        simp only [area_calls, List.get?_cons_succ]
        rw [ih (lineid + 1) k (by simpa using hm)]
        simp only [List.getD_cons_succ, Nat.cast_add, Nat.cast_one]
        congr 2
        omega

theorem area_lines_exact (k j0 : Nat) (s : State) (rest : List Int)
    (hlen : rest.length = k + 1)
    (hcells : ∀ m, m < rest.length →
      array_get s.WayNodes ((j0 + m : Nat) : Int) = some (rest.getD m 0)) :
    area_lines k (j0 + 1) s
      = some { s with lineid := s.lineid + (k : Int),
                      out := s.out ++ area_calls s.points s.WayLayer rest s.lineid } := by
  induction k generalizing j0 s rest with
  | zero =>
    match rest, hlen with
    | [a], _ => simp [area_lines, area_calls]
  | succ n ih =>
    match rest, hlen, hcells with
    | a :: b :: rest2, hlen, hcells =>
      have c0 := hcells 0 (by simp)
      have c1 := hcells 1 (by simp)
      simp only [Nat.add_zero, List.getD_cons_zero] at c0
      simp only [List.getD_cons_succ, List.getD_cons_zero] at c1
      unfold area_lines
      rw [show (((j0 + 1 : Nat) : Int) - 1) = ((j0 : Nat) : Int) by push_cast; omega, c0, c1]
      simp only
      rw [ih (j0 + 1) _ (b :: rest2) (by simpa using hlen) (fun m hm => by
        have := hcells (m + 1) (by simpa using hm)
        rw [show j0 + 1 + m = j0 + (m + 1) by omega]
        simpa [State.call] using this)]
      simp only [State.call, area_calls, buildmap_osm_text_point_get, List.append_assoc,
        List.singleton_append, Nat.cast_add, Nat.cast_one]
      congr 2
      omega

theorem shape_capture_total (E : Extern) (k j : Nat) (s : State) (bufs : List Int × List Int)
    (hcells : ∀ m, m < k → ∃ a, array_get s.WayNodes ((j + m : Nat) : Int) = some a) :
    ∃ s2 bufs2, shape_capture E k j s bufs = some (s2, bufs2) := by
  induction k generalizing j s bufs with
  | zero => exact ⟨s, bufs, rfl⟩
  | succ n ih =>
    obtain ⟨a, ha⟩ := hcells 0 (by omega)
    unfold shape_capture
    rw [Nat.add_zero] at ha
    rw [ha]
    simp only
    apply ih
    intro m hm
    obtain ⟨b, hb⟩ := hcells (m + 1) (by omega)
    exact ⟨b, by rw [show j + 1 + m = j + (m + 1) by omega]; simpa [State.call] using hb⟩

theorem filter_nil_of_class (p q : Call → Bool) (l : List Call) (hq : ∀ c ∈ l, q c = true)
    (hpq : ∀ c, q c = true → p c = false) : l.filter p = [] := by
  rw [List.filter_eq_nil_iff]
  intro c hc
  rw [hpq c (hq c hc)]
  simp

theorem way_end_valid (E : Extern) (s : State) (data : CString) (first last : Int)
    (hv : s.WayInvalid = 0) (hw : s.in_way ≠ 0)
    (h1 : array_get s.WayNodes 0 = some first)
    (h2 : array_get s.WayNodes ((s.nWayNodes : Int) - 1) = some last) :
    buildmap_osm_text_way_end E s data
      = match way_end_branch E s.out (way_end_dicts E s) first last with
        | none => Outcome.undefined
        | some s4 => Outcome.ok 0 (buildmap_osm_text_reset_way s4) := by
  have e1 : (way_end_dicts E s).WayNodes = s.WayNodes := by rw [way_end_dicts_eq]
  have e2 : (way_end_dicts E s).nWayNodes = s.nWayNodes := by rw [way_end_dicts_eq]
  unfold buildmap_osm_text_way_end
  rw [if_neg (by simpa using hv), if_neg hw, e1, e2, h1, h2]

theorem area_calls_lines (points : List points_t) (layer : Int) (nodes : List Int)
    (lineid : Int) : ∀ c ∈ area_calls points layer nodes lineid, is_line_add c = true := by
  induction nodes generalizing lineid with
  | nil => intro c hc; cases hc
  | cons a rest ih =>
    cases rest with
    | nil => intro c hc; cases hc
    | cons b rest2 =>
      intro c hc
      simp only [area_calls, List.mem_cons] at hc
      rcases hc with rfl | hc
      · rfl
      · exact ih _ c hc

theorem way_end_area_exact (E : Extern) (s0 : State) (nodes : List Int)
    (hn : 1 ≤ s0.nWayNodes) (hnodes : WayNodesAre s0 nodes) :
    way_end_area E s0
      = some { s0 with nPolygons := s0.nPolygons + 1, cenid := s0.cenid + 1,
                       polyid := s0.polyid + 1,
                       lineid := s0.lineid + ((s0.nWayNodes - 1 : Nat) : Int),
                       out := s0.out ++
                         (Call.buildmap_dictionary_add BuildMapDictionary.DictionaryStreet
                             (s0.WayStreetName.getD [])
                           :: Call.buildmap_polygon_add_landmark (s0.nPolygons + 1) s0.WayLayer
                               (E.buildmap_dictionary_add s0.out
                                 BuildMapDictionary.DictionaryStreet (s0.WayStreetName.getD []))
                           :: Call.buildmap_polygon_add (s0.nPolygons + 1) (s0.cenid + 1)
                               (s0.polyid + 1)
                           :: area_calls s0.points s0.WayLayer nodes s0.lineid) } := by
  obtain ⟨hl, hc⟩ := hnodes
  unfold way_end_area
  refine (area_lines_exact (s0.nWayNodes - 1) 0 _ nodes (by omega) (fun m hm => ?_)).trans ?_
  · rw [Nat.zero_add]
    exact hc m hm
  · simp only [State.call, str2dict, List.append_assoc, List.singleton_append]
    rfl

/-- C4: for a valid open way whose node list holds the `n >= 1` identifiers
`nodes`, whose flags contain AREA and whose first and last nodes have the
same longitude and latitude, the way-close returns 0 and makes, besides
dictionary calls, exactly: one `buildmap_polygon_add_landmark` and one
`buildmap_polygon_add` call with the fresh polygon number `nPolygons + 1`
(and the fresh `cenid + 1`, `polyid + 1`), and the `n - 1` calls
`buildmap_line_add` of `area_calls`, the call `m` joining the points of the
nodes `m` and `m + 1` under the identifier `lineid + 1 + m`; it makes no
street and no range call and buffers no shape record. -/
theorem area_way_records (E : Extern) (s : State) (data : CString) (nodes : List Int)
    (hv : s.WayInvalid = 0) (hw : s.in_way ≠ 0) (hn : 1 ≤ s.nWayNodes)
    (hnodes : WayNodesAre s nodes)
    (harea : way_is_area E (way_end_dicts E s)
      (buildmap_osm_text_point_get s (nodes.getD 0 0))
      (buildmap_osm_text_point_get s (nodes.getD (s.nWayNodes - 1) 0))) :
    ∃ s2 calls, buildmap_osm_text_way_end E s data = Outcome.ok 0 s2
      ∧ s2.out = s.out ++ calls
      ∧ calls.filter is_line_add = area_calls s.points s.WayLayer nodes s.lineid
      ∧ (area_calls s.points s.WayLayer nodes s.lineid).length = s.nWayNodes - 1
      ∧ (∀ m, m + 1 < s.nWayNodes →
          (area_calls s.points s.WayLayer nodes s.lineid).get? m
            = some (Call.buildmap_line_add (s.lineid + 1 + (m : Int)) s.WayLayer
                (buildmap_osm_text_point_get s (nodes.getD m 0))
                (buildmap_osm_text_point_get s (nodes.getD (m + 1) 0))))
      ∧ (∃ name, calls.filter is_landmark_add
          = [Call.buildmap_polygon_add_landmark (s.nPolygons + 1) s.WayLayer name])
      ∧ calls.filter is_polygon_add
          = [Call.buildmap_polygon_add (s.nPolygons + 1) (s.cenid + 1) (s.polyid + 1)]
      ∧ calls.filter is_street_add = [] ∧ calls.filter is_range_add = []
      ∧ s2.shapes = s.shapes
      ∧ s2.lineid = s.lineid + ((s.nWayNodes - 1 : Nat) : Int) := by
  have h1 : array_get s.WayNodes 0 = some (nodes.getD 0 0) := by
    have := hnodes.2 0 (by rw [hnodes.1]; omega)
    simpa using this
  have h2 : array_get s.WayNodes ((s.nWayNodes : Int) - 1)
      = some (nodes.getD (s.nWayNodes - 1) 0) := by
    have := hnodes.2 (s.nWayNodes - 1) (by rw [hnodes.1]; omega)
    rw [show ((s.nWayNodes : Int) - 1) = ((s.nWayNodes - 1 : Nat) : Int) by omega]
    exact this
  have hnodes0 : WayNodesAre (way_end_dicts E s) nodes := by
    rw [way_end_dicts_eq]
    exact hnodes
  have hn0 : 1 ≤ (way_end_dicts E s).nWayNodes := by
    rw [way_end_dicts_eq]
    exact hn
  have hlines := area_calls_lines s.points s.WayLayer nodes s.lineid
  rw [way_end_valid E s data _ _ hv hw h1 h2]
  unfold way_end_branch
  rw [if_pos (by rw [way_end_dicts_eq] at harea ⊢; exact harea),
    way_end_area_exact E _ nodes hn0 hnodes0]
  simp only
  rw [way_end_dicts_eq]
  refine ⟨_, [Call.buildmap_dictionary_add BuildMapDictionary.DictionaryPrefix [],
      Call.buildmap_dictionary_add BuildMapDictionary.DictionarySuffix [],
      Call.buildmap_dictionary_add BuildMapDictionary.DictionaryType [],
      Call.buildmap_dictionary_add BuildMapDictionary.DictionaryStreet
        (s.WayStreetName.getD []),
      Call.buildmap_polygon_add_landmark (s.nPolygons + 1) s.WayLayer
        (E.buildmap_dictionary_add
          (s.out ++ [Call.buildmap_dictionary_add BuildMapDictionary.DictionaryPrefix [],
            Call.buildmap_dictionary_add BuildMapDictionary.DictionarySuffix [],
            Call.buildmap_dictionary_add BuildMapDictionary.DictionaryType []])
          BuildMapDictionary.DictionaryStreet (s.WayStreetName.getD [])),
      Call.buildmap_polygon_add (s.nPolygons + 1) (s.cenid + 1) (s.polyid + 1)]
      ++ area_calls s.points s.WayLayer nodes s.lineid, rfl, ?_, ?_,
    by rw [area_calls_length, hnodes.1], ?_,
    ⟨E.buildmap_dictionary_add
      (s.out ++ [Call.buildmap_dictionary_add BuildMapDictionary.DictionaryPrefix [],
        Call.buildmap_dictionary_add BuildMapDictionary.DictionarySuffix [],
        Call.buildmap_dictionary_add BuildMapDictionary.DictionaryType []])
      BuildMapDictionary.DictionaryStreet (s.WayStreetName.getD []), ?_⟩, ?_, ?_, ?_, rfl, rfl⟩
  · simp only [buildmap_osm_text_reset_way, List.append_assoc, List.cons_append,
      List.nil_append]
  · rw [List.filter_append, List.filter_eq_self.mpr hlines]
    rfl
  · intro m hm
    exact area_calls_get s.points s.WayLayer nodes s.lineid m (by rw [hnodes.1]; exact hm)
  · rw [List.filter_append, filter_nil_of_class is_landmark_add is_line_add _ hlines
      (fun c hc => by cases c <;> simp_all [is_line_add, is_landmark_add])]
    rfl
  · rw [List.filter_append, filter_nil_of_class is_polygon_add is_line_add _ hlines
      (fun c hc => by cases c <;> simp_all [is_line_add, is_polygon_add])]
    rfl
  · rw [List.filter_append, filter_nil_of_class is_street_add is_line_add _ hlines
      (fun c hc => by cases c <;> simp_all [is_line_add, is_street_add])]
    rfl
  · rw [List.filter_append, filter_nil_of_class is_range_add is_line_add _ hlines
      (fun c hc => by cases c <;> simp_all [is_line_add, is_range_add])]
    rfl

/-- C4 witness: the closed way 20 of `sampleAreaWay` over the nodes 1, 2, 3, 1,
tagged `natural=water`: three lines and one polygon. -/
theorem area_way_records_witness :
    ∃ s2 calls, buildmap_osm_text_way_end sampleExtern sampleAreaState [] = Outcome.ok 0 s2
      ∧ s2.out = sampleAreaState.out ++ calls
      ∧ calls.filter is_line_add
          = [Call.buildmap_line_add 1 9 0 1, Call.buildmap_line_add 2 9 1 2,
             Call.buildmap_line_add 3 9 2 0]
      ∧ calls.filter is_polygon_add = [Call.buildmap_polygon_add 1 1 1]
      ∧ calls.filter is_street_add = [] ∧ calls.filter is_range_add = [] := by
  have hW : sampleAreaState.WayNodes
      = some 1 :: some 2 :: some 3 :: some 1 :: List.replicate 96 none := by rfl
  obtain ⟨s2, calls, h1, h2, h3, _, _, _, h7, h8, h9, _, _⟩ :=
    area_way_records sampleExtern sampleAreaState [] [1, 2, 3, 1] (by rfl)
      (by rw [show sampleAreaState.in_way = 20 from by rfl]; decide)
      (by rw [show sampleAreaState.nWayNodes = 4 from by rfl]; decide)
      ⟨by rfl, fun j hj => by
        rw [hW]
        have hj4 : j < 4 := hj
        interval_cases j <;> rfl⟩
      (by
        unfold way_is_area
        refine ⟨?_, by rfl, by rfl⟩
        rw [show (way_end_dicts sampleExtern sampleAreaState).WayFlags = 2 from by rfl]
        decide)
  exact ⟨s2, calls, h1, h2, h3.trans (by rfl), h7, h8, h9⟩

theorem way_end_street_exact (E : Extern) (h0 : List Call) (s0 : State) (fp tp : Int) :
    ∃ d dirp name typ dirs street,
      way_end_street E h0 s0 fp tp
        = { s0 with lineid := s0.lineid + 1, out := s0.out ++
            (Call.buildmap_line_add (s0.lineid + 1) s0.WayLayer fp tp :: d ++
              [Call.buildmap_street_add s0.WayLayer dirp name typ dirs
                 (E.buildmap_line_add s0.out (s0.lineid + 1) s0.WayLayer fp tp),
               Call.buildmap_range_add_no_address
                 (E.buildmap_line_add s0.out (s0.lineid + 1) s0.WayLayer fp tp) street]) }
      ∧ (∀ c ∈ d, is_dictionary_add c = true) := by
  have key := street_name_dict_eq E ({ s0 with lineid := s0.lineid + 1 }.call
        (Call.buildmap_line_add (s0.lineid + 1) s0.WayLayer fp tp))
  unfold way_end_street
  generalize street_name_dict E ({ s0 with lineid := s0.lineid + 1 }.call
        (Call.buildmap_line_add (s0.lineid + 1) s0.WayLayer fp tp)) = sn at key ⊢
  obtain ⟨d, hd, hdd⟩ := key
  obtain ⟨n1, st⟩ := sn
  simp only at hd
  subst hd
  simp only [State.call, List.append_assoc, List.singleton_append, List.cons_append]
  exact ⟨d, _, _, _, _, _, rfl, hdd⟩

theorem way_end_line_exact (E : Extern) (h0 : List Call) (s0 : State) (fp tp : Int)
    (hcells : ∀ m, m < s0.nWayNodes → ∃ a, array_get s0.WayNodes (m : Int) = some a) :
    ∃ d sq dirp name typ dirs street lons lats,
      way_end_line E h0 s0 fp tp
        = some { s0 with
                 lineid := s0.lineid + 1,
                 out := s0.out ++
                   ((Call.buildmap_line_add (s0.lineid + 1) s0.WayLayer fp tp :: d ++
                     [Call.buildmap_street_add s0.WayLayer dirp name typ dirs
                        (E.buildmap_line_add s0.out (s0.lineid + 1) s0.WayLayer fp tp),
                      Call.buildmap_range_add_no_address
                        (E.buildmap_line_add s0.out (s0.lineid + 1) s0.WayLayer fp tp) street])
                     ++ sq),
                 shapes := s0.shapes ++
                   [{ lineid := s0.lineid + 1, count := s0.nWayNodes, lons := lons,
                      lats := lats }] }
      ∧ (∀ c ∈ d, is_dictionary_add c = true)
      ∧ (∀ c ∈ sq, is_square_adjust c = true)
      ∧ lons.length = s0.nWayNodes ∧ lats.length = s0.nWayNodes := by
  obtain ⟨d, dirp, name, typ, dirs, street, hst, hd⟩ := way_end_street_exact E h0 s0 fp tp
  have hn : (way_end_street E h0 s0 fp tp).nWayNodes = s0.nWayNodes := by rw [hst]
  have hwn : (way_end_street E h0 s0 fp tp).WayNodes = s0.WayNodes := by rw [hst]
  obtain ⟨s3, bufs, hcap⟩ := shape_capture_total E (way_end_street E h0 s0 fp tp).nWayNodes 0
    (way_end_street E h0 s0 fp tp) ([], []) (fun m hm => by
      obtain ⟨a, ha⟩ := hcells m (by rw [← hn]; exact hm)
      exact ⟨a, by rw [Nat.zero_add, hwn]; exact ha⟩)
  obtain ⟨sq, hs, hsq, hl1, hl2⟩ := shape_capture_effect E _ _ _ _ _ _ hcap
  unfold way_end_line
  rw [hcap]
  simp only
  rw [hs, hst]
  refine ⟨d, sq, dirp, name, typ, dirs, street, bufs.1, bufs.2, ?_, hd, hsq, ?_, ?_⟩
  · simp only [List.append_assoc]
  · rw [hl1, hn]
    simp
  · rw [hl2, hn]
    simp

theorem dictionary_add_class (c : Call) (h : is_dictionary_add c = true) :
    is_line_add c = false ∧ is_street_add c = false ∧ is_range_add c = false
      ∧ is_polygon_add c = false ∧ is_landmark_add c = false := by
  cases c <;> simp_all [is_dictionary_add, is_line_add, is_street_add, is_range_add,
    is_polygon_add, is_landmark_add]

theorem square_adjust_class (c : Call) (h : is_square_adjust c = true) :
    is_line_add c = false ∧ is_street_add c = false ∧ is_range_add c = false
      ∧ is_polygon_add c = false ∧ is_landmark_add c = false := by
  cases c <;> simp_all [is_square_adjust, is_line_add, is_street_add, is_range_add,
    is_polygon_add, is_landmark_add]

/-- C3: for a valid open way whose node list holds the `n >= 1` identifiers
`nodes` and which is not both flagged AREA and closed, the way-close returns
0 and makes, besides dictionary and square-limit calls, exactly: one
`buildmap_line_add` call with the fresh identifier `lineid + 1` joining the
point of the first node to the point of the last node, one
`buildmap_street_add` call and one `buildmap_range_add_no_address` call for
the line that the line store returned, and no polygon call; it buffers one
shape record `rec` for that line with `count = n`.  The shape flush emits for
`rec`, when the sorted line store finds the line and `n > 2`, exactly `n - 2`
shape points numbered from 0 to `n - 3`, and no shape point when `n <= 2`. -/
theorem street_way_records (E : Extern) (s : State) (data : CString) (nodes : List Int)
    (hv : s.WayInvalid = 0) (hw : s.in_way ≠ 0) (hn : 1 ≤ s.nWayNodes)
    (hnodes : WayNodesAre s nodes)
    (hopen : ¬ way_is_area E (way_end_dicts E s)
      (buildmap_osm_text_point_get s (nodes.getD 0 0))
      (buildmap_osm_text_point_get s (nodes.getD (s.nWayNodes - 1) 0))) :
    ∃ s2 calls rec, buildmap_osm_text_way_end E s data = Outcome.ok 0 s2
      ∧ s2.out = s.out ++ calls
      ∧ calls.filter is_line_add
          = [Call.buildmap_line_add (s.lineid + 1) s.WayLayer
              (buildmap_osm_text_point_get s (nodes.getD 0 0))
              (buildmap_osm_text_point_get s (nodes.getD (s.nWayNodes - 1) 0))]
      ∧ (∃ dirp name typ dirs street,
          calls.filter is_street_add
            = [Call.buildmap_street_add s.WayLayer dirp name typ dirs
                (E.buildmap_line_add (way_end_dicts E s).out (s.lineid + 1) s.WayLayer
                  (buildmap_osm_text_point_get s (nodes.getD 0 0))
                  (buildmap_osm_text_point_get s (nodes.getD (s.nWayNodes - 1) 0)))]
          ∧ calls.filter is_range_add
            = [Call.buildmap_range_add_no_address
                (E.buildmap_line_add (way_end_dicts E s).out (s.lineid + 1) s.WayLayer
                  (buildmap_osm_text_point_get s (nodes.getD 0 0))
                  (buildmap_osm_text_point_get s (nodes.getD (s.nWayNodes - 1) 0))) street])
      ∧ calls.filter is_polygon_add = [] ∧ calls.filter is_landmark_add = []
      ∧ s2.shapes = s.shapes ++ [rec]
      ∧ rec.lineid = s.lineid + 1 ∧ rec.count = s.nWayNodes
      ∧ (∀ i s3, shape_record E rec i s3
          = some { s3 with out := s3.out ++ record_points E s3.out rec i })
      ∧ (∀ h i, 2 < s.nWayNodes → 0 ≤ E.buildmap_line_find_sorted h (s.lineid + 1) →
          (record_points E h rec i).length = s.nWayNodes - 2
            ∧ ∀ m, m < s.nWayNodes - 2 → ∃ lon lat,
              (record_points E h rec i).get? m
                = some (Call.buildmap_shape_add (E.buildmap_line_find_sorted h (s.lineid + 1)) i
                    (s.lineid + 1) (m : Int) lon lat))
      ∧ (∀ h i, s.nWayNodes ≤ 2 → record_points E h rec i = []) := by
  have h1 : array_get s.WayNodes 0 = some (nodes.getD 0 0) := by
    have := hnodes.2 0 (by rw [hnodes.1]; omega)
    simpa using this
  have h2 : array_get s.WayNodes ((s.nWayNodes : Int) - 1)
      = some (nodes.getD (s.nWayNodes - 1) 0) := by
    have := hnodes.2 (s.nWayNodes - 1) (by rw [hnodes.1]; omega)
    rw [show ((s.nWayNodes : Int) - 1) = ((s.nWayNodes - 1 : Nat) : Int) by omega]
    exact this
  have hcells : ∀ m, m < (way_end_dicts E s).nWayNodes →
      ∃ a, array_get (way_end_dicts E s).WayNodes (m : Int) = some a := by
    rw [way_end_dicts_eq]
    intro m hm
    exact ⟨_, hnodes.2 m (by rw [hnodes.1]; exact hm)⟩
  obtain ⟨d, sq, dirp, name, typ, dirs, street, lons, lats, hline, hd, hsq, hl1, hl2⟩ :=
    way_end_line_exact E s.out (way_end_dicts E s)
      (buildmap_osm_text_point_get (way_end_dicts E s) (nodes.getD 0 0))
      (buildmap_osm_text_point_get (way_end_dicts E s) (nodes.getD (s.nWayNodes - 1) 0)) hcells
  rw [way_end_valid E s data _ _ hv hw h1 h2]
  unfold way_end_branch
  rw [if_neg (by rw [way_end_dicts_eq] at hopen ⊢; exact hopen), hline]
  simp only
  have hc0 : (way_end_dicts E s).nWayNodes = s.nWayNodes := by rw [way_end_dicts_eq]
  rw [hc0] at hl1 hl2
  have hout : (way_end_dicts E s).out = s.out ++
      [Call.buildmap_dictionary_add BuildMapDictionary.DictionaryPrefix [],
       Call.buildmap_dictionary_add BuildMapDictionary.DictionarySuffix [],
       Call.buildmap_dictionary_add BuildMapDictionary.DictionaryType []] := by
    rw [way_end_dicts_eq]
  have hdl := filter_nil_of_class is_line_add is_dictionary_add d hd
    (fun c hc => (dictionary_add_class c hc).1)
  have hds := filter_nil_of_class is_street_add is_dictionary_add d hd
    (fun c hc => (dictionary_add_class c hc).2.1)
  have hdr := filter_nil_of_class is_range_add is_dictionary_add d hd
    (fun c hc => (dictionary_add_class c hc).2.2.1)
  have hdp := filter_nil_of_class is_polygon_add is_dictionary_add d hd
    (fun c hc => (dictionary_add_class c hc).2.2.2.1)
  have hdm := filter_nil_of_class is_landmark_add is_dictionary_add d hd
    (fun c hc => (dictionary_add_class c hc).2.2.2.2)
  have hql := filter_nil_of_class is_line_add is_square_adjust sq hsq
    (fun c hc => (square_adjust_class c hc).1)
  have hqs := filter_nil_of_class is_street_add is_square_adjust sq hsq
    (fun c hc => (square_adjust_class c hc).2.1)
  have hqr := filter_nil_of_class is_range_add is_square_adjust sq hsq
    (fun c hc => (square_adjust_class c hc).2.2.1)
  have hqp := filter_nil_of_class is_polygon_add is_square_adjust sq hsq
    (fun c hc => (square_adjust_class c hc).2.2.2.1)
  have hqm := filter_nil_of_class is_landmark_add is_square_adjust sq hsq
    (fun c hc => (square_adjust_class c hc).2.2.2.2)
  have hwf : shapeinfo.wf ⟨s.lineid + 1, s.nWayNodes, lons, lats⟩ := ⟨hl1, hl2⟩
  refine ⟨_, [Call.buildmap_dictionary_add BuildMapDictionary.DictionaryPrefix [],
      Call.buildmap_dictionary_add BuildMapDictionary.DictionarySuffix [],
      Call.buildmap_dictionary_add BuildMapDictionary.DictionaryType []]
      ++ ([Call.buildmap_line_add (s.lineid + 1) s.WayLayer
            (buildmap_osm_text_point_get s (nodes.getD 0 0))
            (buildmap_osm_text_point_get s (nodes.getD (s.nWayNodes - 1) 0))]
        ++ (d ++ ([Call.buildmap_street_add s.WayLayer dirp name typ dirs
              (E.buildmap_line_add (way_end_dicts E s).out (s.lineid + 1) s.WayLayer
                (buildmap_osm_text_point_get s (nodes.getD 0 0))
                (buildmap_osm_text_point_get s (nodes.getD (s.nWayNodes - 1) 0))),
            Call.buildmap_range_add_no_address
              (E.buildmap_line_add (way_end_dicts E s).out (s.lineid + 1) s.WayLayer
                (buildmap_osm_text_point_get s (nodes.getD 0 0))
                (buildmap_osm_text_point_get s (nodes.getD (s.nWayNodes - 1) 0))) street]
          ++ sq))),
    { lineid := s.lineid + 1, count := s.nWayNodes, lons := lons, lats := lats },
    rfl, ?_, ?_, ⟨dirp, name, typ, dirs, street, ?_, ?_⟩, ?_, ?_, ?_, rfl, rfl,
    fun i s3 => shape_record_exact E _ i s3 hwf, ?_, ?_⟩
  · show (way_end_dicts E s).out ++ _ = _
    rw [hout]
    simp only [List.append_assoc, List.cons_append, List.nil_append]
    rfl
  · simp only [List.filter_append, hdl, hql]
    rfl
  · simp only [List.filter_append, hds, hqs]
    rfl
  · simp only [List.filter_append, hdr, hqr]
    rfl
  · simp only [List.filter_append, hdp, hqp]
    rfl
  · simp only [List.filter_append, hdm, hqm]
    rfl
  · show (way_end_dicts E s).shapes ++ _ = _
    rw [way_end_dicts_eq]
  · intro h i h3 hf
    unfold record_points
    rw [if_pos ⟨h3, hf⟩]
    unfold interior_points
    refine ⟨by simp, fun m hm => ⟨lons.getD (m + 1) 0, lats.getD (m + 1) 0, ?_⟩⟩
    rw [List.get?_eq_getElem?, List.getElem?_map, List.getElem?_range hm]
    rfl
  · intro h i h3
    unfold record_points
    rw [if_neg (fun hc => by have := hc.1; simp only at this; omega)]

/-- C3 witness: the way 10 of `sampleStreetWay` over the nodes 1, 2, 3, named
"Test St": one line from the point 0 to the point 2, one street, one range,
and one shape point at the flush. -/
theorem street_way_records_witness :
    ∃ s2 calls rec, buildmap_osm_text_way_end sampleExtern sampleStreetState []
          = Outcome.ok 0 s2
      ∧ s2.out = sampleStreetState.out ++ calls
      ∧ calls.filter is_line_add = [Call.buildmap_line_add 1 0 0 2]
      ∧ (calls.filter is_street_add).length = 1
      ∧ (calls.filter is_range_add).length = 1
      ∧ calls.filter is_polygon_add = []
      ∧ s2.shapes = [rec]
      ∧ (record_points sampleExtern s2.out rec 0).length = 1 := by
  have hW : sampleStreetState.WayNodes
      = some 1 :: some 2 :: some 3 :: List.replicate 97 none := by rfl
  have hn3 : sampleStreetState.nWayNodes = 3 := by rfl
  have hl0 : sampleStreetState.lineid = 0 := by rfl
  obtain ⟨s2, calls, rec, h1, h2, h3, ⟨_, _, _, _, _, h4, h5⟩, h6, _, h8, _, _, _, h12, _⟩ :=
    street_way_records sampleExtern sampleStreetState [] [1, 2, 3] (by rfl)
      (by rw [show sampleStreetState.in_way = 10 from by rfl]; decide)
      (by rw [hn3]; decide)
      ⟨by rfl, fun j hj => by
        rw [hW]
        have hj3 : j < 3 := hj
        interval_cases j <;> rfl⟩
      (fun h => absurd h.1 (by
        rw [show (way_end_dicts sampleExtern sampleStreetState).WayFlags = 0 from by rfl]
        decide))
  refine ⟨s2, calls, rec, h1, h2, h3.trans (by rfl), by rw [h4]; rfl, by rw [h5]; rfl, h6,
    h8, ?_⟩
  have := (h12 s2.out 0 (by rw [hn3]; decide) (by rw [hl0]; show (0 : Int) ≤ 0 + 1 - 1; decide)).1
  rw [hn3] at this
  exact this

/-! ### The name tag of a way -/

theorem scan_set_mem (p : Char → Bool) (s v rest : CString)
    (h : scan_set p s = some (v, rest)) : (∀ c ∈ v, p c = true) ∧ v ≠ [] := by
  unfold scan_set at h
  split at h
  · cases h
  · rename_i hne
    cases h
    exact ⟨fun c hc => List.mem_takeWhile_imp hc, hne⟩

theorem sscanf_tag_value (data : CString) (t v : CString)
    (h : sscanf_tag data = (some t, some v)) :
    (∀ c ∈ v, isquote c = false) ∧ v ≠ [] := by
  unfold sscanf_tag at h
  repeat' split at h
  all_goals first
    | (cases h; done)
    | (rename_i hv
       cases h
       obtain ⟨h1, h2⟩ := scan_set_mem _ _ _ _ hv
       exact ⟨fun c hc => by simpa using h1 c hc, h2⟩)

theorem scan_set_run (p : Char → Bool) (v rest : CString) (q : Char)
    (hv : ∀ c ∈ v, p c = true) (hne : v ≠ []) (hq : p q = false) :
    scan_set p (v ++ q :: rest) = some (v, q :: rest) := by
  have h1 : (v ++ q :: rest).takeWhile p = v := by
    rw [List.takeWhile_append_of_pos hv, List.takeWhile_cons, hq]
    simp
  have h2 : (v ++ q :: rest).dropWhile p = q :: rest := by
    rw [List.dropWhile_append_of_pos hv, List.dropWhile_cons, hq]
    simp
  unfold scan_set
  rw [h1, h2, if_neg hne]

theorem sscanf_tag_name_line (val rest : CString)
    (hne : val ≠ []) (hq : ∀ c ∈ val, isquote c = false) :
    sscanf_tag (name_tag_line val rest) = (some "name".toList, some val) := by
  have hrun := scan_set_run (fun c => !isquote c) val rest (Char.ofNat 34)
    (fun c hc => by simp [hq c hc]) hne (by decide)
  have h1 : scan_lit "tag".toList (name_tag_line val rest)
      = some (" k=\"name\" v=\"".toList ++ val ++ Char.ofNat 34 :: rest) := by rfl
  have h2 : skip_space (" k=\"name\" v=\"".toList ++ val ++ Char.ofNat 34 :: rest)
      = "k=\"name\" v=\"".toList ++ val ++ Char.ofNat 34 :: rest := by rfl
  have h3 : scan_lit "k=".toList ("k=\"name\" v=\"".toList ++ val ++ Char.ofNat 34 :: rest)
      = some ("\"name\" v=\"".toList ++ val ++ Char.ofNat 34 :: rest) := by rfl
  have h4 : scan_set isquote ("\"name\" v=\"".toList ++ val ++ Char.ofNat 34 :: rest)
      = some ("\"".toList, "name\" v=\"".toList ++ val ++ Char.ofNat 34 :: rest) := by rfl
  have h5 : scan_set (fun c => !isquote c)
        ("name\" v=\"".toList ++ val ++ Char.ofNat 34 :: rest)
      = some ("name".toList, "\" v=\"".toList ++ val ++ Char.ofNat 34 :: rest) := by rfl
  have h6 : scan_set isquote ("\" v=\"".toList ++ val ++ Char.ofNat 34 :: rest)
      = some ("\"".toList, " v=\"".toList ++ val ++ Char.ofNat 34 :: rest) := by rfl
  have h7 : skip_space (" v=\"".toList ++ val ++ Char.ofNat 34 :: rest)
      = "v=\"".toList ++ val ++ Char.ofNat 34 :: rest := by rfl
  have h8 : scan_lit "v=".toList ("v=\"".toList ++ val ++ Char.ofNat 34 :: rest)
      = some ("\"".toList ++ val ++ Char.ofNat 34 :: rest) := by rfl
  have h9 : scan_set isquote ("\"".toList ++ val ++ Char.ofNat 34 :: rest)
      = some ("\"".toList, val ++ Char.ofNat 34 :: rest) := by
    cases val with
    | nil => exact absurd rfl hne
    | cons a as =>
      have := scan_set_run isquote "\"".toList (as ++ Char.ofNat 34 :: rest) a
        (fun c hc => by
          rw [List.mem_singleton.mp hc]
          decide)
        (by decide) (hq a (List.mem_cons_self _ _))
      simpa using this
  unfold sscanf_tag
  rw [h1]
  simp only
  rw [h2, h3]
  simp only
  rw [h4]
  simp only
  rw [h5]
  simp only
  rw [h6]
  simp only
  rw [h7, h8]
  simp only
  rw [h9]
  simp only
  rw [hrun]

theorem tag_way_name (E : Extern) (s : State) (data val : CString)
    (hw : s.in_way ≠ 0) (hscan : sscanf_tag data = (some "name".toList, some val)) :
    buildmap_osm_text_tag E s data
      = Outcome.ok 0 { s with tag := some "name".toList, value := some val,
                              WayStreetName := some val } := by
  unfold buildmap_osm_text_tag
  rw [if_neg hw]
  simp only [hscan, assign, Option.orElse]
  rw [if_pos trivial]

/-- C21 (amended): for a tag line handled while a way is open whose scan
reads the key "name" and a value `val`, `buildmap_osm_text_tag` returns 0 and
sets the street name of the way to `val`, whatever name the way had; the
result is the same for every rule table and set of collaborators (no rule is
looked up and no call is made), and the flags, the layer, the node list, its
length and the validity flag are unchanged.  The value read is never empty
and holds no quote character; for a line `tag k="name" v="VAL"` it is `VAL`
whenever `VAL` is not empty and holds no quote character. -/
theorem name_tag_sets_street (E : Extern) (s : State) (data val : CString)
    (hw : s.in_way ≠ 0) (hscan : sscanf_tag data = (some "name".toList, some val)) :
    ∃ s2, buildmap_osm_text_tag E s data = Outcome.ok 0 s2
      ∧ s2.WayStreetName = some val
      ∧ (∀ E2 : Extern, buildmap_osm_text_tag E2 s data = Outcome.ok 0 s2)
      ∧ s2.WayFlags = s.WayFlags ∧ s2.WayLayer = s.WayLayer
      ∧ s2.WayNodes = s.WayNodes ∧ s2.nWayNodes = s.nWayNodes
      ∧ s2.WayInvalid = s.WayInvalid ∧ s2.in_way = s.in_way ∧ s2.out = s.out
      ∧ ((∀ c ∈ val, isquote c = false) ∧ val ≠ [])
      ∧ (∀ v rest : CString, v ≠ [] → (∀ c ∈ v, isquote c = false) →
          sscanf_tag (name_tag_line v rest) = (some "name".toList, some v)) :=
  ⟨_, tag_way_name E s data val hw hscan, rfl, fun E2 => tag_way_name E2 s data val hw hscan,
    rfl, rfl, rfl, rfl, rfl, rfl, rfl, sscanf_tag_value data _ val hscan,
    fun v rest hne hq => sscanf_tag_name_line v rest hne hq⟩

/-- C21 witness: the tag `name=Test St` on the open way 10. -/
theorem name_tag_sets_street_witness :
    sampleOpenWay.in_way ≠ 0
      ∧ sscanf_tag "tag k=\"name\" v=\"Test St\"/>\n".toList
          = (some "name".toList, some "Test St".toList)
      ∧ ∃ s2, buildmap_osm_text_tag sampleExtern sampleOpenWay
            "tag k=\"name\" v=\"Test St\"/>\n".toList = Outcome.ok 0 s2
          ∧ s2.WayStreetName = some "Test St".toList := by
  obtain ⟨s2, h1, h2, _⟩ :=
    name_tag_sets_street sampleExtern sampleOpenWay "tag k=\"name\" v=\"Test St\"/>\n".toList
      "Test St".toList (by decide) (by rfl)
  exact ⟨by decide, by rfl, s2, h1, h2⟩

/-- C21 counterexample: on the open way 10 the tag line
`<tag k="name" v="Rue de l'Eglise"/>`, whose key is "name", sets the street
name to "Rue de l", not to the value of the tag; and the lines
`<TAG k="name" v="Main St"/>` and `<tag v="Main St" k="name"/>` of
`sampleUnscannedNameTags`, which reach the tag branch of the chain, are not
read by the scan of the handler: the street name is not set and each of the
two lines returns the layer 5 of the rule of the tag line before them, whose
key and value are still in the buffers (the three tag lines return 15
together). -/
theorem name_tag_cut_at_apostrophe :
    sscanf_tag sampleApostropheTag = (some "name".toList, some "Rue de l".toList)
      ∧ buildmap_osm_text_tag sampleExtern sampleOpenWay sampleApostropheTag
          = Outcome.ok 0 { sampleOpenWay with tag := some "name".toList,
                                              value := some "Rue de l".toList,
                                              WayStreetName := some "Rue de l".toList }
      ∧ (buildmap_osm_text_tag sampleExtern sampleOpenWay sampleApostropheTag).state.WayStreetName
          ≠ some sampleApostropheValue
      ∧ line_token "    <TAG k=\"name\" v=\"Main St\"/>\n".toList = some Token.tag
      ∧ sscanf_tag "TAG k=\"name\" v=\"Main St\"/>\n".toList = (none, none)
      ∧ line_token "    <tag v=\"Main St\" k=\"name\"/>\n".toList = some Token.tag
      ∧ sscanf_tag "tag v=\"Main St\" k=\"name\"/>\n".toList = (none, none)
      ∧ (run_lines (pass2_line sampleExtern) sampleUnscannedNameTags 0
          State.init).state.WayStreetName = none
      ∧ (run_lines (pass2_line sampleExtern) sampleUnscannedNameTags 0 State.init).ret = 15 := by
  refine ⟨by rfl, by rfl, ?_, by rfl, by rfl, by rfl, by rfl, by rfl, by rfl⟩
  rw [show (buildmap_osm_text_tag sampleExtern sampleOpenWay
    sampleApostropheTag).state.WayStreetName = some "Rue de l".toList from by rfl]
  decide

/-! ### The node list of a way and the Point Table -/

theorem array_get_nat (a : List (Option Int)) (j : Nat) :
    array_get a (j : Int) = a.getD j none := by
  unfold array_get
  rw [if_neg (by omega)]
  simp

theorem point_scan_stable (xs ys : List points_t) (k : Int) (h : 0 ≤ point_scan xs k) :
    point_scan (xs ++ ys) k = point_scan xs k := by
  rw [point_scan_append]
  by_cases hx : ∃ e ∈ xs, e.id = k
  · rw [if_pos hx]
  · have := point_scan_absent xs k (fun e he hek => hx ⟨e, he, hek⟩)
    omega

theorem way_nodes_resolve_of_same (s s2 : State) (hn : s2.nWayNodes = s.nWayNodes)
    (hw : s2.WayNodes = s.WayNodes) (hp : s.points <+: s2.points) (h : WayNodesResolve s) :
    WayNodesResolve s2 := by
  intro j hj
  obtain ⟨id, h1, h2⟩ := h j (by rw [← hn]; exact hj)
  obtain ⟨t, ht⟩ := hp
  refine ⟨id, by rw [hw]; exact h1, ?_⟩
  unfold buildmap_osm_text_point_get at h2 ⊢
  rw [← ht, point_scan_stable _ _ _ h2]
  exact h2

theorem way_nodes_resolve_pass1 (s s2 : State) (hs : Pass1Step s s2) (h : WayNodesResolve s) :
    WayNodesResolve s2 := by
  obtain ⟨he, _, hp, _⟩ := hs
  exact way_nodes_resolve_of_same s s2 (congrArg State.nWayNodes he : _)
    (congrArg State.WayNodes he : _) hp h

theorem way_nodes_resolve_nd (s : State) (data : CString) (r : Int) (s2 : State)
    (hnd : buildmap_osm_text_nd s data = Outcome.ok r s2) (h : WayNodesResolve s) :
    WayNodesResolve s2 := by
  unfold buildmap_osm_text_nd at hnd
  split at hnd
  · cases hnd
  · split at hnd
    · cases hnd
      exact h
    · rename_i node hscan
      split at hnd
      · cases hnd
        exact way_nodes_resolve_of_same s _ rfl rfl (List.prefix_refl _) h
      · rename_i hres
        split at hnd
        · cases hnd
        · rename_i s1 hpush
          cases hnd
          unfold way_nodes_push at hpush
          split at hpush
          · rename_i hlt
            cases hpush
            have hgn : (way_nodes_grow s).nWayNodes = s.nWayNodes := by
              unfold way_nodes_grow
              split <;> rfl
            have hgp : (way_nodes_grow s).points = s.points := by
              unfold way_nodes_grow
              split <;> rfl
            have hgw : ∀ j, j < s.WayNodes.length →
                (way_nodes_grow s).WayNodes.getD j none = s.WayNodes.getD j none := by
              intro j hj
              unfold way_nodes_grow
              split
              · show (s.WayNodes ++ List.replicate 100 none).getD j none = _
                simp only [List.getD_eq_getElem?_getD]
                rw [List.getElem?_append_left hj]
              · rfl
            intro j hj
            have hj2 : j < s.nWayNodes + 1 := by
              have : j < (way_nodes_grow s).nWayNodes + 1 := hj
              rw [hgn] at this
              exact this
            by_cases hjn : j = s.nWayNodes
            · refine ⟨node, ?_, ?_⟩
              · rw [array_get_nat, hjn]
                show ((way_nodes_grow s).WayNodes.set (way_nodes_grow s).nWayNodes
                  (some node)).getD s.nWayNodes none = some node
                rw [← hgn]
                simp only [List.getD_eq_getElem?_getD]
                rw [List.getElem?_set_self hlt]
                rfl
              · show 0 ≤ point_scan (way_nodes_grow s).points node
                rw [hgp]
                have : ¬ point_scan s.points node < 0 := hres
                omega
            · obtain ⟨id, h1, h2⟩ := h j (by omega)
              rw [array_get_nat] at h1
              have hjl : j < s.WayNodes.length := by
                by_contra hc
                rw [List.getD_eq_getElem?_getD, List.getElem?_eq_none (by omega)] at h1
                cases h1
              refine ⟨id, ?_, ?_⟩
              · rw [array_get_nat]
                show ((way_nodes_grow s).WayNodes.set (way_nodes_grow s).nWayNodes
                  (some node)).getD j none = some id
                simp only [List.getD_eq_getElem?_getD] at h1 ⊢
                rw [List.getElem?_set_ne (by rw [hgn]; omega)]
                have := hgw j hjl
                simp only [List.getD_eq_getElem?_getD] at this
                rw [this]
                exact h1
              · show 0 ≤ point_scan (way_nodes_grow s).points id
                rw [hgp]
                exact h2
          · cases hpush

theorem way_nodes_resolve_reachable (E : Extern) (s : State) (h : Reachable E s) :
    WayNodesResolve s := by
  induction h with
  | init => intro j hj; cases hj
  | node s data r s2 _ hstep ih =>
    exact way_nodes_resolve_pass1 s s2 (node_step E s data r s2 hstep) ih
  | node_end s data r s2 _ hstep ih =>
    exact way_nodes_resolve_pass1 s s2 (node_end_step E s data r s2 hstep) ih
  | tag s data r s2 _ hstep ih =>
    exact way_nodes_resolve_pass1 s s2 (tag_step1 E s data r s2 hstep) ih
  | way s data r s2 _ hstep ih =>
    have hfr := way_frame s data r s2 hstep
    have hp : s2.points = s.points := (congrArg State.points hfr : _)
    exact way_nodes_resolve_of_same s s2 (congrArg State.nWayNodes hfr : _)
      (congrArg State.WayNodes hfr : _) (by rw [hp]) ih
  | nd s data r s2 _ hstep ih => exact way_nodes_resolve_nd s data r s2 hstep ih
  | way_end s data r s2 _ hstep ih =>
    obtain ⟨_, hcase⟩ := way_end_effect E s data r s2 hstep
    rcases hcase with ⟨_, rfl⟩ | ⟨_, _, _, _, hn0, _⟩
    · exact ih
    · intro j hj
      rw [hn0] at hj
      cases hj

theorem reachable_pass1_line (E : Extern) (s : State) (buf : CString) (r : Int) (s2 : State)
    (hs : Reachable E s) (h : pass1_line E s buf = Outcome.ok r s2) : Reachable E s2 := by
  unfold pass1_line at h
  split at h
  · cases h; exact hs
  · cases h
  · rename_i p _
    generalize token p = tk at h
    cases tk <;> simp only [pass1_token] at h
    case node => exact Reachable.node s p r s2 hs h
    case node_end => exact Reachable.node_end s p r s2 hs h
    case tag => exact Reachable.tag s p r s2 hs h
    case invalid => cases h
    all_goals (cases h; exact hs)

theorem reachable_pass2_line (E : Extern) (s : State) (buf : CString) (r : Int) (s2 : State)
    (hs : Reachable E s) (h : pass2_line E s buf = Outcome.ok r s2) : Reachable E s2 := by
  unfold pass2_line at h
  split at h
  · cases h; exact hs
  · cases h
  · rename_i p _
    generalize token p = tk at h
    cases tk <;> simp only [pass2_token] at h
    case way => exact Reachable.way s p r s2 hs h
    case way_end => exact Reachable.way_end s p r s2 hs h
    case nd => exact Reachable.nd s p r s2 hs h
    case tag => exact Reachable.tag s p r s2 hs h
    case invalid => cases h
    all_goals (cases h; exact hs)

theorem reachable_run (E : Extern) (body : State → CString → Outcome)
    (hbody : ∀ s buf r s2, Reachable E s → body s buf = Outcome.ok r s2 → Reachable E s2)
    (lines : List CString) (r0 : Int) (s : State) (r : Int) (s2 : State)
    (hs : Reachable E s) (h : run_lines body lines r0 s = Outcome.ok r s2) : Reachable E s2 := by
  induction lines generalizing r0 s with
  | nil =>
    simp only [run_lines] at h
    cases h
    exact hs
  | cons buf rest ih =>
    simp only [run_lines] at h
    split at h
    · rename_i r1 s1 h1
      exact ih _ _ (hbody s buf r1 s1 hs h1) h
    · cases h
    · cases h

theorem way_nodes_are_of_resolve (s : State) (h : WayNodesResolve s) :
    WayNodesAre s (way_node_ids s)
      ∧ ∀ id ∈ way_node_ids s, 0 ≤ buildmap_osm_text_point_get s id := by
  have hlen : (way_node_ids s).length = s.nWayNodes := by simp [way_node_ids]
  have hget : ∀ j, j < s.nWayNodes → ∃ id, array_get s.WayNodes (j : Int) = some id
      ∧ (way_node_ids s).getD j 0 = id ∧ 0 ≤ buildmap_osm_text_point_get s id := by
    intro j hj
    obtain ⟨id, h1, h2⟩ := h j hj
    refine ⟨id, h1, ?_, h2⟩
    rw [array_get_nat] at h1
    unfold way_node_ids
    rw [List.getD_eq_getElem?_getD, List.getElem?_map, List.getElem?_range hj]
    simp only [Option.map_some', Option.getD_some]
    rw [h1]
    rfl
  refine ⟨⟨hlen, fun j hj => ?_⟩, fun id hid => ?_⟩
  · obtain ⟨id, h1, h2, _⟩ := hget j (by rw [← hlen]; exact hj)
    rw [h1, h2]
  · unfold way_node_ids at hid
    obtain ⟨j, hj, hjid⟩ := List.mem_map.mp hid
    obtain ⟨id2, h1, _, h3⟩ := hget j (List.mem_range.mp hj)
    rw [array_get_nat] at h1
    rw [h1] at hjid
    simp only [Option.getD_some] at hjid
    rw [← hjid]
    exact h3

theorem area_calls_points (points : List points_t) (layer : Int) (nodes : List Int)
    (lineid : Int) :
    ∀ c ∈ area_calls points layer nodes lineid, ∃ l a b, a ∈ nodes ∧ b ∈ nodes
      ∧ c = Call.buildmap_line_add l layer (point_scan points a) (point_scan points b) := by
  induction nodes generalizing lineid with
  | nil => intro c hc; cases hc
  | cons a rest ih =>
    cases rest with
    | nil => intro c hc; cases hc
    | cons b rest2 =>
      intro c hc
      simp only [area_calls, List.mem_cons] at hc
      rcases hc with rfl | hc
      · exact ⟨_, a, b, by simp, by simp, rfl⟩
      · obtain ⟨l, x, y, hx, hy, hxy⟩ := ih _ c hc
        exact ⟨l, x, y, List.mem_cons_of_mem _ hx, List.mem_cons_of_mem _ hy, hxy⟩

theorem getD_mem_of_lt (nodes : List Int) (j : Nat) (h : j < nodes.length) :
    nodes.getD j 0 ∈ nodes := by
  rw [List.getD_eq_getElem?_getD, List.getElem?_eq_getElem h]
  exact List.getElem_mem h

theorem way_end_points (E : Extern) (s : State) (data : CString) (nodes : List Int)
    (hv : s.WayInvalid = 0) (hw : s.in_way ≠ 0) (hn : 1 ≤ s.nWayNodes)
    (hnodes : WayNodesAre s nodes)
    (hres : ∀ id ∈ nodes, 0 ≤ buildmap_osm_text_point_get s id) :
    ∃ s2 calls, buildmap_osm_text_way_end E s data = Outcome.ok 0 s2
      ∧ s2.out = s.out ++ calls
      ∧ ∀ lid layer fp tp, Call.buildmap_line_add lid layer fp tp ∈ calls → 0 ≤ fp ∧ 0 ≤ tp := by
  have h1 : array_get s.WayNodes 0 = some (nodes.getD 0 0) := by
    have := hnodes.2 0 (by rw [hnodes.1]; omega)
    simpa using this
  have h2 : array_get s.WayNodes ((s.nWayNodes : Int) - 1)
      = some (nodes.getD (s.nWayNodes - 1) 0) := by
    have := hnodes.2 (s.nWayNodes - 1) (by rw [hnodes.1]; omega)
    rw [show ((s.nWayNodes : Int) - 1) = ((s.nWayNodes - 1 : Nat) : Int) by omega]
    exact this
  have hfirst : 0 ≤ buildmap_osm_text_point_get s (nodes.getD 0 0) :=
    hres _ (getD_mem_of_lt nodes 0 (by rw [hnodes.1]; omega))
  have hlast : 0 ≤ buildmap_osm_text_point_get s (nodes.getD (s.nWayNodes - 1) 0) :=
    hres _ (getD_mem_of_lt nodes _ (by rw [hnodes.1]; omega))
  have hout : (way_end_dicts E s).out = s.out ++
      [Call.buildmap_dictionary_add BuildMapDictionary.DictionaryPrefix [],
       Call.buildmap_dictionary_add BuildMapDictionary.DictionarySuffix [],
       Call.buildmap_dictionary_add BuildMapDictionary.DictionaryType []] := by
    rw [way_end_dicts_eq]
  have hpts : (way_end_dicts E s).points = s.points := by rw [way_end_dicts_eq]
  rw [way_end_valid E s data _ _ hv hw h1 h2]
  unfold way_end_branch
  by_cases harea : way_is_area E (way_end_dicts E s)
      (buildmap_osm_text_point_get (way_end_dicts E s) (nodes.getD 0 0))
      (buildmap_osm_text_point_get (way_end_dicts E s) (nodes.getD (s.nWayNodes - 1) 0))
  · have hnodes0 : WayNodesAre (way_end_dicts E s) nodes := by
      rw [way_end_dicts_eq]
      exact hnodes
    have hn0 : 1 ≤ (way_end_dicts E s).nWayNodes := by
      rw [way_end_dicts_eq]
      exact hn
    rw [if_pos harea, way_end_area_exact E _ nodes hn0 hnodes0]
    simp only
    refine ⟨_, [Call.buildmap_dictionary_add BuildMapDictionary.DictionaryPrefix [],
        Call.buildmap_dictionary_add BuildMapDictionary.DictionarySuffix [],
        Call.buildmap_dictionary_add BuildMapDictionary.DictionaryType []]
        ++ (Call.buildmap_dictionary_add BuildMapDictionary.DictionaryStreet
              ((way_end_dicts E s).WayStreetName.getD [])
          :: Call.buildmap_polygon_add_landmark ((way_end_dicts E s).nPolygons + 1)
              (way_end_dicts E s).WayLayer
              (E.buildmap_dictionary_add (way_end_dicts E s).out
                BuildMapDictionary.DictionaryStreet ((way_end_dicts E s).WayStreetName.getD []))
          :: Call.buildmap_polygon_add ((way_end_dicts E s).nPolygons + 1)
              ((way_end_dicts E s).cenid + 1) ((way_end_dicts E s).polyid + 1)
          :: area_calls (way_end_dicts E s).points (way_end_dicts E s).WayLayer nodes
              (way_end_dicts E s).lineid), rfl, ?_, ?_⟩
    · show (way_end_dicts E s).out ++ _ = _
      rw [hout, List.append_assoc]
    · intro lid layer fp tp hc
      rcases List.mem_append.mp hc with hc | hc
      · simp only [List.mem_cons, List.not_mem_nil, or_false] at hc
        rcases hc with hc | hc | hc <;> cases hc
      · simp only [List.mem_cons] at hc
        rcases hc with hc | hc | hc | hc
        · cases hc
        · cases hc
        · cases hc
        · obtain ⟨l, a, b, ha, hb, hab⟩ := area_calls_points _ _ _ _ _ hc
          cases hab
          rw [hpts]
          exact ⟨hres a ha, hres b hb⟩
  · have hcells : ∀ m, m < (way_end_dicts E s).nWayNodes →
        ∃ a, array_get (way_end_dicts E s).WayNodes (m : Int) = some a := by
      rw [way_end_dicts_eq]
      intro m hm
      exact ⟨_, hnodes.2 m (by rw [hnodes.1]; exact hm)⟩
    obtain ⟨d, sq, dirp, name, typ, dirs, street, lons, lats, hline, hd, hsq, _, _⟩ :=
      way_end_line_exact E s.out (way_end_dicts E s)
        (buildmap_osm_text_point_get (way_end_dicts E s) (nodes.getD 0 0))
        (buildmap_osm_text_point_get (way_end_dicts E s) (nodes.getD (s.nWayNodes - 1) 0)) hcells
    rw [if_neg harea, hline]
    simp only
    refine ⟨_, [Call.buildmap_dictionary_add BuildMapDictionary.DictionaryPrefix [],
        Call.buildmap_dictionary_add BuildMapDictionary.DictionarySuffix [],
        Call.buildmap_dictionary_add BuildMapDictionary.DictionaryType []]
        ++ ((Call.buildmap_line_add ((way_end_dicts E s).lineid + 1) (way_end_dicts E s).WayLayer
              (buildmap_osm_text_point_get (way_end_dicts E s) (nodes.getD 0 0))
              (buildmap_osm_text_point_get (way_end_dicts E s) (nodes.getD (s.nWayNodes - 1) 0))
            :: d ++
            [Call.buildmap_street_add (way_end_dicts E s).WayLayer dirp name typ dirs
               (E.buildmap_line_add (way_end_dicts E s).out ((way_end_dicts E s).lineid + 1)
                 (way_end_dicts E s).WayLayer
                 (buildmap_osm_text_point_get (way_end_dicts E s) (nodes.getD 0 0))
                 (buildmap_osm_text_point_get (way_end_dicts E s)
                   (nodes.getD (s.nWayNodes - 1) 0))),
             Call.buildmap_range_add_no_address
               (E.buildmap_line_add (way_end_dicts E s).out ((way_end_dicts E s).lineid + 1)
                 (way_end_dicts E s).WayLayer
                 (buildmap_osm_text_point_get (way_end_dicts E s) (nodes.getD 0 0))
                 (buildmap_osm_text_point_get (way_end_dicts E s)
                   (nodes.getD (s.nWayNodes - 1) 0))) street])
          ++ sq), rfl, ?_, ?_⟩
    · show (way_end_dicts E s).out ++ _ = _
      rw [hout, List.append_assoc]
    · intro lid layer fp tp hc
      rcases List.mem_append.mp hc with hc | hc
      · simp only [List.mem_cons, List.not_mem_nil, or_false] at hc
        rcases hc with hc | hc | hc <;> cases hc
      · rcases List.mem_append.mp hc with hc | hc
        · rcases List.mem_append.mp hc with hc | hc
          · rcases List.mem_cons.mp hc with hc | hc
            · cases hc
              unfold buildmap_osm_text_point_get at hfirst hlast ⊢
              rw [hpts]
              exact ⟨hfirst, hlast⟩
            · have := hd _ hc
              cases this
          · simp only [List.mem_cons, List.not_mem_nil, or_false] at hc
            rcases hc with hc | hc <;> cases hc
        · have := hsq _ hc
          cases this

/-- C22: in every state that handler calls reach from the initial state,
each of the first `nWayNodes` cells of `WayNodes` holds a node identifier
that `buildmap_osm_text_point_get` resolves to a non-negative index; and
when such a state has a valid open way with at least one node, the way-close
returns 0 and every `buildmap_line_add` call it makes carries non-negative
point indices (the coordinates it reads are those of the points of
`way_node_ids`).  Nothing is said here of a way without nodes. -/
theorem way_close_indices (E : Extern) (s : State) (h : Reachable E s) :
    WayNodesResolve s
      ∧ (∀ id ∈ way_node_ids s, 0 ≤ buildmap_osm_text_point_get s id)
      ∧ (s.WayInvalid = 0 → s.in_way ≠ 0 → 1 ≤ s.nWayNodes → ∀ data : CString,
          ∃ s2 calls, buildmap_osm_text_way_end E s data = Outcome.ok 0 s2
            ∧ s2.out = s.out ++ calls
            ∧ ∀ lid layer fp tp, Call.buildmap_line_add lid layer fp tp ∈ calls →
                0 ≤ fp ∧ 0 ≤ tp) := by
  have hinv := way_nodes_resolve_reachable E s h
  obtain ⟨hare, hres⟩ := way_nodes_are_of_resolve s hinv
  exact ⟨hinv, hres, fun hv hw hn data =>
    way_end_points E s data (way_node_ids s) hv hw hn hare hres⟩

/-- C22 witness: the state `sampleStreetState`, whose open way 10 holds the
nodes 1, 2, 3, and the state `sampleEmptyWayState`, whose open way 11 holds
no node: both are reached, in both the stored identifiers resolve, and in
the second the way-close reads outside the node list (its result is
undefined). -/
theorem way_close_indices_witness :
    (Reachable sampleExtern sampleStreetState
      ∧ way_node_ids sampleStreetState = [1, 2, 3]
      ∧ ∀ id ∈ way_node_ids sampleStreetState,
          0 ≤ buildmap_osm_text_point_get sampleStreetState id)
    ∧ (Reachable sampleExtern sampleEmptyWayState
      ∧ WayNodesResolve sampleEmptyWayState
      ∧ sampleEmptyWayState.in_way = 11 ∧ sampleEmptyWayState.WayInvalid = 0
      ∧ sampleEmptyWayState.nWayNodes = 0
      ∧ buildmap_osm_text_way_end sampleExtern sampleEmptyWayState "/way>\n".toList
          = Outcome.undefined) := by
  have hr1 : Reachable sampleExtern
      (run_lines (pass1_line sampleExtern) sampleAreaNodes 0 State.init).state :=
    reachable_run sampleExtern (pass1_line sampleExtern) (reachable_pass1_line sampleExtern)
      sampleAreaNodes 0 State.init 0 _ Reachable.init (by rfl)
  have hr2 : Reachable sampleExtern sampleStreetState :=
    reachable_run sampleExtern (pass2_line sampleExtern) (reachable_pass2_line sampleExtern)
      sampleStreetWay 0 _ 0 _ hr1 (by rfl)
  have hr3 : Reachable sampleExtern
      (run_lines (pass1_line sampleExtern) (sampleTwoWays.take 2) 0 State.init).state :=
    reachable_run sampleExtern (pass1_line sampleExtern) (reachable_pass1_line sampleExtern)
      (sampleTwoWays.take 2) 0 State.init 0 _ Reachable.init (by rfl)
  have hr4 : Reachable sampleExtern sampleEmptyWayState :=
    reachable_run sampleExtern (pass2_line sampleExtern) (reachable_pass2_line sampleExtern)
      sampleEmptySecondWay 0 _ 0 _ hr3 (by rfl)
  exact ⟨⟨hr2, by rfl, (way_close_indices sampleExtern sampleStreetState hr2).2.1⟩,
    hr4, (way_close_indices sampleExtern sampleEmptyWayState hr4).1, by rfl, by rfl, by rfl,
    by rfl⟩

/-- C23: a state with a valid open way and `nWayNodes = 0` is not excluded:
there the index `nWayNodes - 1` of the second read of
`buildmap_osm_text_way_end` is -1, outside the array whatever it holds, and
the result of the way-close is undefined. -/
theorem way_end_reads_outside (E : Extern) (s : State) (data : CString)
    (hv : s.WayInvalid = 0) (hw : s.in_way ≠ 0) (hn : s.nWayNodes = 0) :
    array_get s.WayNodes ((s.nWayNodes : Int) - 1) = none
      ∧ buildmap_osm_text_way_end E s data = Outcome.undefined := by
  have h2 : array_get s.WayNodes ((s.nWayNodes : Int) - 1) = none := by
    unfold array_get
    rw [if_pos (by rw [hn]; decide)]
  have e1 : (way_end_dicts E s).WayNodes = s.WayNodes := by rw [way_end_dicts_eq]
  have e2 : (way_end_dicts E s).nWayNodes = s.nWayNodes := by rw [way_end_dicts_eq]
  refine ⟨h2, ?_⟩
  unfold buildmap_osm_text_way_end
  rw [if_neg (by simpa using hv), if_neg hw, e1, e2, h2]
  split
  · rename_i heq
    cases heq
  · rfl

/-- C23 witness: the file `sampleEmptyWay`, a way-open line directly followed
by its way-close line.  After the way-open line the way 10 is open and valid
with `nWayNodes = 0` and an array without cells; both reads of the way-close
are outside the array and the run has no defined result. -/
theorem way_end_reads_outside_witness :
    run_lines (pass2_line sampleExtern) (sampleEmptyWay.take 1) 0 State.init
        = Outcome.ok 0 { State.init with in_way := 10 }
      ∧ Reachable sampleExtern { State.init with in_way := 10 }
      ∧ array_get ({ State.init with in_way := 10 } : State).WayNodes 0 = none
      ∧ (array_get ({ State.init with in_way := 10 } : State).WayNodes
            ((({ State.init with in_way := 10 } : State).nWayNodes : Int) - 1) = none
          ∧ buildmap_osm_text_way_end sampleExtern { State.init with in_way := 10 }
              "/way>\n".toList = Outcome.undefined)
      ∧ buildmap_osm_text_read sampleExtern State.init sampleEmptyWay = Outcome.undefined :=
  ⟨by rfl,
    reachable_run sampleExtern (pass2_line sampleExtern) (reachable_pass2_line sampleExtern)
      (sampleEmptyWay.take 1) 0 State.init 0 _ Reachable.init (by rfl),
    by rfl,
    way_end_reads_outside sampleExtern { State.init with in_way := 10 } "/way>\n".toList
      (by rfl) (by decide) (by rfl),
    by rfl⟩

/-! ### The range of `%d` -/

theorem int_of_long_range (v : Int) :
    -2147483648 ≤ int_of_long v ∧ int_of_long v ≤ 2147483647 := by
  unfold int_of_long
  have h1 := Int.emod_nonneg (v + 2147483648) (by decide : (4294967296 : Int) ≠ 0)
  have h2 := Int.emod_lt_of_pos (v + 2147483648) (by decide : (0 : Int) < 4294967296)
  omega

theorem int_of_long_small (v : Int) (h1 : -2147483648 ≤ v) (h2 : v ≤ 2147483647) :
    int_of_long (long_of_value v) = v := by
  unfold int_of_long long_of_value
  rw [if_neg (by omega), if_neg (by omega)]
  omega

theorem scan_d_range (s : CString) (v : Int) (rest : CString) (h : scan_d s = some (v, rest)) :
    -2147483648 ≤ v ∧ v ≤ 2147483647 := by
  unfold scan_d at h
  split at h
  · cases h
  · cases h
    exact int_of_long_range _

/-- Identifiers of magnitude 2^31 and more as `%d` stores them: the reference
4294967297 is stored as 1, the way identifier 4294967296 as 0, 2147483648 as
-2147483648, and a number beyond the range of `long` as -1. -/
theorem scan_d_wraps :
    sscanf_nd "nd ref=\"4294967297\"/>\n".toList = some 1
      ∧ sscanf_way "way id=\"4294967296\">\n".toList = some 0
      ∧ scan_d "2147483648".toList = some (-2147483648, [])
      ∧ scan_d "99999999999999999999".toList = some (-1, [])
      ∧ scan_d "-99999999999999999999".toList = some (0, []) := by
  refine ⟨by rfl, by rfl, by rfl, by rfl, by rfl⟩

/-- The coordinates that `sample_micro` gives where the product with 1000000
is not the decimal text without its point. -/
theorem sample_micro_values :
    sample_micro "8.200000".toList = some 8199999
      ∧ sample_micro "-0.127758".toList = some (-127758)
      ∧ sample_micro "3.000100".toList = some 3000100
      ∧ sample_micro "50.000000".toList = some 50000000
      ∧ sample_micro "4.35".toList = some 4350000 := by
  refine ⟨by rfl, by rfl, by rfl, by rfl, by rfl⟩

end BuildmapOsmText
